import Mathlib

/-!
Verification development for the crust C11 front end
(`src/parser.rs`): a recursive-descent parser with inline type
annotation.  The parser functions below are transcribed one-for-one
from the Rust source; Rust's `Result`-with-`?` control flow becomes
explicit matching on a result type, Rust's loops become fuel-indexed
recursive helper functions, and an out-of-bounds slice index
(`toks[pos]` without a preceding bounds check) is modelled by the
dedicated `fault` outcome, mirroring the panic it produces at run
time.  Error message strings are simplified (the Rust code formats the
offending token and position into the message; the text of a message
is never load-bearing here except for the driver message, which keeps
the source-file label exactly as in the source).

The crate modules `lexer`, `ast`, `symtable` and `sema` are not part
of the given sources; their data types are reconstructed from the
parser's usage and the specification, and the semantic-rule oracle is
an abstract structure (`Sema`) plus one concrete model (`specSema`)
built from the specification's description of its call contract.
-/

set_option maxHeartbeats 8000000

namespace Crust

/-- Modelled from the spec: the token vocabulary produced by the lexer
(`lexer::TokType`), covering C11 keywords, identifiers, constants,
string literals with an encoding tag, the `__func__` pseudo-token and
all punctuators, reconstructed from the constructors the parser
matches on. Integer constants carry an integer value, float constants
a numeric value (modelled as a rational). -/
inductive TokType where
  | IDENTIFIER (name : String)
  | IConstant (val : Int)
  | FConstant (val : Rat)
  | EnumerationConstant (name : String)
  | StringLiteral (val : String) (tag : Nat)
  | FuncName
  | GENERIC
  | LParen | RParen | LBracket | RBracket | LBrace | RBrace
  | Comma | Colon | Semicolon | Dot | QuestionMark | ELLIPSIS
  | PtrOp | IncOp | DecOp
  | SIZEOF | ALIGNOF
  | SingleAnd | Multi | Plus | Minus | Tilde | Exclamation | Splash | Mod
  | LeftOp | RightOp | Lt | Gt | LeOp | GeOp | EqOp | NeOp
  | ExclusiveOr | InclusiveOr | AndOp | OrOp | And
  | Assign | MulAssign | DivAssign | ModAssign | AddAssign | SubAssign
  | LeftAssign | RightAssign | AndAssign | XorAssign | OrAssign
  | TYPEDEF | EXTERN | STATIC | ThreadLocal | AUTO | REGISTER
  | VOID | CHAR | SHORT | INT | LONG | FLOAT | DOUBLE
  | SIGNED | UNSIGNED | BOOL | COMPLEX | IMAGINARY | TypedefName
  | STRUCT | UNION | ENUM | ATOMIC
  | CONST | RESTRICT | VOLATILE | INLINE | NORETURN | ALIGNAS
  | StaticAssert
  | CASE | DEFAULT | IF | ELSE | SWITCH | WHILE | DO | FOR
  | GOTO | CONTINUE | BREAK | RETURN

/-- Injective encoding of tokens used to derive decidable equality
(the automatic handler cannot cope with this many constructors). -/
def TokType.enc : TokType → Nat × String × Nat × Int × Rat
  | .IDENTIFIER s => (0, s, 0, 0, 0)
  | .IConstant v => (1, "", 0, v, 0)
  | .FConstant v => (2, "", 0, 0, v)
  | .EnumerationConstant s => (3, s, 0, 0, 0)
  | .StringLiteral s t => (4, s, t, 0, 0)
  | .FuncName => (5, "", 0, 0, 0)
  | .GENERIC => (6, "", 0, 0, 0)
  | .LParen => (7, "", 0, 0, 0)
  | .RParen => (8, "", 0, 0, 0)
  | .LBracket => (9, "", 0, 0, 0)
  | .RBracket => (10, "", 0, 0, 0)
  | .LBrace => (11, "", 0, 0, 0)
  | .RBrace => (12, "", 0, 0, 0)
  | .Comma => (13, "", 0, 0, 0)
  | .Colon => (14, "", 0, 0, 0)
  | .Semicolon => (15, "", 0, 0, 0)
  | .Dot => (16, "", 0, 0, 0)
  | .QuestionMark => (17, "", 0, 0, 0)
  | .ELLIPSIS => (18, "", 0, 0, 0)
  | .PtrOp => (19, "", 0, 0, 0)
  | .IncOp => (20, "", 0, 0, 0)
  | .DecOp => (21, "", 0, 0, 0)
  | .SIZEOF => (22, "", 0, 0, 0)
  | .ALIGNOF => (23, "", 0, 0, 0)
  | .SingleAnd => (24, "", 0, 0, 0)
  | .Multi => (25, "", 0, 0, 0)
  | .Plus => (26, "", 0, 0, 0)
  | .Minus => (27, "", 0, 0, 0)
  | .Tilde => (28, "", 0, 0, 0)
  | .Exclamation => (29, "", 0, 0, 0)
  | .Splash => (30, "", 0, 0, 0)
  | .Mod => (31, "", 0, 0, 0)
  | .LeftOp => (32, "", 0, 0, 0)
  | .RightOp => (33, "", 0, 0, 0)
  | .Lt => (34, "", 0, 0, 0)
  | .Gt => (35, "", 0, 0, 0)
  | .LeOp => (36, "", 0, 0, 0)
  | .GeOp => (37, "", 0, 0, 0)
  | .EqOp => (38, "", 0, 0, 0)
  | .NeOp => (39, "", 0, 0, 0)
  | .ExclusiveOr => (40, "", 0, 0, 0)
  | .InclusiveOr => (41, "", 0, 0, 0)
  | .AndOp => (42, "", 0, 0, 0)
  | .OrOp => (43, "", 0, 0, 0)
  | .And => (44, "", 0, 0, 0)
  | .Assign => (45, "", 0, 0, 0)
  | .MulAssign => (46, "", 0, 0, 0)
  | .DivAssign => (47, "", 0, 0, 0)
  | .ModAssign => (48, "", 0, 0, 0)
  | .AddAssign => (49, "", 0, 0, 0)
  | .SubAssign => (50, "", 0, 0, 0)
  | .LeftAssign => (51, "", 0, 0, 0)
  | .RightAssign => (52, "", 0, 0, 0)
  | .AndAssign => (53, "", 0, 0, 0)
  | .XorAssign => (54, "", 0, 0, 0)
  | .OrAssign => (55, "", 0, 0, 0)
  | .TYPEDEF => (56, "", 0, 0, 0)
  | .EXTERN => (57, "", 0, 0, 0)
  | .STATIC => (58, "", 0, 0, 0)
  | .ThreadLocal => (59, "", 0, 0, 0)
  | .AUTO => (60, "", 0, 0, 0)
  | .REGISTER => (61, "", 0, 0, 0)
  | .VOID => (62, "", 0, 0, 0)
  | .CHAR => (63, "", 0, 0, 0)
  | .SHORT => (64, "", 0, 0, 0)
  | .INT => (65, "", 0, 0, 0)
  | .LONG => (66, "", 0, 0, 0)
  | .FLOAT => (67, "", 0, 0, 0)
  | .DOUBLE => (68, "", 0, 0, 0)
  | .SIGNED => (69, "", 0, 0, 0)
  | .UNSIGNED => (70, "", 0, 0, 0)
  | .BOOL => (71, "", 0, 0, 0)
  | .COMPLEX => (72, "", 0, 0, 0)
  | .IMAGINARY => (73, "", 0, 0, 0)
  | .TypedefName => (74, "", 0, 0, 0)
  | .STRUCT => (75, "", 0, 0, 0)
  | .UNION => (76, "", 0, 0, 0)
  | .ENUM => (77, "", 0, 0, 0)
  | .ATOMIC => (78, "", 0, 0, 0)
  | .CONST => (79, "", 0, 0, 0)
  | .RESTRICT => (80, "", 0, 0, 0)
  | .VOLATILE => (81, "", 0, 0, 0)
  | .INLINE => (82, "", 0, 0, 0)
  | .NORETURN => (83, "", 0, 0, 0)
  | .ALIGNAS => (84, "", 0, 0, 0)
  | .StaticAssert => (85, "", 0, 0, 0)
  | .CASE => (86, "", 0, 0, 0)
  | .DEFAULT => (87, "", 0, 0, 0)
  | .IF => (88, "", 0, 0, 0)
  | .ELSE => (89, "", 0, 0, 0)
  | .SWITCH => (90, "", 0, 0, 0)
  | .WHILE => (91, "", 0, 0, 0)
  | .DO => (92, "", 0, 0, 0)
  | .FOR => (93, "", 0, 0, 0)
  | .GOTO => (94, "", 0, 0, 0)
  | .CONTINUE => (95, "", 0, 0, 0)
  | .BREAK => (96, "", 0, 0, 0)
  | .RETURN => (97, "", 0, 0, 0)

/-- Decoder inverting `TokType.enc`. -/
def TokType.dec : Nat × String × Nat × Int × Rat → Option TokType
  | (0, s, _, _, _) => some (.IDENTIFIER s)
  | (1, _, _, v, _) => some (.IConstant v)
  | (2, _, _, _, v) => some (.FConstant v)
  | (3, s, _, _, _) => some (.EnumerationConstant s)
  | (4, s, t, _, _) => some (.StringLiteral s t)
  | (5, _, _, _, _) => some .FuncName
  | (6, _, _, _, _) => some .GENERIC
  | (7, _, _, _, _) => some .LParen
  | (8, _, _, _, _) => some .RParen
  | (9, _, _, _, _) => some .LBracket
  | (10, _, _, _, _) => some .RBracket
  | (11, _, _, _, _) => some .LBrace
  | (12, _, _, _, _) => some .RBrace
  | (13, _, _, _, _) => some .Comma
  | (14, _, _, _, _) => some .Colon
  | (15, _, _, _, _) => some .Semicolon
  | (16, _, _, _, _) => some .Dot
  | (17, _, _, _, _) => some .QuestionMark
  | (18, _, _, _, _) => some .ELLIPSIS
  | (19, _, _, _, _) => some .PtrOp
  | (20, _, _, _, _) => some .IncOp
  | (21, _, _, _, _) => some .DecOp
  | (22, _, _, _, _) => some .SIZEOF
  | (23, _, _, _, _) => some .ALIGNOF
  | (24, _, _, _, _) => some .SingleAnd
  | (25, _, _, _, _) => some .Multi
  | (26, _, _, _, _) => some .Plus
  | (27, _, _, _, _) => some .Minus
  | (28, _, _, _, _) => some .Tilde
  | (29, _, _, _, _) => some .Exclamation
  | (30, _, _, _, _) => some .Splash
  | (31, _, _, _, _) => some .Mod
  | (32, _, _, _, _) => some .LeftOp
  | (33, _, _, _, _) => some .RightOp
  | (34, _, _, _, _) => some .Lt
  | (35, _, _, _, _) => some .Gt
  | (36, _, _, _, _) => some .LeOp
  | (37, _, _, _, _) => some .GeOp
  | (38, _, _, _, _) => some .EqOp
  | (39, _, _, _, _) => some .NeOp
  | (40, _, _, _, _) => some .ExclusiveOr
  | (41, _, _, _, _) => some .InclusiveOr
  | (42, _, _, _, _) => some .AndOp
  | (43, _, _, _, _) => some .OrOp
  | (44, _, _, _, _) => some .And
  | (45, _, _, _, _) => some .Assign
  | (46, _, _, _, _) => some .MulAssign
  | (47, _, _, _, _) => some .DivAssign
  | (48, _, _, _, _) => some .ModAssign
  | (49, _, _, _, _) => some .AddAssign
  | (50, _, _, _, _) => some .SubAssign
  | (51, _, _, _, _) => some .LeftAssign
  | (52, _, _, _, _) => some .RightAssign
  | (53, _, _, _, _) => some .AndAssign
  | (54, _, _, _, _) => some .XorAssign
  | (55, _, _, _, _) => some .OrAssign
  | (56, _, _, _, _) => some .TYPEDEF
  | (57, _, _, _, _) => some .EXTERN
  | (58, _, _, _, _) => some .STATIC
  | (59, _, _, _, _) => some .ThreadLocal
  | (60, _, _, _, _) => some .AUTO
  | (61, _, _, _, _) => some .REGISTER
  | (62, _, _, _, _) => some .VOID
  | (63, _, _, _, _) => some .CHAR
  | (64, _, _, _, _) => some .SHORT
  | (65, _, _, _, _) => some .INT
  | (66, _, _, _, _) => some .LONG
  | (67, _, _, _, _) => some .FLOAT
  | (68, _, _, _, _) => some .DOUBLE
  | (69, _, _, _, _) => some .SIGNED
  | (70, _, _, _, _) => some .UNSIGNED
  | (71, _, _, _, _) => some .BOOL
  | (72, _, _, _, _) => some .COMPLEX
  | (73, _, _, _, _) => some .IMAGINARY
  | (74, _, _, _, _) => some .TypedefName
  | (75, _, _, _, _) => some .STRUCT
  | (76, _, _, _, _) => some .UNION
  | (77, _, _, _, _) => some .ENUM
  | (78, _, _, _, _) => some .ATOMIC
  | (79, _, _, _, _) => some .CONST
  | (80, _, _, _, _) => some .RESTRICT
  | (81, _, _, _, _) => some .VOLATILE
  | (82, _, _, _, _) => some .INLINE
  | (83, _, _, _, _) => some .NORETURN
  | (84, _, _, _, _) => some .ALIGNAS
  | (85, _, _, _, _) => some .StaticAssert
  | (86, _, _, _, _) => some .CASE
  | (87, _, _, _, _) => some .DEFAULT
  | (88, _, _, _, _) => some .IF
  | (89, _, _, _, _) => some .ELSE
  | (90, _, _, _, _) => some .SWITCH
  | (91, _, _, _, _) => some .WHILE
  | (92, _, _, _, _) => some .DO
  | (93, _, _, _, _) => some .FOR
  | (94, _, _, _, _) => some .GOTO
  | (95, _, _, _, _) => some .CONTINUE
  | (96, _, _, _, _) => some .BREAK
  | (97, _, _, _, _) => some .RETURN
  | _ => none

theorem TokType.dec_enc (a : TokType) : TokType.dec a.enc = some a := by
  cases a <;> rfl

instance : DecidableEq TokType := fun a b =>
  if h : a.enc = b.enc then
    .isTrue (by
      have hd := congrArg TokType.dec h
      rw [TokType.dec_enc, TokType.dec_enc, Option.some.injEq] at hd
      exact hd)
  else
    .isFalse (fun he => h (he ▸ rfl))

/-- Modelled from the spec: the primary tags of the type-expression
model (`symtable::BaseType`), reconstructed from the constructors the
parser uses. -/
inductive BaseType where
  | Void | Bool | Char | Short | Int | Long | Float | Double
  | Signed | Unsigned | Complex | Imaginary
  | Pointer | VoidPointer
  | Array (len : Nat)
  | Struct | Union | Function
  | Extern | Static | ThreadLocal | Auto | Register
  | Const | Restrict | Volatile | Atomic
  | Inline | Noreturn
  | SizeT | VaList | Typedef
  | Identifier (name : String)
  | NoneExpression
  deriving DecidableEq

/-- Modelled from the spec: the tree-shaped type descriptor
(`symtable::TypeExpression`): an auxiliary value list of base-type
tags (for flat multi-specifier combinations) plus an ordered list of
child type expressions. -/
inductive TypeExpression where
  | mk (val : List BaseType) (child : List TypeExpression)

def TypeExpression.val : TypeExpression → List BaseType
  | .mk v _ => v

def TypeExpression.child : TypeExpression → List TypeExpression
  | .mk _ c => c

/-- `TypeExpression::new()`: the default (empty) type annotation. -/
def TypeExpression.new : TypeExpression := .mk [] []

/-- `TypeExpression::new_val(b)`: a flat type expression with one tag. -/
def TypeExpression.new_val (b : BaseType) : TypeExpression := .mk [b] []

/-- `t.val.push(b)` on a type expression. -/
def TypeExpression.pushVal : TypeExpression → BaseType → TypeExpression
  | .mk v c, b => .mk (v ++ [b]) c

/-- `t.child.push(u)` on a type expression. -/
def TypeExpression.pushChild : TypeExpression → TypeExpression → TypeExpression
  | .mk v c, u => .mk v (c ++ [u])

mutual

/-- Structural equality of type expressions (boolean form; the nested
  recursion mirrors the tree shape). -/
def teq : TypeExpression → TypeExpression → Bool
  | .mk v1 c1, .mk v2 c2 => decide (v1 = v2) && teqList c1 c2

def teqList : List TypeExpression → List TypeExpression → Bool
  | [], [] => true
  | x :: xs, y :: ys => teq x y && teqList xs ys
  | _, _ => false

end

/-- Modelled from the spec: the literal payload of a constant node
(`ast::ConstantType`). -/
inductive ConstantType where
  | I64 (v : Int)
  | F64 (v : Rat)
  | Str (v : String)
  deriving DecidableEq

/-- Modelled from the spec: the node-kind tag of a parse node
(`ast::NodeType`), one variant per production, carrying the literal
payload that production needs. -/
inductive NodeType where
  | Identifier (name : String)
  | Constant (c : ConstantType)
  | EnumerationConstant (name : String)
  | STRING (val : String)
  | PrimaryExpression
  | GenericSelection
  | GenericAssocList
  | GenericAssociation
  | PostfixExpression
  | PostfixExpressionPost (punc : TokType)
  | ArgumentExpressionList
  | UnaryExpression (op : Option TokType)
  | UnaryOperator (op : TokType)
  | CastExpression
  | MultiplicativeExpression
  | AdditiveExpression
  | ShiftExpression
  | RelationalExpression
  | EqualityExpression
  | AndExpression
  | ExclusiveOrExpression
  | InclusiveOrExpression
  | LogicalAndExpression
  | LogicalOrExpression
  | ConditionalExpression
  | BinaryExpression (op : TokType)
  | AssignmentExpression
  | AssignmentOperator (op : TokType)
  | Expression
  | ConstantExpression
  | Declaration
  | DeclarationSpecifiers
  | InitDeclaratorList
  | InitDeclarator
  | StorageClassSpecifier (tok : TokType)
  | TypeSpecifier (tok : Option TokType)
  | StructOrUnionSpecifier
  | StructOrUnion (tok : TokType)
  | StructDeclarationList
  | StructDeclaration
  | SpecifierQualifier
  | StructDeclaratorList
  | StructDeclarator
  | EnumSpecifier (name : Option String)
  | EnumeratorList
  | Enumerator
  | AtomicTypeSpecifier
  | TypeQualifier (tok : TokType)
  | FunctionSpecifier (tok : TokType)
  | AlignmentSpecifier
  | Declarator
  | DirectDeclarator
  | DirectDeclaratorPostList
  | DirectDeclaratorPost (punc : TokType)
  | Pointer
  | TypeQualifierList
  | ParameterTypeList (varArg : Bool)
  | ParameterList
  | ParameterDeclaration
  | IdentifierList
  | TypeName
  | AbstractDeclarator
  | DirectAbstractDeclarator
  | DirectAbstractDeclaratorBlock (punc : TokType)
  | Initializer
  | InitializerList
  | Designation
  | DesignatorList
  | Designator
  | StaticAssertDeclaration
  | Statement
  | LabeledStatement (label : String)
  | CompoundStatement
  | BlockItemList
  | BlockItem
  | ExpressionStatement
  | SelectionStatement (tok : TokType)
  | IterationStatement (tok : TokType)
  | JumpStatement (kind : String) (label : Option String)
  | ExternalDeclaration
  | FunctionDefinition
  | DeclarationList
  | TranslationUnit

/-- Modelled from the spec: a parse node (`ast::ParseNode`): a kind
tag, an ordered list of exclusively owned children, and a type
annotation. -/
inductive ParseNode where
  | mk (entry : NodeType) (child : List ParseNode) (type_exp : TypeExpression)

def ParseNode.entry : ParseNode → NodeType
  | .mk e _ _ => e

def ParseNode.child : ParseNode → List ParseNode
  | .mk _ c _ => c

def ParseNode.type_exp : ParseNode → TypeExpression
  | .mk _ _ t => t

/-- `ParseNode::new(entry)`: a fresh node with no children and the
default type annotation. -/
def ParseNode.new (e : NodeType) : ParseNode := .mk e [] TypeExpression.new

/-- `cur_node.entry = e` (field assignment). -/
def ParseNode.withEntry : ParseNode → NodeType → ParseNode
  | .mk _ c t, e => .mk e c t

/-- `cur_node.type_exp = t` (field assignment). -/
def ParseNode.withType : ParseNode → TypeExpression → ParseNode
  | .mk e c _, t => .mk e c t

/-- `cur_node.child.push(c)`. -/
def ParseNode.pushChild : ParseNode → ParseNode → ParseNode
  | .mk e cs t, c => .mk e (cs ++ [c]) t

/-- `cur_node.type_exp.child.push(t)`. -/
def ParseNode.pushTypeChild : ParseNode → TypeExpression → ParseNode
  | .mk e cs t, u => .mk e cs (t.pushChild u)

@[simp] theorem ParseNode.entry_mk (e c t) : (ParseNode.mk e c t).entry = e := rfl
@[simp] theorem ParseNode.child_mk (e c t) : (ParseNode.mk e c t).child = c := rfl
@[simp] theorem ParseNode.type_mk (e c t) : (ParseNode.mk e c t).type_exp = t := rfl

@[simp] theorem ParseNode.entry_new (e) : (ParseNode.new e).entry = e := rfl
@[simp] theorem ParseNode.child_new (e) : (ParseNode.new e).child = [] := rfl
@[simp] theorem ParseNode.type_new (e) : (ParseNode.new e).type_exp = TypeExpression.new := rfl

@[simp] theorem ParseNode.entry_withType (n : ParseNode) (t) : (n.withType t).entry = n.entry := by
  cases n; rfl
@[simp] theorem ParseNode.child_withType (n : ParseNode) (t) : (n.withType t).child = n.child := by
  cases n; rfl
@[simp] theorem ParseNode.type_withType (n : ParseNode) (t) : (n.withType t).type_exp = t := by
  cases n; rfl
@[simp] theorem ParseNode.entry_pushChild (n : ParseNode) (c) :
    (n.pushChild c).entry = n.entry := by cases n; rfl
@[simp] theorem ParseNode.child_pushChild (n : ParseNode) (c) :
    (n.pushChild c).child = n.child ++ [c] := by cases n; rfl
@[simp] theorem ParseNode.type_pushChild (n : ParseNode) (c) :
    (n.pushChild c).type_exp = n.type_exp := by cases n; rfl
@[simp] theorem ParseNode.entry_pushTypeChild (n : ParseNode) (t) :
    (n.pushTypeChild t).entry = n.entry := by cases n; rfl
@[simp] theorem ParseNode.child_pushTypeChild (n : ParseNode) (t) :
    (n.pushTypeChild t).child = n.child := by cases n; rfl

/-- Result of one parser function: `Ok((node, new_pos))`, `Err(msg)`,
a slice-index panic (`fault`), or fuel exhaustion (`nofuel`; never
confused with a parse error, so ordered choice does not catch it). -/
inductive PRes where
  | ok (node : ParseNode) (pos : Nat)
  | err (msg : String)
  | fault
  | nofuel

/-- Modelled from the spec: the Type Oracle interface consumed by the
parser (`sema`): cast legality, binary-operand type combination,
implicit-conversion resolution and type equality.  Only the call
contract is specified, so the parser is parameterised over it. -/
structure Sema where
  judge_cast : TypeExpression → TypeExpression → Bool
  judge_combine_type : TypeExpression → TypeExpression → TokType → Bool × TypeExpression
  judge_type_same : TypeExpression → TypeExpression → Bool
  implicit_type_cast : TypeExpression → TypeExpression → Except String TypeExpression

/-- Arithmetic primary tags (used by the concrete oracle model). -/
def isArithTag : BaseType → Bool
  | .Bool | .Char | .Short | .Int | .Long | .Float | .Double
  | .Signed | .Unsigned | .SizeT => true
  | _ => false

/-- Scalar primary tags (used by the concrete oracle model). -/
def isScalarTag : BaseType → Bool
  | .Pointer | .VoidPointer => true
  | b => isArithTag b

/-- Head tag of a type expression's value list. -/
def TypeExpression.head : TypeExpression → Option BaseType
  | .mk v _ => v.head?

/-- Modelled from the spec: one concrete Type Oracle obeying the
specified contract: type equality is structural equality; a cast is
legal between scalar types (so struct-to-scalar is rejected); the
combination rule accepts two equal arithmetic types and returns that
type; implicit conversion resolves to the common type of two equal
types and fails otherwise. -/
def specSema : Sema where
  judge_cast := fun toT fromT =>
    (match toT.head with | some b => isScalarTag b | none => false) &&
    (match fromT.head with | some b => isScalarTag b | none => false)
  judge_combine_type := fun l r _op =>
    if teq l r && (match l.head with | some b => isArithTag b | none => false) then
      (true, l)
    else
      (false, TypeExpression.new)
  judge_type_same := teq
  implicit_type_cast := fun l r =>
    if teq l r then .ok l else .error "implicit type cast fails"

-- ----------------------------------------------------------------
-- Cursor primitives (`check_pos`, `check_tok`, `error_handler`)
-- ----------------------------------------------------------------

/-- `error_handler`: build an error message (simplified text). -/
def error_handler (expect : String) (_tok : TokType) (_pos : Nat) : String :=
  "Expected " ++ expect

def check_pos (pos : Nat) (toks_len : Nat) : Except String Unit :=
  if pos ≥ toks_len then .error "out of token index" else .ok ()

def check_tok (pos : Nat) (toks : List TokType) (expect : TokType) : Except String Unit :=
  match check_pos pos toks.length with
  | .error e => .error e
  | .ok _ =>
    match toks[pos]? with
    | some t => if t ≠ expect then .error "Expected other token" else .ok ()
    | none => .error "out of token index"

-- ----------------------------------------------------------------
-- Non-recursive grammar functions
-- ----------------------------------------------------------------

def p_identifier (toks : List TokType) (pos : Nat) : PRes :=
  match check_pos pos toks.length with
  | .error e => .err e
  | .ok _ =>
    match toks[pos]? with
    | some (.IDENTIFIER val) =>
        .ok (((ParseNode.new (.Identifier val)).withType
          (TypeExpression.new_val (.Identifier val)))) (pos + 1)
    | some t => .err (error_handler "identifier" t pos)
    | none => .fault

def p_constant (toks : List TokType) (pos : Nat) : PRes :=
  match check_pos pos toks.length with
  | .error e => .err e
  | .ok _ =>
    match toks[pos]? with
    | some (.IConstant i_val) =>
        .ok (((ParseNode.new (.Constant (.I64 i_val))).withType
          (TypeExpression.new_val .Long))) (pos + 1)
    | some (.FConstant f_val) =>
        .ok (((ParseNode.new (.Constant (.F64 f_val))).withType
          (TypeExpression.new_val .Double))) (pos + 1)
    | some (.EnumerationConstant e_val) =>
        .ok (((ParseNode.new (.Constant (.Str e_val))).withType
          (TypeExpression.new_val .Long))) (pos + 1)
    | some t => .err (error_handler "constant" t pos)
    | none => .fault

def p_enumeration_constant (toks : List TokType) (pos : Nat) : PRes :=
  match check_pos pos toks.length with
  | .error e => .err e
  | .ok _ =>
    match toks[pos]? with
    | some (.IDENTIFIER name) =>
        .ok (((ParseNode.new (.EnumerationConstant name)).withType
          (TypeExpression.new_val (.Identifier name)))) (pos + 1)
    | some t => .err (error_handler "identifier" t pos)
    | none => .fault

def p_string (toks : List TokType) (pos : Nat) : PRes :=
  match check_pos pos toks.length with
  | .error e => .err e
  | .ok _ =>
    match toks[pos]? with
    | some (.StringLiteral v _tag) =>
        .ok (((ParseNode.new (.STRING v)).withType
          ((TypeExpression.new_val (.Array v.length)).pushVal .Char))) (pos + 1)
    | some .FuncName =>
        .ok (((ParseNode.new (.STRING "__func_name__")).withType
          ((TypeExpression.new_val (.Array "__func_name__".length)).pushVal .Char))) (pos + 1)
    | some t => .err (error_handler "String literal" t pos)
    | none => .fault

def p_unary_operator (toks : List TokType) (pos : Nat) : PRes :=
  match check_pos pos toks.length with
  | .error e => .err e
  | .ok _ =>
    match toks[pos]? with
    | some .Minus | some .SingleAnd | some .Multi
    | some .Exclamation | some .Tilde | some .Plus =>
        match toks[pos]? with
        | some t => .ok (ParseNode.new (.UnaryOperator t)) (pos + 1)
        | none => .fault
    | some t => .err (error_handler "unary_operator" t pos)
    | none => .fault

def p_assignment_operator (toks : List TokType) (pos : Nat) : PRes :=
  match check_pos pos toks.length with
  | .error e => .err e
  | .ok _ =>
    match toks[pos]? with
    | some .Assign | some .MulAssign | some .DivAssign | some .ModAssign
    | some .AddAssign | some .SubAssign | some .LeftAssign | some .RightAssign
    | some .AndAssign | some .XorAssign | some .OrAssign =>
        match toks[pos]? with
        | some t => .ok (ParseNode.new (.AssignmentOperator t)) (pos + 1)
        | none => .fault
    | some t => .err (error_handler "Assignment operator" t pos)
    | none => .fault

def p_storage_class_specifier (toks : List TokType) (pos : Nat) : PRes :=
  match check_pos pos toks.length with
  | .error e => .err e
  | .ok _ =>
    match toks[pos]? with
    | some .TYPEDEF => .err "Typedef is not supported in crust now"
    | some .EXTERN =>
        .ok (((ParseNode.new (.TypeSpecifier (some .EXTERN))).withType
          (TypeExpression.new_val .Extern))) (pos + 1)
    | some .STATIC =>
        .ok (((ParseNode.new (.TypeSpecifier (some .STATIC))).withType
          (TypeExpression.new_val .Static))) (pos + 1)
    | some .ThreadLocal =>
        .ok (((ParseNode.new (.TypeSpecifier (some .ThreadLocal))).withType
          (TypeExpression.new_val .ThreadLocal))) (pos + 1)
    | some .AUTO =>
        .ok (((ParseNode.new (.TypeSpecifier (some .AUTO))).withType
          (TypeExpression.new_val .Auto))) (pos + 1)
    | some .REGISTER =>
        .ok (((ParseNode.new (.TypeSpecifier (some .REGISTER))).withType
          (TypeExpression.new_val .Register))) (pos + 1)
    | some t => .err (error_handler "storage_class_specifier" t pos)
    | none => .fault

def p_struct_or_union (toks : List TokType) (pos : Nat) : PRes :=
  match check_pos pos toks.length with
  | .error e => .err e
  | .ok _ =>
    match toks[pos]? with
    | some .STRUCT =>
        .ok (((ParseNode.new (.StructOrUnion .STRUCT)).withType
          (TypeExpression.new_val .Struct))) (pos + 1)
    | some .UNION =>
        .ok (((ParseNode.new (.StructOrUnion .UNION)).withType
          (TypeExpression.new_val .Union))) (pos + 1)
    | some t => .err (error_handler "struct or union" t pos)
    | none => .fault

def p_type_qualifier (toks : List TokType) (pos : Nat) : PRes :=
  match check_pos pos toks.length with
  | .error e => .err e
  | .ok _ =>
    match toks[pos]? with
    | some .CONST =>
        .ok (((ParseNode.new (.TypeQualifier .CONST)).withType
          (TypeExpression.new_val .Const))) (pos + 1)
    | some .RESTRICT =>
        .ok (((ParseNode.new (.TypeQualifier .RESTRICT)).withType
          (TypeExpression.new_val .Restrict))) (pos + 1)
    | some .VOLATILE =>
        .ok (((ParseNode.new (.TypeQualifier .VOLATILE)).withType
          (TypeExpression.new_val .Volatile))) (pos + 1)
    | some .ATOMIC =>
        .ok (((ParseNode.new (.TypeQualifier .ATOMIC)).withType
          (TypeExpression.new_val .Atomic))) (pos + 1)
    | some t => .err (error_handler "type qualifier" t pos)
    | none => .fault

def p_function_specifier (toks : List TokType) (pos : Nat) : PRes :=
  match check_pos pos toks.length with
  | .error e => .err e
  | .ok _ =>
    match toks[pos]? with
    | some .INLINE =>
        .ok (((ParseNode.new (.FunctionSpecifier .INLINE)).withType
          (TypeExpression.new_val .Inline))) (pos + 1)
    | some .NORETURN =>
        .ok (((ParseNode.new (.FunctionSpecifier .NORETURN)).withType
          (TypeExpression.new_val .Noreturn))) (pos + 1)
    | some t => .err (error_handler "function specifier" t pos)
    | none => .fault


-- ----------------------------------------------------------------
-- Mutually recursive grammar functions (fuel-indexed).
-- Each Rust loop becomes a `*_loop`/`*_fold` helper; `finalize_inc`
-- is the common `if inc == 0 { cur_node.type_exp = pre_type }` exit.
-- ----------------------------------------------------------------

/-- Shared loop epilogue: flatten the node type to the single item's
type when no further item was folded in (`inc == 0`). -/
def finalize_inc (cur : ParseNode) (inc : Nat) (pre : TypeExpression) : ParseNode :=
  if inc = 0 then cur.withType pre else cur

mutual

-- parser.rs p_primary_expression
def p_primary_expression (sema : Sema) (toks : List TokType) (fuel pos : Nat) : PRes :=
  match fuel with
  | 0 => .nofuel
  | f + 1 =>
    match check_pos pos toks.length with
    | .error e => .err e
    | .ok _ =>
      match p_identifier toks pos with
      | .ok c p => .ok (((ParseNode.new .PrimaryExpression).withType c.type_exp).pushChild c) p
      | .err _ =>
        match p_constant toks pos with
        | .ok c p => .ok (((ParseNode.new .PrimaryExpression).withType c.type_exp).pushChild c) p
        | .err _ =>
          match p_string toks pos with
          | .ok c p => .ok (((ParseNode.new .PrimaryExpression).withType c.type_exp).pushChild c) p
          | .err _ =>
            match check_tok pos toks .LParen with
            | .ok _ =>
              match p_expression sema toks f (pos + 1) with
              | .ok c p =>
                match check_tok p toks .RParen with
                | .error e => .err e
                | .ok _ =>
                  .ok (((ParseNode.new .PrimaryExpression).withType c.type_exp).pushChild c) (p + 1)
              | r => r
            | .error _ =>
              match p_generic_selection sema toks f pos with
              | .ok c p => .ok (((ParseNode.new .PrimaryExpression).withType c.type_exp).pushChild c) p
              | .err _ => .err "Can not parse primary expression"
              | r => r
          | r => r
        | r => r
      | r => r
termination_by structural fuel

-- parser.rs p_generic_selection
def p_generic_selection (sema : Sema) (toks : List TokType) (fuel pos : Nat) : PRes :=
  match fuel with
  | 0 => .nofuel
  | f + 1 =>
    match check_pos pos toks.length with
    | .error e => .err e
    | .ok _ =>
      match toks[pos]? with
      | none => .fault
      | some t0 =>
        if t0 ≠ .GENERIC then .err (error_handler "Generic" t0 pos)
        else
          match check_tok (pos + 1) toks .LParen with
          | .error e => .err e
          | .ok _ =>
            match check_pos (pos + 2) toks.length with
            | .error e => .err e
            | .ok _ =>
              match p_assignment_expression sema toks f (pos + 2) with
              | .ok c1 p1 =>
                match check_tok p1 toks .Comma with
                | .error e => .err e
                | .ok _ =>
                  match p_generic_assoc_list sema toks f (p1 + 1) with
                  | .ok c2 p2 =>
                    match check_tok p2 toks .RParen with
                    | .error e => .err e
                    | .ok _ =>
                      .ok (((ParseNode.new .GenericSelection).pushChild c1).pushChild c2) (p2 + 1)
                  | r => r
              | r => r
termination_by structural fuel

-- parser.rs p_generic_assoc_list
def p_generic_assoc_list (sema : Sema) (toks : List TokType) (fuel pos : Nat) : PRes :=
  match fuel with
  | 0 => .nofuel
  | f + 1 =>
    match check_pos pos toks.length with
    | .error e => .err e
    | .ok _ =>
      match p_generic_association sema toks f pos with
      | .ok c p => generic_assoc_list_loop sema toks f ((ParseNode.new .GenericAssocList).pushChild c) p
      | r => r
termination_by structural fuel

-- parser.rs p_generic_assoc_list, comma loop
def generic_assoc_list_loop (sema : Sema) (toks : List TokType) (fuel : Nat)
    (cur : ParseNode) (pos : Nat) : PRes :=
  match fuel with
  | 0 => .nofuel
  | f + 1 =>
    match check_tok pos toks .Comma with
    | .error _ => .ok cur pos
    | .ok _ =>
      match p_generic_association sema toks f (pos + 1) with
      | .ok c tmp => generic_assoc_list_loop sema toks f (cur.pushChild c) tmp
      | .err _ => .ok cur pos
      | r => r
termination_by structural fuel

-- parser.rs p_generic_association
def p_generic_association (sema : Sema) (toks : List TokType) (fuel pos : Nat) : PRes :=
  match fuel with
  | 0 => .nofuel
  | f + 1 =>
    match check_pos pos toks.length with
    | .error e => .err e
    | .ok _ =>
      match p_type_name sema toks f pos with
      | .ok c p1 =>
        match check_tok p1 toks .Colon with
        | .error e => .err e
        | .ok _ =>
          match p_assignment_expression sema toks f (p1 + 1) with
          | .ok c2 p2 => .ok (((ParseNode.new .GenericAssociation).pushChild c).pushChild c2) p2
          | r => r
      | .err _ =>
        match toks[pos]? with
        | none => .fault
        | some .DEFAULT =>
          match check_tok (pos + 1) toks .Colon with
          | .error e => .err e
          | .ok _ =>
            match p_assignment_expression sema toks f (pos + 2) with
            | .ok c2 p2 => .ok ((ParseNode.new .GenericAssociation).pushChild c2) p2
            | r => r
        | some _ => .err "Can not find proper type name or default"
      | r => r
termination_by structural fuel

-- parser.rs p_postfix_expression
def p_postfix_expression (sema : Sema) (toks : List TokType) (fuel pos : Nat) : PRes :=
  match fuel with
  | 0 => .nofuel
  | f + 1 =>
    match check_pos pos toks.length with
    | .error e => .err e
    | .ok _ =>
      match p_primary_expression sema toks f pos with
      | .ok c p =>
        postfix_post_loop_pre sema toks f
          (((ParseNode.new .PostfixExpression).pushTypeChild c.type_exp).pushChild c) 0 c.type_exp p
      | .err _ =>
        match check_tok pos toks .LParen with
        | .ok _ =>
          match p_type_name sema toks f (pos + 1) with
          | .ok c1 p1 =>
            match check_tok p1 toks .RParen with
            | .error e => .err e
            | .ok _ =>
              match check_tok (p1 + 1) toks .LBrace with
              | .error e => .err e
              | .ok _ =>
                match p_initializer_list sema toks f (p1 + 2) with
                | .ok c2 p2 =>
                  match check_tok p2 toks .RBrace with
                  | .ok _ =>
                    postfix_post_loop_lit sema toks f
                      (((((ParseNode.new .PostfixExpression).pushTypeChild c1.type_exp).pushChild c1).pushTypeChild c2.type_exp).pushChild c2)
                      (p2 + 1)
                  | .error _ =>
                    match check_tok p2 toks .Comma with
                    | .error e => .err e
                    | .ok _ =>
                      match check_tok (p2 + 1) toks .RBrace with
                      | .error e => .err e
                      | .ok _ =>
                        postfix_post_loop_lit sema toks f
                          (((((ParseNode.new .PostfixExpression).pushTypeChild c1.type_exp).pushChild c1).pushTypeChild c2.type_exp).pushChild c2)
                          (p2 + 2)
                | r => r
          | r => r
        | .error _ => .err "Error parse postfix_expression"
      | r => r
termination_by structural fuel

-- parser.rs p_postfix_expression, postfix loop after a primary expression
def postfix_post_loop_pre (sema : Sema) (toks : List TokType) (fuel : Nat)
    (cur : ParseNode) (inc : Nat) (pre : TypeExpression) (pos : Nat) : PRes :=
  match fuel with
  | 0 => .nofuel
  | f + 1 =>
    match p_postfix_expression_post sema toks f pos with
    | .ok c tmp => postfix_post_loop_pre sema toks f (cur.pushChild c) (inc + 1) pre tmp
    | .err _ => .ok (finalize_inc cur inc pre) pos
    | r => r
termination_by structural fuel

-- parser.rs p_postfix_expression, postfix loop after a compound literal
def postfix_post_loop_lit (sema : Sema) (toks : List TokType) (fuel : Nat)
    (cur : ParseNode) (pos : Nat) : PRes :=
  match fuel with
  | 0 => .nofuel
  | f + 1 =>
    match p_postfix_expression_post sema toks f pos with
    | .ok c tmp => postfix_post_loop_lit sema toks f ((cur.pushTypeChild c.type_exp).pushChild c) tmp
    | .err _ => .ok cur pos
    | r => r
termination_by structural fuel

-- parser.rs p_postfix_expression_post
def p_postfix_expression_post (sema : Sema) (toks : List TokType) (fuel pos : Nat) : PRes :=
  match fuel with
  | 0 => .nofuel
  | f + 1 =>
    match check_pos pos toks.length with
    | .error e => .err e
    | .ok _ =>
      match toks[pos]? with
      | none => .fault
      | some .LBracket =>
        match p_expression sema toks f (pos + 1) with
        | .ok c p =>
          match check_tok p toks .RBracket with
          | .error e => .err e
          | .ok _ =>
            .ok (((ParseNode.new (.PostfixExpressionPost .LBracket)).withType c.type_exp).pushChild c) (p + 1)
        | r => r
      | some .LParen =>
        match check_tok (pos + 1) toks .RParen with
        | .ok _ => .ok (ParseNode.new (.PostfixExpressionPost .LParen)) (pos + 2)
        | .error _ =>
          match p_argument_expression_list sema toks f (pos + 1) with
          | .ok c p =>
            match check_tok p toks .RParen with
            | .error e => .err e
            | .ok _ =>
              .ok (((ParseNode.new (.PostfixExpressionPost .LParen)).withType c.type_exp).pushChild c) (p + 1)
          | r => r
      | some .Dot =>
        match p_identifier toks (pos + 1) with
        | .ok c p => .ok ((ParseNode.new (.PostfixExpressionPost .Dot)).pushChild c) p
        | r => r
      | some .PtrOp =>
        match p_identifier toks (pos + 1) with
        | .ok c p => .ok ((ParseNode.new (.PostfixExpressionPost .PtrOp)).pushChild c) p
        | r => r
      | some .IncOp => .ok (ParseNode.new (.PostfixExpressionPost .IncOp)) (pos + 1)
      | some .DecOp => .ok (ParseNode.new (.PostfixExpressionPost .DecOp)) (pos + 1)
      | some _ => .err "not a postfix operator"
termination_by structural fuel

-- parser.rs p_argument_expression_list
def p_argument_expression_list (sema : Sema) (toks : List TokType) (fuel pos : Nat) : PRes :=
  match fuel with
  | 0 => .nofuel
  | f + 1 =>
    match check_pos pos toks.length with
    | .error e => .err e
    | .ok _ =>
      match p_assignment_expression sema toks f pos with
      | .ok c p =>
        argument_expression_list_loop sema toks f
          (((ParseNode.new .ArgumentExpressionList).pushTypeChild c.type_exp).pushChild c) 0 c.type_exp p
      | r => r
termination_by structural fuel

-- parser.rs p_argument_expression_list, comma loop (the comma is tested
-- but the position variable is not advanced past it; the item is parsed
-- at pos + 1 and on failure the code still does pos = pos - 1)
def argument_expression_list_loop (sema : Sema) (toks : List TokType) (fuel : Nat)
    (cur : ParseNode) (inc : Nat) (pre : TypeExpression) (pos : Nat) : PRes :=
  match fuel with
  | 0 => .nofuel
  | f + 1 =>
    match check_tok pos toks .Comma with
    | .error _ => .ok (finalize_inc cur inc pre) pos
    | .ok _ =>
      match p_assignment_expression sema toks f (pos + 1) with
      | .ok c tmp =>
        argument_expression_list_loop sema toks f
          ((cur.pushTypeChild c.type_exp).pushChild c) (inc + 1) pre tmp
      | .err _ => .ok (finalize_inc cur inc pre) (pos - 1)
      | r => r
termination_by structural fuel

-- parser.rs p_unary_expression
def p_unary_expression (sema : Sema) (toks : List TokType) (fuel pos : Nat) : PRes :=
  match fuel with
  | 0 => .nofuel
  | f + 1 =>
    match check_pos pos toks.length with
    | .error e => .err e
    | .ok _ =>
      match toks[pos]? with
      | none => .fault
      | some .IncOp =>
        match p_unary_expression sema toks f (pos + 1) with
        | .ok c p =>
          .ok (((ParseNode.new (.UnaryExpression (some .IncOp))).withType c.type_exp).pushChild c) p
        | r => r
      | some .DecOp =>
        match p_unary_expression sema toks f (pos + 1) with
        | .ok c p =>
          .ok (((ParseNode.new (.UnaryExpression (some .DecOp))).withType c.type_exp).pushChild c) p
        | r => r
      | some .SIZEOF =>
        match toks[pos + 1]? with
        | none => .fault
        | some t2 =>
          match check_tok (pos + 1) toks .LParen with
          | .ok _ =>
            match p_type_name sema toks f (pos + 1) with
            | .ok c p =>
              .ok (((ParseNode.new (.UnaryExpression (some t2))).withType
                (TypeExpression.new_val .SizeT)).pushChild c) p
            | r => r
          | .error _ =>
            match p_unary_expression sema toks f (pos + 1) with
            | .ok c p =>
              .ok (((ParseNode.new (.UnaryExpression (some t2))).withType
                (TypeExpression.new_val .SizeT)).pushChild c) p
            | r => r
      | some .ALIGNOF =>
        match check_tok (pos + 1) toks .LParen with
        | .ok _ =>
          match p_type_name sema toks f (pos + 2) with
          | .ok c p =>
            .ok (((ParseNode.new (.UnaryExpression (some .ALIGNOF))).withType
              (TypeExpression.new_val .SizeT)).pushChild c) p
          | r => r
        | .error _ =>
          match toks[pos + 1]? with
          | none => .fault
          | some t2 => .err (error_handler "LParen" t2 (pos + 1))
      | some _ =>
        match p_unary_operator toks pos with
        | .ok opn p1 =>
          match opn.entry with
          | .UnaryOperator op =>
            match p_cast_expression sema toks f p1 with
            | .ok c p2 =>
              match op with
              | .SingleAnd =>
                .ok ((((ParseNode.new (.UnaryExpression none)).pushChild opn).withType
                  (TypeExpression.new_val .Pointer)).pushChild c) p2
              | .Multi =>
                .ok ((((ParseNode.new (.UnaryExpression none)).pushChild opn).withType
                  ((TypeExpression.new_val .Pointer).pushVal .VoidPointer)).pushChild c) p2
              | _ =>
                .ok ((((ParseNode.new (.UnaryExpression none)).pushChild opn).withType
                  c.type_exp).pushChild c) p2
            | r => r
          | _ => .err "Syntax: expected unary_operator"
        | .err _ =>
          match p_postfix_expression sema toks f pos with
          | .ok c p =>
            .ok (((ParseNode.new (.UnaryExpression none)).withType c.type_exp).pushChild c) p
          | .err _ => .err "Can not parse unary_expression"
          | r => r
        | r => r
termination_by structural fuel

-- parser.rs p_cast_expression (note: the source never advances the
-- position past the closing RParen before the recursive call)
def p_cast_expression (sema : Sema) (toks : List TokType) (fuel pos : Nat) : PRes :=
  match fuel with
  | 0 => .nofuel
  | f + 1 =>
    match check_pos pos toks.length with
    | .error e => .err e
    | .ok _ =>
      match p_unary_expression sema toks f pos with
      | .ok c p => .ok (((ParseNode.new .CastExpression).withType c.type_exp).pushChild c) p
      | .err _ =>
        match check_tok pos toks .LParen with
        | .ok _ =>
          match p_type_name sema toks f (pos + 1) with
          | .ok c1 p1 =>
            match check_tok p1 toks .RParen with
            | .error e => .err e
            | .ok _ =>
              match p_cast_expression sema toks f p1 with
              | .ok c2 p2 =>
                if sema.judge_cast c1.type_exp c2.type_exp = false then
                  .err "Can not cast between these types"
                else
                  .ok ((((ParseNode.new .CastExpression).pushChild c1).withType
                    c1.type_exp).pushChild c2) p2
              | r => r
          | r => r
        | .error _ => .err "Error parse cast_expression"
      | r => r
termination_by structural fuel

-- parser.rs p_multiplicative_expression
def p_multiplicative_expression (sema : Sema) (toks : List TokType) (fuel pos : Nat) : PRes :=
  match fuel with
  | 0 => .nofuel
  | f + 1 =>
    match check_pos pos toks.length with
    | .error e => .err e
    | .ok _ =>
      match p_cast_expression sema toks f pos with
      | .ok c p1 =>
        match toks[p1]? with
        | none => .fault
        | some tok =>
          if tok = .Mod ∨ tok = .Multi ∨ tok = .Splash then
            multiplicative_fold sema toks f c c.type_exp p1 tok
          else
            .ok (((ParseNode.new .MultiplicativeExpression).withType c.type_exp).pushChild c) p1
      | r => r
termination_by structural fuel

-- parser.rs p_multiplicative_expression, binary fold loop
def multiplicative_fold (sema : Sema) (toks : List TokType) (fuel : Nat)
    (child : ParseNode) (l_type : TypeExpression) (pos : Nat) (tok : TokType) : PRes :=
  match fuel with
  | 0 => .nofuel
  | f + 1 =>
    if tok = .Mod ∨ tok = .Multi ∨ tok = .Splash then
      match p_cast_expression sema toks f (pos + 1) with
      | .ok next p2 =>
        match sema.judge_combine_type l_type next.type_exp tok with
        | (true, ct) =>
          match toks[p2]? with
          | none => .fault
          | some tok2 =>
            multiplicative_fold sema toks f
              ((((ParseNode.new (.BinaryExpression tok)).pushChild child).pushChild next).withType ct)
              ct p2 tok2
        | (false, _) => .err "can not use these types in a binary combination"
      | r => r
    else
      .ok (((ParseNode.new .MultiplicativeExpression).withType child.type_exp).pushChild child) pos
termination_by structural fuel

-- parser.rs p_additive_expression
def p_additive_expression (sema : Sema) (toks : List TokType) (fuel pos : Nat) : PRes :=
  match fuel with
  | 0 => .nofuel
  | f + 1 =>
    match check_pos pos toks.length with
    | .error e => .err e
    | .ok _ =>
      match p_multiplicative_expression sema toks f pos with
      | .ok c p1 =>
        match toks[p1]? with
        | none => .fault
        | some tok =>
          if tok = .Plus ∨ tok = .Minus then
            additive_fold sema toks f c c.type_exp p1 tok
          else
            .ok (((ParseNode.new .AdditiveExpression).withType c.type_exp).pushChild c) p1
      | r => r
termination_by structural fuel

-- parser.rs p_additive_expression, binary fold loop
def additive_fold (sema : Sema) (toks : List TokType) (fuel : Nat)
    (child : ParseNode) (l_type : TypeExpression) (pos : Nat) (tok : TokType) : PRes :=
  match fuel with
  | 0 => .nofuel
  | f + 1 =>
    if tok = .Plus ∨ tok = .Minus then
      match p_multiplicative_expression sema toks f (pos + 1) with
      | .ok next p2 =>
        match sema.judge_combine_type l_type next.type_exp tok with
        | (true, ct) =>
          match toks[p2]? with
          | none => .fault
          | some tok2 =>
            additive_fold sema toks f
              ((((ParseNode.new (.BinaryExpression tok)).pushChild child).pushChild next).withType ct)
              ct p2 tok2
        | (false, _) => .err "can not use these types in a binary combination"
      | r => r
    else
      .ok (((ParseNode.new .AdditiveExpression).withType child.type_exp).pushChild child) pos
termination_by structural fuel

-- parser.rs p_shift_expression
def p_shift_expression (sema : Sema) (toks : List TokType) (fuel pos : Nat) : PRes :=
  match fuel with
  | 0 => .nofuel
  | f + 1 =>
    match check_pos pos toks.length with
    | .error e => .err e
    | .ok _ =>
      match p_additive_expression sema toks f pos with
      | .ok c p1 =>
        match toks[p1]? with
        | none => .fault
        | some tok =>
          if tok = .LeftOp ∨ tok = .RightOp then
            shift_fold sema toks f c c.type_exp p1 tok
          else
            .ok (((ParseNode.new .ShiftExpression).withType c.type_exp).pushChild c) p1
      | r => r
termination_by structural fuel

-- parser.rs p_shift_expression, binary fold loop
def shift_fold (sema : Sema) (toks : List TokType) (fuel : Nat)
    (child : ParseNode) (l_type : TypeExpression) (pos : Nat) (tok : TokType) : PRes :=
  match fuel with
  | 0 => .nofuel
  | f + 1 =>
    if tok = .LeftOp ∨ tok = .RightOp then
      match p_additive_expression sema toks f (pos + 1) with
      | .ok next p2 =>
        match sema.judge_combine_type l_type next.type_exp tok with
        | (true, ct) =>
          match toks[p2]? with
          | none => .fault
          | some tok2 =>
            shift_fold sema toks f
              ((((ParseNode.new (.BinaryExpression tok)).pushChild child).pushChild next).withType ct)
              ct p2 tok2
        | (false, _) => .err "can not use these types in a binary combination"
      | r => r
    else
      .ok (((ParseNode.new .ShiftExpression).withType child.type_exp).pushChild child) pos
termination_by structural fuel

-- parser.rs p_relational_expression
def p_relational_expression (sema : Sema) (toks : List TokType) (fuel pos : Nat) : PRes :=
  match fuel with
  | 0 => .nofuel
  | f + 1 =>
    match check_pos pos toks.length with
    | .error e => .err e
    | .ok _ =>
      match p_shift_expression sema toks f pos with
      | .ok c p1 =>
        match toks[p1]? with
        | none => .fault
        | some tok =>
          if tok = .LeOp ∨ tok = .GeOp ∨ tok = .Lt ∨ tok = .Gt then
            relational_fold sema toks f c c.type_exp p1 tok
          else
            .ok (((ParseNode.new .RelationalExpression).withType c.type_exp).pushChild c) p1
      | r => r
termination_by structural fuel

-- parser.rs p_relational_expression, binary fold loop
def relational_fold (sema : Sema) (toks : List TokType) (fuel : Nat)
    (child : ParseNode) (l_type : TypeExpression) (pos : Nat) (tok : TokType) : PRes :=
  match fuel with
  | 0 => .nofuel
  | f + 1 =>
    if tok = .LeOp ∨ tok = .GeOp ∨ tok = .Lt ∨ tok = .Gt then
      match p_shift_expression sema toks f (pos + 1) with
      | .ok next p2 =>
        match sema.judge_combine_type l_type next.type_exp tok with
        | (true, ct) =>
          match toks[p2]? with
          | none => .fault
          | some tok2 =>
            relational_fold sema toks f
              ((((ParseNode.new (.BinaryExpression tok)).pushChild child).pushChild next).withType ct)
              ct p2 tok2
        | (false, _) => .err "can not use these types in a binary combination"
      | r => r
    else
      .ok (((ParseNode.new .RelationalExpression).withType child.type_exp).pushChild child) pos
termination_by structural fuel

-- parser.rs p_equality_expression
def p_equality_expression (sema : Sema) (toks : List TokType) (fuel pos : Nat) : PRes :=
  match fuel with
  | 0 => .nofuel
  | f + 1 =>
    match check_pos pos toks.length with
    | .error e => .err e
    | .ok _ =>
      match p_relational_expression sema toks f pos with
      | .ok c p1 =>
        match toks[p1]? with
        | none => .fault
        | some tok =>
          if tok = .EqOp ∨ tok = .NeOp then
            equality_fold sema toks f c c.type_exp p1 tok
          else
            .ok (((ParseNode.new .EqualityExpression).withType c.type_exp).pushChild c) p1
      | r => r
termination_by structural fuel

-- parser.rs p_equality_expression, binary fold loop
def equality_fold (sema : Sema) (toks : List TokType) (fuel : Nat)
    (child : ParseNode) (l_type : TypeExpression) (pos : Nat) (tok : TokType) : PRes :=
  match fuel with
  | 0 => .nofuel
  | f + 1 =>
    if tok = .EqOp ∨ tok = .NeOp then
      match p_relational_expression sema toks f (pos + 1) with
      | .ok next p2 =>
        match sema.judge_combine_type l_type next.type_exp tok with
        | (true, ct) =>
          match toks[p2]? with
          | none => .fault
          | some tok2 =>
            equality_fold sema toks f
              ((((ParseNode.new (.BinaryExpression tok)).pushChild child).pushChild next).withType ct)
              ct p2 tok2
        | (false, _) => .err "can not use these types in a binary combination"
      | r => r
    else
      .ok (((ParseNode.new .EqualityExpression).withType child.type_exp).pushChild child) pos
termination_by structural fuel

-- parser.rs p_and_expression
def p_and_expression (sema : Sema) (toks : List TokType) (fuel pos : Nat) : PRes :=
  match fuel with
  | 0 => .nofuel
  | f + 1 =>
    match check_pos pos toks.length with
    | .error e => .err e
    | .ok _ =>
      match p_equality_expression sema toks f pos with
      | .ok c p1 =>
        match toks[p1]? with
        | none => .fault
        | some tok =>
          if tok = .SingleAnd then
            and_fold sema toks f c c.type_exp p1 tok
          else
            .ok (((ParseNode.new .AndExpression).withType c.type_exp).pushChild c) p1
      | r => r
termination_by structural fuel

-- parser.rs p_and_expression, binary fold loop
def and_fold (sema : Sema) (toks : List TokType) (fuel : Nat)
    (child : ParseNode) (l_type : TypeExpression) (pos : Nat) (tok : TokType) : PRes :=
  match fuel with
  | 0 => .nofuel
  | f + 1 =>
    if tok = .SingleAnd then
      match p_equality_expression sema toks f (pos + 1) with
      | .ok next p2 =>
        match sema.judge_combine_type l_type next.type_exp tok with
        | (true, ct) =>
          match toks[p2]? with
          | none => .fault
          | some tok2 =>
            and_fold sema toks f
              ((((ParseNode.new (.BinaryExpression tok)).pushChild child).pushChild next).withType ct)
              ct p2 tok2
        | (false, _) => .err "can not use these types in a binary combination"
      | r => r
    else
      .ok (((ParseNode.new .AndExpression).withType child.type_exp).pushChild child) pos
termination_by structural fuel

-- parser.rs p_exclusive_or_expression
def p_exclusive_or_expression (sema : Sema) (toks : List TokType) (fuel pos : Nat) : PRes :=
  match fuel with
  | 0 => .nofuel
  | f + 1 =>
    match check_pos pos toks.length with
    | .error e => .err e
    | .ok _ =>
      match p_and_expression sema toks f pos with
      | .ok c p1 =>
        match toks[p1]? with
        | none => .fault
        | some tok =>
          if tok = .ExclusiveOr then
            exclusive_or_fold sema toks f c c.type_exp p1 tok
          else
            .ok (((ParseNode.new .ExclusiveOrExpression).withType c.type_exp).pushChild c) p1
      | r => r
termination_by structural fuel

-- parser.rs p_exclusive_or_expression, binary fold loop
def exclusive_or_fold (sema : Sema) (toks : List TokType) (fuel : Nat)
    (child : ParseNode) (l_type : TypeExpression) (pos : Nat) (tok : TokType) : PRes :=
  match fuel with
  | 0 => .nofuel
  | f + 1 =>
    if tok = .ExclusiveOr then
      match p_and_expression sema toks f (pos + 1) with
      | .ok next p2 =>
        match sema.judge_combine_type l_type next.type_exp tok with
        | (true, ct) =>
          match toks[p2]? with
          | none => .fault
          | some tok2 =>
            exclusive_or_fold sema toks f
              ((((ParseNode.new (.BinaryExpression tok)).pushChild child).pushChild next).withType ct)
              ct p2 tok2
        | (false, _) => .err "can not use these types in a binary combination"
      | r => r
    else
      .ok (((ParseNode.new .ExclusiveOrExpression).withType child.type_exp).pushChild child) pos
termination_by structural fuel

-- parser.rs p_inclusive_or_expression
def p_inclusive_or_expression (sema : Sema) (toks : List TokType) (fuel pos : Nat) : PRes :=
  match fuel with
  | 0 => .nofuel
  | f + 1 =>
    match check_pos pos toks.length with
    | .error e => .err e
    | .ok _ =>
      match p_exclusive_or_expression sema toks f pos with
      | .ok c p1 =>
        match toks[p1]? with
        | none => .fault
        | some tok =>
          if tok = .InclusiveOr then
            inclusive_or_fold sema toks f c c.type_exp p1 tok
          else
            .ok (((ParseNode.new .InclusiveOrExpression).withType c.type_exp).pushChild c) p1
      | r => r
termination_by structural fuel

-- parser.rs p_inclusive_or_expression, binary fold loop
def inclusive_or_fold (sema : Sema) (toks : List TokType) (fuel : Nat)
    (child : ParseNode) (l_type : TypeExpression) (pos : Nat) (tok : TokType) : PRes :=
  match fuel with
  | 0 => .nofuel
  | f + 1 =>
    if tok = .InclusiveOr then
      match p_exclusive_or_expression sema toks f (pos + 1) with
      | .ok next p2 =>
        match sema.judge_combine_type l_type next.type_exp tok with
        | (true, ct) =>
          match toks[p2]? with
          | none => .fault
          | some tok2 =>
            inclusive_or_fold sema toks f
              ((((ParseNode.new (.BinaryExpression tok)).pushChild child).pushChild next).withType ct)
              ct p2 tok2
        | (false, _) => .err "can not use these types in a binary combination"
      | r => r
    else
      .ok (((ParseNode.new .InclusiveOrExpression).withType child.type_exp).pushChild child) pos
termination_by structural fuel

-- parser.rs p_logical_and_expression
def p_logical_and_expression (sema : Sema) (toks : List TokType) (fuel pos : Nat) : PRes :=
  match fuel with
  | 0 => .nofuel
  | f + 1 =>
    match check_pos pos toks.length with
    | .error e => .err e
    | .ok _ =>
      match p_inclusive_or_expression sema toks f pos with
      | .ok c p1 =>
        match toks[p1]? with
        | none => .fault
        | some tok =>
          if tok = .AndOp then
            logical_and_fold sema toks f c c.type_exp p1 tok
          else
            .ok (((ParseNode.new .LogicalAndExpression).withType c.type_exp).pushChild c) p1
      | r => r
termination_by structural fuel

-- parser.rs p_logical_and_expression, binary fold loop
def logical_and_fold (sema : Sema) (toks : List TokType) (fuel : Nat)
    (child : ParseNode) (l_type : TypeExpression) (pos : Nat) (tok : TokType) : PRes :=
  match fuel with
  | 0 => .nofuel
  | f + 1 =>
    if tok = .AndOp then
      match p_inclusive_or_expression sema toks f (pos + 1) with
      | .ok next p2 =>
        match sema.judge_combine_type l_type next.type_exp tok with
        | (true, ct) =>
          match toks[p2]? with
          | none => .fault
          | some tok2 =>
            logical_and_fold sema toks f
              ((((ParseNode.new (.BinaryExpression tok)).pushChild child).pushChild next).withType ct)
              ct p2 tok2
        | (false, _) => .err "can not use these types in a binary combination"
      | r => r
    else
      .ok (((ParseNode.new .LogicalAndExpression).withType child.type_exp).pushChild child) pos
termination_by structural fuel

-- parser.rs p_logical_or_expression
def p_logical_or_expression (sema : Sema) (toks : List TokType) (fuel pos : Nat) : PRes :=
  match fuel with
  | 0 => .nofuel
  | f + 1 =>
    match check_pos pos toks.length with
    | .error e => .err e
    | .ok _ =>
      match p_logical_and_expression sema toks f pos with
      | .ok c p1 =>
        match toks[p1]? with
        | none => .fault
        | some tok =>
          if tok = .OrOp then
            logical_or_fold sema toks f c c.type_exp p1 tok
          else
            .ok (((ParseNode.new .LogicalOrExpression).withType c.type_exp).pushChild c) p1
      | r => r
termination_by structural fuel

-- parser.rs p_logical_or_expression, binary fold loop
def logical_or_fold (sema : Sema) (toks : List TokType) (fuel : Nat)
    (child : ParseNode) (l_type : TypeExpression) (pos : Nat) (tok : TokType) : PRes :=
  match fuel with
  | 0 => .nofuel
  | f + 1 =>
    if tok = .OrOp then
      match p_logical_and_expression sema toks f (pos + 1) with
      | .ok next p2 =>
        match sema.judge_combine_type l_type next.type_exp tok with
        | (true, ct) =>
          match toks[p2]? with
          | none => .fault
          | some tok2 =>
            logical_or_fold sema toks f
              ((((ParseNode.new (.BinaryExpression tok)).pushChild child).pushChild next).withType ct)
              ct p2 tok2
        | (false, _) => .err "can not use these types in a binary combination"
      | r => r
    else
      .ok (((ParseNode.new .LogicalOrExpression).withType child.type_exp).pushChild child) pos
termination_by structural fuel

-- parser.rs p_conditional_expression
def p_conditional_expression (sema : Sema) (toks : List TokType) (fuel pos : Nat) : PRes :=
  match fuel with
  | 0 => .nofuel
  | f + 1 =>
    match check_pos pos toks.length with
    | .error e => .err e
    | .ok _ =>
      match p_logical_or_expression sema toks f pos with
      | .ok c p1 =>
        match check_tok p1 toks .QuestionMark with
        | .ok _ =>
          if sema.judge_type_same c.type_exp (TypeExpression.new_val .Int) ||
             sema.judge_type_same c.type_exp (TypeExpression.new_val .Bool) ||
             sema.judge_type_same c.type_exp (TypeExpression.new_val .Long) ||
             sema.judge_type_same c.type_exp (TypeExpression.new_val .Signed) ||
             sema.judge_type_same c.type_exp (TypeExpression.new_val .Unsigned) ||
             sema.judge_type_same c.type_exp (TypeExpression.new_val .Char) then
            match p_expression sema toks f (p1 + 1) with
            | .ok t p2 =>
              match check_tok p2 toks .Colon with
              | .error e => .err e
              | .ok _ =>
                match p_conditional_expression sema toks f (p2 + 1) with
                | .ok fc p3 =>
                  if sema.judge_type_same t.type_exp fc.type_exp = false then
                    .err "Two option expression in Teneray Expression has different type"
                  else
                    .ok ((((((ParseNode.new .ConditionalExpression).withType
                      c.type_exp).pushChild c).pushChild t).withType fc.type_exp).pushChild fc) p3
                | r => r
            | r => r
          else
            .err "Conditional Expression does not have logical expression"
        | .error _ =>
          .ok (((ParseNode.new .ConditionalExpression).withType c.type_exp).pushChild c) p1
      | .err _ => .err "Error parse logical_or_expressiong"
      | r => r
termination_by structural fuel

-- parser.rs p_assignment_expression
def p_assignment_expression (sema : Sema) (toks : List TokType) (fuel pos : Nat) : PRes :=
  match fuel with
  | 0 => .nofuel
  | f + 1 =>
    match check_pos pos toks.length with
    | .error e => .err e
    | .ok _ =>
      match p_unary_expression sema toks f pos with
      | .ok c1 p1 =>
        match p_assignment_operator toks p1 with
        | .ok c2 p2 =>
          match p_assignment_expression sema toks f p2 with
          | .ok c3 p3 =>
            match sema.implicit_type_cast c1.type_exp c3.type_exp with
            | .ok rt =>
              .ok (((((ParseNode.new .AssignmentExpression).pushChild c1).pushChild
                c2).pushChild c3).withType rt) p3
            | .error e => .err e
          | .err _ =>
            match p_conditional_expression sema toks f pos with
            | .ok c p =>
              .ok (((ParseNode.new .AssignmentExpression).withType c.type_exp).pushChild c) p
            | r => r
          | r => r
        | .err _ =>
          match p_conditional_expression sema toks f pos with
          | .ok c p =>
            .ok (((ParseNode.new .AssignmentExpression).withType c.type_exp).pushChild c) p
          | r => r
        | r => r
      | .err _ =>
        match p_conditional_expression sema toks f pos with
        | .ok c p =>
          .ok (((ParseNode.new .AssignmentExpression).withType c.type_exp).pushChild c) p
        | r => r
      | r => r
termination_by structural fuel

-- parser.rs p_expression
def p_expression (sema : Sema) (toks : List TokType) (fuel pos : Nat) : PRes :=
  match fuel with
  | 0 => .nofuel
  | f + 1 =>
    match check_pos pos toks.length with
    | .error e => .err e
    | .ok _ =>
      match p_assignment_expression sema toks f pos with
      | .ok c p =>
        expression_loop sema toks f
          (((ParseNode.new .Expression).pushTypeChild c.type_exp).pushChild c) 0 c.type_exp p
      | r => r
termination_by structural fuel

-- parser.rs p_expression, comma loop (the comma is consumed before the
-- item is attempted; on failure the loop just stops)
def expression_loop (sema : Sema) (toks : List TokType) (fuel : Nat)
    (cur : ParseNode) (inc : Nat) (pre : TypeExpression) (pos : Nat) : PRes :=
  match fuel with
  | 0 => .nofuel
  | f + 1 =>
    match check_tok pos toks .Comma with
    | .error _ => .ok (finalize_inc cur inc pre) pos
    | .ok _ =>
      match p_assignment_expression sema toks f (pos + 1) with
      | .ok c tmp =>
        expression_loop sema toks f ((cur.withType c.type_exp).pushChild c) (inc + 1) pre tmp
      | .err _ => .ok (finalize_inc cur inc pre) (pos + 1)
      | r => r
termination_by structural fuel

-- parser.rs p_constant_expression
def p_constant_expression (sema : Sema) (toks : List TokType) (fuel pos : Nat) : PRes :=
  match fuel with
  | 0 => .nofuel
  | f + 1 =>
    match check_pos pos toks.length with
    | .error e => .err e
    | .ok _ =>
      match p_conditional_expression sema toks f pos with
      | .ok c p => .ok (((ParseNode.new .ConstantExpression).withType c.type_exp).pushChild c) p
      | r => r
termination_by structural fuel

-- parser.rs p_declaration
def p_declaration (sema : Sema) (toks : List TokType) (fuel pos : Nat) : PRes :=
  match fuel with
  | 0 => .nofuel
  | f + 1 =>
    match check_pos pos toks.length with
    | .error e => .err e
    | .ok _ =>
      match p_declaration_specifiers sema toks f pos with
      | .ok c p =>
        match check_tok p toks .Semicolon with
        | .ok _ => .ok (((ParseNode.new .Declaration).withType c.type_exp).pushChild c) (p + 1)
        | .error _ =>
          match p_init_declarator_list sema toks f p with
          | .ok c2 p2 =>
            match check_tok p2 toks .Semicolon with
            | .ok _ =>
              .ok (((((ParseNode.new .Declaration).pushTypeChild c.type_exp).pushChild
                c).pushTypeChild c2.type_exp).pushChild c2) (p2 + 1)
            | .error _ =>
              match toks[p2]? with
              | none => .fault
              | some t => .err (error_handler "Semicolon" t p2)
          | r => r
      | .err _ =>
        match p_static_assert_declaration sema toks f pos with
        | .ok c p => .ok (((ParseNode.new .Declaration).withType c.type_exp).pushChild c) p
        | .err _ => .err "Can not parse declaration"
        | r => r
      | r => r

-- parser.rs p_declaration_specifiers
def p_declaration_specifiers (sema : Sema) (toks : List TokType) (fuel pos : Nat) : PRes :=
  match fuel with
  | 0 => .nofuel
  | f + 1 =>
    match check_pos pos toks.length with
    | .error e => .err e
    | .ok _ =>
      match p_storage_class_specifier toks pos with
      | .ok c p =>
        match p_declaration_specifiers sema toks f p with
        | .ok c2 p2 =>
          .ok (((((ParseNode.new .DeclarationSpecifiers).pushChild c).pushTypeChild
            c.type_exp).pushTypeChild c2.type_exp).pushChild c2) p2
        | .err _ => .ok (((ParseNode.new .DeclarationSpecifiers).pushChild c).withType c.type_exp) p
        | r => r
      | .err _ =>
        match p_type_specifier sema toks f pos with
        | .ok c p =>
          match p_declaration_specifiers sema toks f p with
          | .ok c2 p2 =>
            .ok (((((ParseNode.new .DeclarationSpecifiers).pushChild c).pushTypeChild
              c.type_exp).pushTypeChild c2.type_exp).pushChild c2) p2
          | .err _ => .ok (((ParseNode.new .DeclarationSpecifiers).pushChild c).withType c.type_exp) p
          | r => r
        | .err _ =>
          match p_type_qualifier toks pos with
          | .ok c p =>
            match p_declaration_specifiers sema toks f p with
            | .ok c2 p2 =>
              .ok (((((ParseNode.new .DeclarationSpecifiers).pushChild c).pushTypeChild
                c.type_exp).pushTypeChild c2.type_exp).pushChild c2) p2
            | .err _ => .ok (((ParseNode.new .DeclarationSpecifiers).pushChild c).withType c.type_exp) p
            | r => r
          | .err _ =>
            match p_function_specifier toks pos with
            | .ok c p =>
              match p_declaration_specifiers sema toks f p with
              | .ok c2 p2 =>
                .ok (((((ParseNode.new .DeclarationSpecifiers).pushChild c).pushTypeChild
                  c.type_exp).pushTypeChild c2.type_exp).pushChild c2) p2
              | .err _ => .ok (((ParseNode.new .DeclarationSpecifiers).pushChild c).withType c.type_exp) p
              | r => r
            | .err _ =>
              match p_alignment_specifier sema toks f pos with
              | .ok c p =>
                match p_declaration_specifiers sema toks f p with
                | .ok c2 p2 =>
                  .ok (((((ParseNode.new .DeclarationSpecifiers).pushChild c).pushTypeChild
                    c.type_exp).pushTypeChild c2.type_exp).pushChild c2) p2
                | .err _ => .ok (((ParseNode.new .DeclarationSpecifiers).pushChild c).withType c.type_exp) p
                | r => r
              | .err _ => .err "Can not parse declaration_specifiers"
              | r => r
            | r => r
          | r => r
        | r => r
      | r => r
termination_by structural fuel

-- parser.rs p_init_declarator_list
def p_init_declarator_list (sema : Sema) (toks : List TokType) (fuel pos : Nat) : PRes :=
  match fuel with
  | 0 => .nofuel
  | f + 1 =>
    match check_pos pos toks.length with
    | .error e => .err e
    | .ok _ =>
      match p_init_declarator sema toks f pos with
      | .ok c p =>
        init_declarator_list_loop sema toks f
          (((ParseNode.new .InitDeclaratorList).pushTypeChild c.type_exp).pushChild c) 0 c.type_exp p
      | r => r

-- parser.rs p_init_declarator_list, comma loop (position advanced past
-- the comma, restored onto the comma when the next item fails)
def init_declarator_list_loop (sema : Sema) (toks : List TokType) (fuel : Nat)
    (cur : ParseNode) (inc : Nat) (pre : TypeExpression) (pos : Nat) : PRes :=
  match fuel with
  | 0 => .nofuel
  | f + 1 =>
    match check_tok pos toks .Comma with
    | .error _ => .ok (finalize_inc cur inc pre) pos
    | .ok _ =>
      match p_init_declarator sema toks f (pos + 1) with
      | .ok c tmp =>
        init_declarator_list_loop sema toks f
          ((cur.pushTypeChild c.type_exp).pushChild c) (inc + 1) pre tmp
      | .err _ => .ok (finalize_inc cur inc pre) pos
      | r => r
termination_by structural fuel

-- parser.rs p_init_declarator
def p_init_declarator (sema : Sema) (toks : List TokType) (fuel pos : Nat) : PRes :=
  match fuel with
  | 0 => .nofuel
  | f + 1 =>
    match check_pos pos toks.length with
    | .error e => .err e
    | .ok _ =>
      match p_declarator sema toks f pos with
      | .ok c p =>
        match check_tok p toks .Assign with
        | .ok _ =>
          match p_initializer sema toks f (p + 1) with
          | .ok c2 p2 =>
            if sema.judge_type_same c.type_exp c2.type_exp then
              .ok ((((ParseNode.new .InitDeclarator).pushChild c).withType
                c.type_exp).pushChild c2) p2
            else
              .err "init_declarator, can not assign"
          | r => r
        | .error _ => .ok (((ParseNode.new .InitDeclarator).pushChild c).withType c.type_exp) p
      | .err _ => .err "Can not parse init_declarator"
      | r => r

-- parser.rs p_type_specifier (note: no bounds check before indexing)
def p_type_specifier (sema : Sema) (toks : List TokType) (fuel pos : Nat) : PRes :=
  match fuel with
  | 0 => .nofuel
  | f + 1 =>
    match toks[pos]? with
    | none => .fault
    | some .VOID =>
      .ok ((ParseNode.new (.TypeSpecifier (some .VOID))).withType (TypeExpression.new_val .Void)) (pos + 1)
    | some .CHAR =>
      .ok ((ParseNode.new (.TypeSpecifier (some .CHAR))).withType (TypeExpression.new_val .Char)) (pos + 1)
    | some .SHORT =>
      .ok ((ParseNode.new (.TypeSpecifier (some .SHORT))).withType (TypeExpression.new_val .Short)) (pos + 1)
    | some .INT =>
      .ok ((ParseNode.new (.TypeSpecifier (some .INT))).withType (TypeExpression.new_val .Int)) (pos + 1)
    | some .LONG =>
      .ok ((ParseNode.new (.TypeSpecifier (some .LONG))).withType (TypeExpression.new_val .Long)) (pos + 1)
    | some .FLOAT =>
      .ok ((ParseNode.new (.TypeSpecifier (some .FLOAT))).withType (TypeExpression.new_val .Float)) (pos + 1)
    | some .DOUBLE =>
      .ok ((ParseNode.new (.TypeSpecifier (some .DOUBLE))).withType (TypeExpression.new_val .Double)) (pos + 1)
    | some .SIGNED =>
      .ok ((ParseNode.new (.TypeSpecifier (some .SIGNED))).withType (TypeExpression.new_val .Signed)) (pos + 1)
    | some .UNSIGNED =>
      .ok ((ParseNode.new (.TypeSpecifier (some .UNSIGNED))).withType (TypeExpression.new_val .Unsigned)) (pos + 1)
    | some .BOOL =>
      .ok ((ParseNode.new (.TypeSpecifier (some .BOOL))).withType (TypeExpression.new_val .Bool)) (pos + 1)
    | some .COMPLEX =>
      .ok ((ParseNode.new (.TypeSpecifier (some .COMPLEX))).withType (TypeExpression.new_val .Complex)) (pos + 1)
    | some .IMAGINARY =>
      .ok ((ParseNode.new (.TypeSpecifier (some .IMAGINARY))).withType (TypeExpression.new_val .Imaginary)) (pos + 1)
    | some .TypedefName => .err "Typedef is not supported in crust now"
    | some _ =>
      match p_atomic_type_specifier sema toks f pos with
      | .ok c p => .ok (((ParseNode.new (.TypeSpecifier none)).withType c.type_exp).pushChild c) p
      | .err _ =>
        match p_struct_or_union_specifier sema toks f pos with
        | .ok c p => .ok (((ParseNode.new (.TypeSpecifier none)).withType c.type_exp).pushChild c) p
        | .err _ =>
          match p_enum_specifier sema toks f pos with
          | .ok c p => .ok (((ParseNode.new (.TypeSpecifier none)).withType c.type_exp).pushChild c) p
          | .err _ => .err "Error parse type specifier"
          | r => r
        | r => r
      | r => r
termination_by structural fuel

-- parser.rs p_struct_or_union_specifier (the anonymous form really
-- checks for RParen after the declaration list, as in the source)
def p_struct_or_union_specifier (sema : Sema) (toks : List TokType) (fuel pos : Nat) : PRes :=
  match fuel with
  | 0 => .nofuel
  | f + 1 =>
    match check_pos pos toks.length with
    | .error e => .err e
    | .ok _ =>
      match p_struct_or_union toks pos with
      | .ok c p =>
        match p_identifier toks p with
        | .ok idn p2 =>
          match check_tok p2 toks .LBrace with
          | .ok _ =>
            match p_struct_declaration_list sema toks f (p2 + 1) with
            | .ok c3 p3 =>
              match check_tok p3 toks .RBrace with
              | .error e => .err e
              | .ok _ =>
                .ok (((((((ParseNode.new .StructOrUnionSpecifier).pushTypeChild
                  c.type_exp).pushChild c).pushTypeChild idn.type_exp).pushChild
                  idn).pushTypeChild c3.type_exp).pushChild c3) (p3 + 1)
            | r => r
          | .error _ =>
            .ok (((((ParseNode.new .StructOrUnionSpecifier).pushTypeChild
              c.type_exp).pushChild c).pushTypeChild idn.type_exp).pushChild idn) p2
        | .err _ =>
          match check_tok p toks .LBrace with
          | .error e => .err e
          | .ok _ =>
            match p_struct_declaration_list sema toks f (p + 1) with
            | .ok c3 p3 =>
              match check_tok p3 toks .RParen with
              | .error e => .err e
              | .ok _ =>
                .ok (((((ParseNode.new .StructOrUnionSpecifier).pushTypeChild
                  c.type_exp).pushChild c).pushTypeChild c3.type_exp).pushChild c3) (p3 + 1)
            | r => r
        | r => r
      | r => r
termination_by structural fuel

-- parser.rs p_struct_declaration_list
def p_struct_declaration_list (sema : Sema) (toks : List TokType) (fuel pos : Nat) : PRes :=
  match fuel with
  | 0 => .nofuel
  | f + 1 =>
    match check_pos pos toks.length with
    | .error e => .err e
    | .ok _ =>
      match p_struct_declaration sema toks f pos with
      | .ok c p =>
        struct_declaration_list_loop sema toks f
          (((ParseNode.new .StructDeclarationList).pushTypeChild c.type_exp).pushChild c) 0 c.type_exp p
      | r => r
termination_by structural fuel

-- parser.rs p_struct_declaration_list, repetition loop
def struct_declaration_list_loop (sema : Sema) (toks : List TokType) (fuel : Nat)
    (cur : ParseNode) (inc : Nat) (pre : TypeExpression) (pos : Nat) : PRes :=
  match fuel with
  | 0 => .nofuel
  | f + 1 =>
    match p_struct_declaration sema toks f pos with
    | .ok c tmp =>
      struct_declaration_list_loop sema toks f
        ((cur.pushTypeChild c.type_exp).pushChild c) (inc + 1) pre tmp
    | .err _ => .ok (finalize_inc cur inc pre) pos
    | r => r
termination_by structural fuel

-- parser.rs p_struct_declaration
def p_struct_declaration (sema : Sema) (toks : List TokType) (fuel pos : Nat) : PRes :=
  match fuel with
  | 0 => .nofuel
  | f + 1 =>
    match check_pos pos toks.length with
    | .error e => .err e
    | .ok _ =>
      match p_specifier_qualifier_list sema toks f pos with
      | .ok c p =>
        match check_tok p toks .Semicolon with
        | .ok _ => .ok (((ParseNode.new .StructDeclaration).pushChild c).withType c.type_exp) (p + 1)
        | .error _ =>
          match p_struct_declarator_list sema toks f p with
          | .ok c2 p2 =>
            match check_tok p2 toks .Semicolon with
            | .ok _ =>
              .ok (((((ParseNode.new .StructDeclaration).pushChild c).pushTypeChild
                c.type_exp).pushTypeChild c2.type_exp).pushChild c2) (p2 + 1)
            | .error _ =>
              match toks[p2]? with
              | none => .fault
              | some t => .err (error_handler "Semicolon" t p2)
          | r => r
      | .err _ =>
        match p_static_assert_declaration sema toks f pos with
        | .ok c p => .ok (((ParseNode.new .StructDeclaration).withType c.type_exp).pushChild c) p
        | .err _ => .err "Error parse struct declaration"
        | r => r
      | r => r
termination_by structural fuel

-- parser.rs p_specifier_qualifier_list
def p_specifier_qualifier_list (sema : Sema) (toks : List TokType) (fuel pos : Nat) : PRes :=
  match fuel with
  | 0 => .nofuel
  | f + 1 =>
    match check_pos pos toks.length with
    | .error e => .err e
    | .ok _ =>
      match p_type_specifier sema toks f pos with
      | .ok c p =>
        match p_specifier_qualifier_list sema toks f p with
        | .ok c2 p2 =>
          .ok (((((ParseNode.new .SpecifierQualifier).pushChild c).pushTypeChild
            c.type_exp).pushTypeChild c2.type_exp).pushChild c2) p2
        | .err _ => .ok (((ParseNode.new .SpecifierQualifier).pushChild c).withType c.type_exp) p
        | r => r
      | .err _ =>
        match p_type_qualifier toks pos with
        | .ok c p =>
          match p_specifier_qualifier_list sema toks f p with
          | .ok c2 p2 =>
            .ok (((((ParseNode.new .SpecifierQualifier).pushChild c).pushTypeChild
              c.type_exp).pushTypeChild c2.type_exp).pushChild c2) p2
          | .err _ => .ok (((ParseNode.new .SpecifierQualifier).pushChild c).withType c.type_exp) p
          | r => r
        | .err _ => .err "Error parse specifier_qualifier_list"
        | r => r
      | r => r
termination_by structural fuel

-- parser.rs p_struct_declarator_list
def p_struct_declarator_list (sema : Sema) (toks : List TokType) (fuel pos : Nat) : PRes :=
  match fuel with
  | 0 => .nofuel
  | f + 1 =>
    match check_pos pos toks.length with
    | .error e => .err e
    | .ok _ =>
      match p_struct_declarator sema toks f pos with
      | .ok c p =>
        struct_declarator_list_loop sema toks f
          (((ParseNode.new .StructDeclaratorList).pushTypeChild c.type_exp).pushChild c) 0 c.type_exp p
      | r => r
termination_by structural fuel

-- parser.rs p_struct_declarator_list, comma loop
def struct_declarator_list_loop (sema : Sema) (toks : List TokType) (fuel : Nat)
    (cur : ParseNode) (inc : Nat) (pre : TypeExpression) (pos : Nat) : PRes :=
  match fuel with
  | 0 => .nofuel
  | f + 1 =>
    match check_tok pos toks .Comma with
    | .error _ => .ok (finalize_inc cur inc pre) pos
    | .ok _ =>
      match p_struct_declarator sema toks f (pos + 1) with
      | .ok c tmp =>
        struct_declarator_list_loop sema toks f
          ((cur.pushTypeChild c.type_exp).pushChild c) (inc + 1) pre tmp
      | .err _ => .ok (finalize_inc cur inc pre) pos
      | r => r
termination_by structural fuel

-- parser.rs p_struct_declarator (the declarator-colon form parses the
-- constant expression at the colon itself, as in the source)
def p_struct_declarator (sema : Sema) (toks : List TokType) (fuel pos : Nat) : PRes :=
  match fuel with
  | 0 => .nofuel
  | f + 1 =>
    match check_pos pos toks.length with
    | .error e => .err e
    | .ok _ =>
      match check_tok pos toks .Colon with
      | .ok _ =>
        match p_constant_expression sema toks f (pos + 1) with
        | .ok c p => .ok (((ParseNode.new .StructDeclarator).withType c.type_exp).pushChild c) p
        | r => r
      | .error _ =>
        match p_declarator sema toks f pos with
        | .ok c p =>
          match check_tok p toks .Colon with
          | .ok _ =>
            match p_constant_expression sema toks f p with
            | .ok c2 p2 =>
              .ok (((((ParseNode.new .StructDeclarator).pushTypeChild c.type_exp).pushChild
                c).pushTypeChild c2.type_exp).pushChild c2) p2
            | r => r
          | .error _ =>
            .ok ((((ParseNode.new .StructDeclarator).pushTypeChild c.type_exp).pushChild
              c).withType c.type_exp) p
        | .err _ => .err "Error parse declarator"
        | r => r
termination_by structural fuel

-- parser.rs p_enum_specifier (the enumerator list is parsed at the
-- brace position, as in the source)
def p_enum_specifier (sema : Sema) (toks : List TokType) (fuel pos : Nat) : PRes :=
  match fuel with
  | 0 => .nofuel
  | f + 1 =>
    match check_pos pos toks.length with
    | .error e => .err e
    | .ok _ =>
      match check_tok pos toks .ENUM with
      | .error e => .err e
      | .ok _ =>
        match check_tok (pos + 1) toks .LBrace with
        | .ok _ =>
          match p_enumerator_list sema toks f (pos + 1) with
          | .ok c p =>
            match check_tok p toks .RBrace with
            | .ok _ => .ok ((ParseNode.new (.EnumSpecifier none)).pushChild c) (p + 1)
            | .error _ =>
              match check_tok p toks .Comma with
              | .ok _ =>
                match check_tok (p + 1) toks .RBrace with
                | .ok _ => .ok ((ParseNode.new (.EnumSpecifier none)).pushChild c) (p + 2)
                | .error _ =>
                  match toks[p + 1]? with
                  | none => .fault
                  | some t => .err (error_handler "RBrace" t (p + 1))
              | .error _ =>
                match toks[p]? with
                | none => .fault
                | some t => .err (error_handler "RBrace" t p)
          | r => r
        | .error _ =>
          match toks[pos + 1]? with
          | none => .fault
          | some (.IDENTIFIER name) =>
            match check_tok (pos + 2) toks .LBrace with
            | .ok _ =>
              match p_enumerator_list sema toks f (pos + 2) with
              | .ok c p =>
                match check_tok p toks .RBrace with
                | .ok _ => .ok ((ParseNode.new (.EnumSpecifier (some name))).pushChild c) (p + 1)
                | .error _ =>
                  match check_tok p toks .Comma with
                  | .ok _ =>
                    match check_tok (p + 1) toks .RBrace with
                    | .ok _ => .ok ((ParseNode.new (.EnumSpecifier (some name))).pushChild c) (p + 2)
                    | .error _ =>
                      match toks[p + 1]? with
                      | none => .fault
                      | some t => .err (error_handler "RBrace" t (p + 1))
                  | .error _ =>
                    match toks[p]? with
                    | none => .fault
                    | some t => .err (error_handler "RBrace" t p)
              | r => r
            | .error _ =>
              match toks[pos + 2]? with
              | none => .fault
              | some t => .err (error_handler "RBrace" t (pos + 2))
          | some t => .err (error_handler "LBrace or identifier" t (pos + 1))
termination_by structural fuel

-- parser.rs p_enumerator_list
def p_enumerator_list (sema : Sema) (toks : List TokType) (fuel pos : Nat) : PRes :=
  match fuel with
  | 0 => .nofuel
  | f + 1 =>
    match check_pos pos toks.length with
    | .error e => .err e
    | .ok _ =>
      match p_enumerator sema toks f pos with
      | .ok c p =>
        enumerator_list_loop sema toks f
          (((ParseNode.new .EnumeratorList).pushTypeChild c.type_exp).pushChild c) p
      | r => r
termination_by structural fuel

-- parser.rs p_enumerator_list, comma loop
def enumerator_list_loop (sema : Sema) (toks : List TokType) (fuel : Nat)
    (cur : ParseNode) (pos : Nat) : PRes :=
  match fuel with
  | 0 => .nofuel
  | f + 1 =>
    match check_tok pos toks .Comma with
    | .error _ => .ok cur pos
    | .ok _ =>
      match p_enumerator sema toks f (pos + 1) with
      | .ok c tmp =>
        enumerator_list_loop sema toks f ((cur.pushTypeChild c.type_exp).pushChild c) tmp
      | .err _ => .ok cur pos
      | r => r
termination_by structural fuel

-- parser.rs p_enumerator
def p_enumerator (sema : Sema) (toks : List TokType) (fuel pos : Nat) : PRes :=
  match fuel with
  | 0 => .nofuel
  | f + 1 =>
    match check_pos pos toks.length with
    | .error e => .err e
    | .ok _ =>
      match p_enumeration_constant toks pos with
      | .ok c p =>
        match check_tok p toks .Assign with
        | .ok _ =>
          match p_constant_expression sema toks f (p + 1) with
          | .ok c2 p2 =>
            if sema.judge_type_same c2.type_exp (TypeExpression.new_val .Int) ||
               sema.judge_type_same c2.type_exp (TypeExpression.new_val .Bool) ||
               sema.judge_type_same c2.type_exp (TypeExpression.new_val .Long) ||
               sema.judge_type_same c2.type_exp (TypeExpression.new_val .Signed) ||
               sema.judge_type_same c2.type_exp (TypeExpression.new_val .Unsigned) then
              .ok (((((ParseNode.new .Enumerator).pushChild c).pushTypeChild
                c.type_exp).pushTypeChild c2.type_exp).pushChild c2) p2
            else
              .err "enumeration_constant can only assign to int"
          | r => r
        | .error _ => .ok (((ParseNode.new .Enumerator).pushChild c).withType c.type_exp) p
      | r => r
termination_by structural fuel

-- parser.rs p_atomic_type_specifier
def p_atomic_type_specifier (sema : Sema) (toks : List TokType) (fuel pos : Nat) : PRes :=
  match fuel with
  | 0 => .nofuel
  | f + 1 =>
    match check_pos pos toks.length with
    | .error e => .err e
    | .ok _ =>
      match check_tok pos toks .ATOMIC with
      | .error e => .err e
      | .ok _ =>
        match check_tok (pos + 1) toks .LParen with
        | .error e => .err e
        | .ok _ =>
          match p_type_name sema toks f (pos + 2) with
          | .ok c p =>
            match check_tok p toks .RParen with
            | .error e => .err e
            | .ok _ =>
              .ok ((((ParseNode.new .AtomicTypeSpecifier).withType
                (TypeExpression.new_val .Atomic)).pushTypeChild c.type_exp).pushChild c) (p + 1)
          | r => r
termination_by structural fuel

-- parser.rs p_alignment_specifier
def p_alignment_specifier (sema : Sema) (toks : List TokType) (fuel pos : Nat) : PRes :=
  match fuel with
  | 0 => .nofuel
  | f + 1 =>
    match check_pos pos toks.length with
    | .error e => .err e
    | .ok _ =>
      match check_tok pos toks .ALIGNAS with
      | .error e => .err e
      | .ok _ =>
        match check_tok (pos + 1) toks .LParen with
        | .error e => .err e
        | .ok _ =>
          match p_type_name sema toks f (pos + 2) with
          | .ok c p =>
            match check_tok p toks .RParen with
            | .error e => .err e
            | .ok _ =>
              .ok (((ParseNode.new .AlignmentSpecifier).pushChild c).withType
                (TypeExpression.new_val .NoneExpression)) (p + 1)
          | .err _ =>
            match p_constant_expression sema toks f (pos + 2) with
            | .ok c p =>
              match check_tok p toks .RParen with
              | .error e => .err e
              | .ok _ =>
                .ok (((ParseNode.new .AlignmentSpecifier).pushChild c).withType
                  (TypeExpression.new_val .NoneExpression)) (p + 1)
            | .err _ => .err "Error parse alignment_specifier"
            | r => r
          | r => r
termination_by structural fuel

-- parser.rs p_declarator
def p_declarator (sema : Sema) (toks : List TokType) (fuel pos : Nat) : PRes :=
  match fuel with
  | 0 => .nofuel
  | f + 1 =>
    match check_pos pos toks.length with
    | .error e => .err e
    | .ok _ =>
      match p_direct_declarator sema toks f pos with
      | .ok c p => .ok (((ParseNode.new .Declarator).withType c.type_exp).pushChild c) p
      | .err _ =>
        match p_pointer sema toks f pos with
        | .ok c p =>
          match p_direct_declarator sema toks f p with
          | .ok c2 p2 =>
            .ok (((((ParseNode.new .Declarator).pushTypeChild c.type_exp).pushChild
              c).pushTypeChild c2.type_exp).pushChild c2) p2
          | r => r
        | .err _ => .err "Error parse declarator"
        | r => r
      | r => r
termination_by structural fuel

-- parser.rs p_direct_declarator (the parenthesised form never checks
-- the closing RParen, as in the source)
def p_direct_declarator (sema : Sema) (toks : List TokType) (fuel pos : Nat) : PRes :=
  match fuel with
  | 0 => .nofuel
  | f + 1 =>
    match check_pos pos toks.length with
    | .error e => .err e
    | .ok _ =>
      match p_identifier toks pos with
      | .ok c p =>
        match p_direct_declarator_post_list sema toks f p with
        | .ok c2 p2 =>
          .ok (((((ParseNode.new .DirectDeclarator).pushChild c).pushTypeChild
            c.type_exp).pushTypeChild c2.type_exp).pushChild c2) p2
        | .err _ => .ok (((ParseNode.new .DirectDeclarator).pushChild c).withType c.type_exp) p
        | r => r
      | .err _ =>
        match check_tok pos toks .LParen with
        | .ok _ =>
          match p_declarator sema toks f (pos + 1) with
          | .ok c p =>
            match p_direct_declarator_post_list sema toks f p with
            | .ok c2 p2 =>
              .ok (((((ParseNode.new .DirectDeclarator).pushChild c).pushTypeChild
                c.type_exp).pushTypeChild c2.type_exp).pushChild c2) p2
            | .err _ => .ok (((ParseNode.new .DirectDeclarator).pushChild c).withType c.type_exp) p
            | r => r
          | r => r
        | .error _ => .err "Error parse direct_declarator"
      | r => r
termination_by structural fuel

-- parser.rs p_direct_declarator_post_list
def p_direct_declarator_post_list (sema : Sema) (toks : List TokType) (fuel pos : Nat) : PRes :=
  match fuel with
  | 0 => .nofuel
  | f + 1 =>
    match check_pos pos toks.length with
    | .error e => .err e
    | .ok _ =>
      match p_direct_declarator_post sema toks f pos with
      | .ok c p =>
        direct_declarator_post_list_loop sema toks f
          (((ParseNode.new .DirectDeclaratorPostList).pushTypeChild c.type_exp).pushChild c) 0 c.type_exp p
      | r => r
termination_by structural fuel

-- parser.rs p_direct_declarator_post_list, repetition loop
def direct_declarator_post_list_loop (sema : Sema) (toks : List TokType) (fuel : Nat)
    (cur : ParseNode) (inc : Nat) (pre : TypeExpression) (pos : Nat) : PRes :=
  match fuel with
  | 0 => .nofuel
  | f + 1 =>
    match p_direct_declarator_post sema toks f pos with
    | .ok c tmp =>
      direct_declarator_post_list_loop sema toks f
        ((cur.pushTypeChild c.type_exp).pushChild c) (inc + 1) pre tmp
    | .err _ => .ok (finalize_inc cur inc pre) pos
    | r => r
termination_by structural fuel

-- parser.rs p_direct_declarator_post
def p_direct_declarator_post (sema : Sema) (toks : List TokType) (fuel pos : Nat) : PRes :=
  match fuel with
  | 0 => .nofuel
  | f + 1 =>
    match check_pos pos toks.length with
    | .error e => .err e
    | .ok _ =>
      match toks[pos]? with
      | none => .fault
      | some .LParen =>
        match check_tok (pos + 1) toks .RParen with
        | .ok _ => .ok (ParseNode.new (.DirectDeclaratorPost .LParen)) (pos + 2)
        | .error _ =>
          match p_parameter_type_list sema toks f (pos + 1) with
          | .ok c p =>
            match check_tok p toks .RParen with
            | .error e => .err e
            | .ok _ =>
              .ok (((ParseNode.new (.DirectDeclaratorPost .LParen)).withType
                c.type_exp).pushChild c) (p + 1)
          | .err _ =>
            match p_identifier_list sema toks f (pos + 1) with
            | .ok c p =>
              match check_tok p toks .RParen with
              | .error e => .err e
              | .ok _ =>
                .ok (((ParseNode.new (.DirectDeclaratorPost .LParen)).withType
                  c.type_exp).pushChild c) (p + 1)
            | r => r
          | r => r
      | some .LBracket =>
        match check_tok (pos + 1) toks .RBracket with
        | .ok _ => .ok (ParseNode.new (.DirectDeclaratorPost .LBracket)) (pos + 2)
        | .error _ =>
          match p_assignment_expression sema toks f (pos + 1) with
          | .ok c p =>
            match check_tok p toks .RBracket with
            | .error e => .err e
            | .ok _ =>
              .ok (((ParseNode.new (.DirectDeclaratorPost .LBracket)).withType
                c.type_exp).pushChild c) (p + 1)
          | r => r
      | some t => .err (error_handler "LBracket or LParen" t pos)
termination_by structural fuel

-- parser.rs p_pointer
def p_pointer (sema : Sema) (toks : List TokType) (fuel pos : Nat) : PRes :=
  match fuel with
  | 0 => .nofuel
  | f + 1 =>
    match check_pos pos toks.length with
    | .error e => .err e
    | .ok _ =>
      match check_tok pos toks .Multi with
      | .error e => .err e
      | .ok _ =>
        match p_type_qualifier_list sema toks f (pos + 1) with
        | .ok c p =>
          match p_pointer sema toks f p with
          | .ok c2 p2 =>
            .ok ((((((ParseNode.new .Pointer).withType (TypeExpression.new_val
              .Pointer)).pushTypeChild c.type_exp).pushChild c).pushTypeChild
              c2.type_exp).pushChild c2) p2
          | .err _ =>
            .ok ((((ParseNode.new .Pointer).withType (TypeExpression.new_val
              .Pointer)).pushTypeChild c.type_exp).pushChild c) p
          | r => r
        | .err _ =>
          match p_pointer sema toks f (pos + 1) with
          | .ok c2 p2 =>
            .ok ((((ParseNode.new .Pointer).withType (TypeExpression.new_val
              .Pointer)).pushTypeChild c2.type_exp).pushChild c2) p2
          | .err _ =>
            .ok ((ParseNode.new .Pointer).withType (TypeExpression.new_val .Pointer)) (pos + 1)
          | r => r
        | r => r
termination_by structural fuel

-- parser.rs p_type_qualifier_list
def p_type_qualifier_list (sema : Sema) (toks : List TokType) (fuel pos : Nat) : PRes :=
  match fuel with
  | 0 => .nofuel
  | f + 1 =>
    match check_pos pos toks.length with
    | .error e => .err e
    | .ok _ =>
      match p_type_qualifier toks pos with
      | .ok c p =>
        type_qualifier_list_loop sema toks f
          (((ParseNode.new .TypeQualifierList).pushTypeChild c.type_exp).pushChild c) p
      | r => r

-- parser.rs p_type_qualifier_list, repetition loop
def type_qualifier_list_loop (sema : Sema) (toks : List TokType) (fuel : Nat)
    (cur : ParseNode) (pos : Nat) : PRes :=
  match fuel with
  | 0 => .nofuel
  | f + 1 =>
    match p_type_qualifier toks pos with
    | .ok c tmp =>
      type_qualifier_list_loop sema toks f ((cur.pushTypeChild c.type_exp).pushChild c) tmp
    | .err _ => .ok cur pos
    | r => r
termination_by structural fuel

-- parser.rs p_parameter_type_list (on the variadic form the ELLIPSIS
-- is checked but never consumed, as in the source)
def p_parameter_type_list (sema : Sema) (toks : List TokType) (fuel pos : Nat) : PRes :=
  match fuel with
  | 0 => .nofuel
  | f + 1 =>
    match check_pos pos toks.length with
    | .error e => .err e
    | .ok _ =>
      match p_parameter_list sema toks f pos with
      | .ok c p =>
        match check_tok p toks .Comma with
        | .ok _ =>
          match check_tok (p + 1) toks .ELLIPSIS with
          | .error e => .err e
          | .ok _ =>
            .ok (((ParseNode.new (.ParameterTypeList true)).withType
              (c.type_exp.pushVal .VaList)).pushChild c) (p + 1)
        | .error _ =>
          .ok (((ParseNode.new (.ParameterTypeList false)).withType c.type_exp).pushChild c) p
      | r => r
termination_by structural fuel

-- parser.rs p_parameter_list
def p_parameter_list (sema : Sema) (toks : List TokType) (fuel pos : Nat) : PRes :=
  match fuel with
  | 0 => .nofuel
  | f + 1 =>
    match check_pos pos toks.length with
    | .error e => .err e
    | .ok _ =>
      match p_parameter_declaration sema toks f pos with
      | .ok c p =>
        parameter_list_loop sema toks f
          (((ParseNode.new .ParameterList).pushTypeChild c.type_exp).pushChild c) p
      | r => r
termination_by structural fuel

-- parser.rs p_parameter_list, comma loop
def parameter_list_loop (sema : Sema) (toks : List TokType) (fuel : Nat)
    (cur : ParseNode) (pos : Nat) : PRes :=
  match fuel with
  | 0 => .nofuel
  | f + 1 =>
    match check_tok pos toks .Comma with
    | .error _ => .ok cur pos
    | .ok _ =>
      match p_parameter_declaration sema toks f (pos + 1) with
      | .ok c tmp =>
        parameter_list_loop sema toks f ((cur.pushTypeChild c.type_exp).pushChild c) tmp
      | .err _ => .ok cur pos
      | r => r
termination_by structural fuel

-- parser.rs p_parameter_declaration
def p_parameter_declaration (sema : Sema) (toks : List TokType) (fuel pos : Nat) : PRes :=
  match fuel with
  | 0 => .nofuel
  | f + 1 =>
    match check_pos pos toks.length with
    | .error e => .err e
    | .ok _ =>
      match p_declaration_specifiers sema toks f pos with
      | .ok c p =>
        match p_declarator sema toks f p with
        | .ok c2 p2 =>
          .ok (((((ParseNode.new .ParameterDeclaration).pushChild c).pushTypeChild
            c.type_exp).pushTypeChild c2.type_exp).pushChild c2) p2
        | .err _ =>
          match p_abstract_declarator sema toks f p with
          | .ok c2 p2 =>
            .ok (((((ParseNode.new .ParameterDeclaration).pushChild c).pushTypeChild
              c.type_exp).pushTypeChild c2.type_exp).pushChild c2) p2
          | .err _ =>
            .ok (((ParseNode.new .ParameterDeclaration).pushChild c).withType c.type_exp) p
          | r => r
        | r => r
      | r => r
termination_by structural fuel

-- parser.rs p_identifier_list
def p_identifier_list (sema : Sema) (toks : List TokType) (fuel pos : Nat) : PRes :=
  match fuel with
  | 0 => .nofuel
  | f + 1 =>
    match check_pos pos toks.length with
    | .error e => .err e
    | .ok _ =>
      match p_identifier toks pos with
      | .ok c p =>
        identifier_list_loop sema toks f
          (((ParseNode.new .IdentifierList).pushTypeChild c.type_exp).pushChild c) 0 c.type_exp p
      | r => r

-- parser.rs p_identifier_list, comma loop
def identifier_list_loop (sema : Sema) (toks : List TokType) (fuel : Nat)
    (cur : ParseNode) (inc : Nat) (pre : TypeExpression) (pos : Nat) : PRes :=
  match fuel with
  | 0 => .nofuel
  | f + 1 =>
    match check_tok pos toks .Comma with
    | .error _ => .ok (finalize_inc cur inc pre) pos
    | .ok _ =>
      match p_identifier toks (pos + 1) with
      | .ok c tmp =>
        identifier_list_loop sema toks f
          ((cur.pushTypeChild c.type_exp).pushChild c) (inc + 1) pre tmp
      | .err _ => .ok (finalize_inc cur inc pre) pos
      | r => r
termination_by structural fuel

-- parser.rs p_type_name
def p_type_name (sema : Sema) (toks : List TokType) (fuel pos : Nat) : PRes :=
  match fuel with
  | 0 => .nofuel
  | f + 1 =>
    match check_pos pos toks.length with
    | .error e => .err e
    | .ok _ =>
      match p_specifier_qualifier_list sema toks f pos with
      | .ok c p =>
        match p_abstract_declarator sema toks f p with
        | .ok c2 p2 =>
          .ok (((((ParseNode.new .TypeName).pushChild c).pushTypeChild
            c.type_exp).pushTypeChild c2.type_exp).pushChild c2) p2
        | .err _ => .ok (((ParseNode.new .TypeName).pushChild c).withType c.type_exp) p
        | r => r
      | r => r
termination_by structural fuel

-- parser.rs p_abstract_declarator
def p_abstract_declarator (sema : Sema) (toks : List TokType) (fuel pos : Nat) : PRes :=
  match fuel with
  | 0 => .nofuel
  | f + 1 =>
    match check_pos pos toks.length with
    | .error e => .err e
    | .ok _ =>
      match p_pointer sema toks f pos with
      | .ok c p =>
        match p_direct_abstract_declarator sema toks f p with
        | .ok c2 p2 =>
          .ok (((((ParseNode.new .AbstractDeclarator).pushChild c).withType
            (TypeExpression.new_val .Pointer)).pushTypeChild c2.type_exp).pushChild c2) p2
        | .err _ =>
          .ok (((ParseNode.new .AbstractDeclarator).pushChild c).withType
            (TypeExpression.new_val .Pointer)) p
        | r => r
      | .err _ =>
        match p_direct_abstract_declarator sema toks f pos with
        | .ok c p => .ok (((ParseNode.new .AbstractDeclarator).withType c.type_exp).pushChild c) p
        | .err _ => .err "Error parse abstract_declarator"
        | r => r
      | r => r
termination_by structural fuel

-- parser.rs p_direct_abstract_declarator
def p_direct_abstract_declarator (sema : Sema) (toks : List TokType) (fuel pos : Nat) : PRes :=
  match fuel with
  | 0 => .nofuel
  | f + 1 =>
    match check_pos pos toks.length with
    | .error e => .err e
    | .ok _ =>
      match p_direct_abstract_declarator_block sema toks f pos with
      | .ok c p =>
        direct_abstract_declarator_loop sema toks f
          (((ParseNode.new .DirectAbstractDeclarator).pushTypeChild c.type_exp).pushChild c) 0 c.type_exp p
      | r => r
termination_by structural fuel

-- parser.rs p_direct_abstract_declarator, repetition loop
def direct_abstract_declarator_loop (sema : Sema) (toks : List TokType) (fuel : Nat)
    (cur : ParseNode) (inc : Nat) (pre : TypeExpression) (pos : Nat) : PRes :=
  match fuel with
  | 0 => .nofuel
  | f + 1 =>
    match p_direct_abstract_declarator_block sema toks f pos with
    | .ok c tmp =>
      direct_abstract_declarator_loop sema toks f
        ((cur.pushTypeChild c.type_exp).pushChild c) (inc + 1) pre tmp
    | .err _ => .ok (finalize_inc cur inc pre) pos
    | r => r
termination_by structural fuel

-- parser.rs p_direct_abstract_declarator_block
def p_direct_abstract_declarator_block (sema : Sema) (toks : List TokType) (fuel pos : Nat) : PRes :=
  match fuel with
  | 0 => .nofuel
  | f + 1 =>
    match check_pos pos toks.length with
    | .error e => .err e
    | .ok _ =>
      match toks[pos]? with
      | none => .fault
      | some .LParen =>
        match check_tok (pos + 1) toks .RParen with
        | .ok _ => .ok (ParseNode.new (.DirectAbstractDeclaratorBlock .LParen)) (pos + 2)
        | .error _ =>
          match p_abstract_declarator sema toks f (pos + 1) with
          | .ok c p =>
            match check_tok p toks .RParen with
            | .error e => .err e
            | .ok _ =>
              .ok (((ParseNode.new (.DirectAbstractDeclaratorBlock .LParen)).withType
                c.type_exp).pushChild c) (p + 1)
          | .err _ =>
            match p_parameter_type_list sema toks f (pos + 1) with
            | .ok c p =>
              match check_tok p toks .RParen with
              | .error e => .err e
              | .ok _ =>
                .ok (((ParseNode.new (.DirectAbstractDeclaratorBlock .LParen)).withType
                  c.type_exp).pushChild c) (p + 1)
            | r => r
          | r => r
      | some .LBracket =>
        match check_tok (pos + 1) toks .RBracket with
        | .ok _ => .ok (ParseNode.new (.DirectAbstractDeclaratorBlock .LBracket)) (pos + 2)
        | .error _ =>
          match p_assignment_expression sema toks f (pos + 1) with
          | .ok c p =>
            match check_tok p toks .RBracket with
            | .error e => .err e
            | .ok _ =>
              .ok (((ParseNode.new (.DirectAbstractDeclaratorBlock .LBracket)).withType
                c.type_exp).pushChild c) (p + 1)
          | r => r
      | some t => .err (error_handler "LParen or LBracket" t pos)
termination_by structural fuel

-- parser.rs p_initializer (in the comma-then-brace form the closing
-- RBrace is checked but not consumed, as in the source)
def p_initializer (sema : Sema) (toks : List TokType) (fuel pos : Nat) : PRes :=
  match fuel with
  | 0 => .nofuel
  | f + 1 =>
    match check_pos pos toks.length with
    | .error e => .err e
    | .ok _ =>
      match p_assignment_expression sema toks f pos with
      | .ok c p => .ok (((ParseNode.new .Initializer).withType c.type_exp).pushChild c) p
      | .err _ =>
        match check_tok pos toks .LBrace with
        | .error e => .err e
        | .ok _ =>
          match p_initializer_list sema toks f (pos + 1) with
          | .ok c p =>
            match check_tok p toks .Comma with
            | .ok _ =>
              match check_tok (p + 1) toks .RBrace with
              | .error e => .err e
              | .ok _ => .ok (((ParseNode.new .Initializer).withType c.type_exp).pushChild c) (p + 1)
            | .error _ =>
              match check_tok p toks .RBrace with
              | .error e => .err e
              | .ok _ => .ok (((ParseNode.new .Initializer).withType c.type_exp).pushChild c) (p + 1)
          | r => r
      | r => r
termination_by structural fuel

-- parser.rs p_initializer_list
def p_initializer_list (sema : Sema) (toks : List TokType) (fuel pos : Nat) : PRes :=
  match fuel with
  | 0 => .nofuel
  | f + 1 =>
    match check_pos pos toks.length with
    | .error e => .err e
    | .ok _ =>
      match p_initializer sema toks f pos with
      | .ok c p =>
        initializer_list_loop sema toks f
          (((ParseNode.new .InitializerList).pushChild c).pushTypeChild c.type_exp) 0 c.type_exp p
      | .err _ =>
        match p_designation sema toks f pos with
        | .ok d p1 =>
          match p_initializer sema toks f p1 with
          | .ok c p2 =>
            initializer_list_loop sema toks f
              ((((ParseNode.new .InitializerList).pushChild d).pushChild
                c).pushTypeChild c.type_exp) 0 c.type_exp p2
          | r => r
        | .err _ => .err "Error parse initializer_list"
        | r => r
      | r => r
termination_by structural fuel

-- parser.rs p_initializer_list, comma loop (inc counts commas and is
-- incremented before the item is attempted, as in the source)
def initializer_list_loop (sema : Sema) (toks : List TokType) (fuel : Nat)
    (cur : ParseNode) (inc : Nat) (pre : TypeExpression) (pos : Nat) : PRes :=
  match fuel with
  | 0 => .nofuel
  | f + 1 =>
    match check_tok pos toks .Comma with
    | .error _ => .ok (finalize_inc cur inc pre) pos
    | .ok _ =>
      match p_initializer sema toks f (pos + 1) with
      | .ok c tmp =>
        initializer_list_loop sema toks f
          ((cur.pushChild c).pushTypeChild c.type_exp) (inc + 1) c.type_exp tmp
      | .err _ =>
        match p_designation sema toks f (pos + 1) with
        | .ok d pd =>
          match p_initializer sema toks f pd with
          | .ok c tmp =>
            initializer_list_loop sema toks f
              (((cur.pushChild d).pushChild c).pushTypeChild c.type_exp) (inc + 1) c.type_exp tmp
          | r => r
        | .err _ => .ok (finalize_inc cur (inc + 1) pre) pos
        | r => r
      | r => r
termination_by structural fuel

-- parser.rs p_designation
def p_designation (sema : Sema) (toks : List TokType) (fuel pos : Nat) : PRes :=
  match fuel with
  | 0 => .nofuel
  | f + 1 =>
    match check_pos pos toks.length with
    | .error e => .err e
    | .ok _ =>
      match p_designator_list sema toks f pos with
      | .ok c p =>
        match check_tok p toks .Assign with
        | .error e => .err e
        | .ok _ => .ok (((ParseNode.new .Designation).withType c.type_exp).pushChild c) (p + 1)
      | r => r
termination_by structural fuel

-- parser.rs p_designator_list
def p_designator_list (sema : Sema) (toks : List TokType) (fuel pos : Nat) : PRes :=
  match fuel with
  | 0 => .nofuel
  | f + 1 =>
    match check_pos pos toks.length with
    | .error e => .err e
    | .ok _ =>
      match p_designator sema toks f pos with
      | .ok c p =>
        designator_list_loop sema toks f
          (((ParseNode.new .DesignatorList).pushTypeChild c.type_exp).pushChild c) 0 c.type_exp p
      | r => r
termination_by structural fuel

-- parser.rs p_designator_list, repetition loop
def designator_list_loop (sema : Sema) (toks : List TokType) (fuel : Nat)
    (cur : ParseNode) (inc : Nat) (pre : TypeExpression) (pos : Nat) : PRes :=
  match fuel with
  | 0 => .nofuel
  | f + 1 =>
    match p_designator sema toks f pos with
    | .ok c tmp =>
      designator_list_loop sema toks f
        ((cur.pushTypeChild c.type_exp).pushChild c) (inc + 1) pre tmp
    | .err _ => .ok (finalize_inc cur inc pre) pos
    | r => r
termination_by structural fuel

-- parser.rs p_designator
def p_designator (sema : Sema) (toks : List TokType) (fuel pos : Nat) : PRes :=
  match fuel with
  | 0 => .nofuel
  | f + 1 =>
    match check_pos pos toks.length with
    | .error e => .err e
    | .ok _ =>
      match check_tok pos toks .LBracket with
      | .ok _ =>
        match p_constant_expression sema toks f (pos + 1) with
        | .ok c p =>
          match check_tok p toks .RBracket with
          | .error e => .err e
          | .ok _ => .ok (((ParseNode.new .Designator).withType c.type_exp).pushChild c) (p + 1)
        | r => r
      | .error _ =>
        match check_tok pos toks .Dot with
        | .error e => .err e
        | .ok _ =>
          match p_identifier toks (pos + 1) with
          | .ok c p => .ok (((ParseNode.new .Designator).withType c.type_exp).pushChild c) p
          | r => r
termination_by structural fuel

-- parser.rs p_static_assert_declaration
def p_static_assert_declaration (sema : Sema) (toks : List TokType) (fuel pos : Nat) : PRes :=
  match fuel with
  | 0 => .nofuel
  | f + 1 =>
    match check_pos pos toks.length with
    | .error e => .err e
    | .ok _ =>
      match check_tok pos toks .StaticAssert with
      | .error e => .err e
      | .ok _ =>
        match check_tok (pos + 1) toks .LParen with
        | .error e => .err e
        | .ok _ =>
          match p_constant_expression sema toks f (pos + 2) with
          | .ok c p =>
            match check_tok p toks .Comma with
            | .error e => .err e
            | .ok _ =>
              match p_string toks (p + 1) with
              | .ok s p2 =>
                match check_tok p2 toks .RParen with
                | .error e => .err e
                | .ok _ =>
                  match check_tok (p2 + 1) toks .Semicolon with
                  | .error e => .err e
                  | .ok _ =>
                    .ok ((((ParseNode.new .StaticAssertDeclaration).pushChild c).pushChild
                      s).withType (TypeExpression.new_val .NoneExpression)) (p2 + 2)
              | r => r
          | r => r
termination_by structural fuel

-- parser.rs p_statement
def p_statement (sema : Sema) (toks : List TokType) (fuel pos : Nat) : PRes :=
  match fuel with
  | 0 => .nofuel
  | f + 1 =>
    match check_pos pos toks.length with
    | .error e => .err e
    | .ok _ =>
      match p_labeled_statement sema toks f pos with
      | .ok c p => .ok (((ParseNode.new .Statement).withType c.type_exp).pushChild c) p
      | .err _ =>
        match p_compound_statement sema toks f pos with
        | .ok c p => .ok (((ParseNode.new .Statement).withType c.type_exp).pushChild c) p
        | .err _ =>
          match p_expression_statement sema toks f pos with
          | .ok c p => .ok (((ParseNode.new .Statement).withType c.type_exp).pushChild c) p
          | .err _ =>
            match p_selection_statement sema toks f pos with
            | .ok c p => .ok (((ParseNode.new .Statement).withType c.type_exp).pushChild c) p
            | .err _ =>
              match p_iteration_statement sema toks f pos with
              | .ok c p => .ok (((ParseNode.new .Statement).withType c.type_exp).pushChild c) p
              | .err _ =>
                match p_jump_statement sema toks f pos with
                | .ok c p => .ok (((ParseNode.new .Statement).withType c.type_exp).pushChild c) p
                | .err _ => .err "Error parse statement"
                | r => r
              | r => r
            | r => r
          | r => r
        | r => r
      | r => r
termination_by structural fuel

-- parser.rs p_labeled_statement
def p_labeled_statement (sema : Sema) (toks : List TokType) (fuel pos : Nat) : PRes :=
  match fuel with
  | 0 => .nofuel
  | f + 1 =>
    match check_pos pos toks.length with
    | .error e => .err e
    | .ok _ =>
      match toks[pos]? with
      | none => .fault
      | some (.IDENTIFIER s) =>
        match check_tok (pos + 1) toks .Colon with
        | .error e => .err e
        | .ok _ =>
          match p_statement sema toks f (pos + 2) with
          | .ok c p =>
            .ok (((ParseNode.new (.LabeledStatement s)).withType
              (TypeExpression.new_val .NoneExpression)).pushChild c) p
          | r => r
      | some .CASE =>
        match p_constant_expression sema toks f (pos + 1) with
        | .ok c p =>
          match check_tok p toks .Colon with
          | .error e => .err e
          | .ok _ =>
            match p_statement sema toks f (p + 1) with
            | .ok c2 p2 =>
              .ok ((((ParseNode.new (.LabeledStatement "case")).pushChild c).pushChild
                c2).withType (TypeExpression.new_val .NoneExpression)) p2
            | r => r
        | r => r
      | some .DEFAULT =>
        match check_tok (pos + 1) toks .Colon with
        | .error e => .err e
        | .ok _ =>
          match p_statement sema toks f (pos + 2) with
          | .ok c p =>
            .ok (((ParseNode.new (.LabeledStatement "default")).pushChild c).withType
              (TypeExpression.new_val .NoneExpression)) p
          | r => r
      | some t => .err (error_handler "label" t pos)
termination_by structural fuel

-- parser.rs p_compound_statement
def p_compound_statement (sema : Sema) (toks : List TokType) (fuel pos : Nat) : PRes :=
  match fuel with
  | 0 => .nofuel
  | f + 1 =>
    match check_pos pos toks.length with
    | .error e => .err e
    | .ok _ =>
      match check_tok pos toks .LBrace with
      | .error e => .err e
      | .ok _ =>
        match p_block_item_list sema toks f (pos + 1) with
        | .ok c p =>
          match check_tok p toks .RBrace with
          | .error e => .err e
          | .ok _ => .ok (((ParseNode.new .CompoundStatement).withType c.type_exp).pushChild c) (p + 1)
        | .err _ =>
          match check_tok (pos + 1) toks .RBrace with
          | .error e => .err e
          | .ok _ =>
            .ok ((ParseNode.new .CompoundStatement).withType
              (TypeExpression.new_val .NoneExpression)) (pos + 2)
        | r => r
termination_by structural fuel

-- parser.rs p_block_item_list
def p_block_item_list (sema : Sema) (toks : List TokType) (fuel pos : Nat) : PRes :=
  match fuel with
  | 0 => .nofuel
  | f + 1 =>
    match check_pos pos toks.length with
    | .error e => .err e
    | .ok _ =>
      match p_block_item sema toks f pos with
      | .ok c p =>
        block_item_list_loop sema toks f
          (((ParseNode.new .BlockItemList).pushTypeChild c.type_exp).pushChild c) 0 c.type_exp p
      | r => r
termination_by structural fuel

-- parser.rs p_block_item_list, repetition loop
def block_item_list_loop (sema : Sema) (toks : List TokType) (fuel : Nat)
    (cur : ParseNode) (inc : Nat) (pre : TypeExpression) (pos : Nat) : PRes :=
  match fuel with
  | 0 => .nofuel
  | f + 1 =>
    match p_block_item sema toks f pos with
    | .ok c tmp =>
      block_item_list_loop sema toks f
        ((cur.pushTypeChild c.type_exp).pushChild c) (inc + 1) pre tmp
    | .err _ => .ok (finalize_inc cur inc pre) pos
    | r => r
termination_by structural fuel

-- parser.rs p_block_item
def p_block_item (sema : Sema) (toks : List TokType) (fuel pos : Nat) : PRes :=
  match fuel with
  | 0 => .nofuel
  | f + 1 =>
    match check_pos pos toks.length with
    | .error e => .err e
    | .ok _ =>
      match p_declaration sema toks f pos with
      | .ok c p => .ok (((ParseNode.new .BlockItem).withType c.type_exp).pushChild c) p
      | .err _ =>
        match p_statement sema toks f pos with
        | .ok c p => .ok (((ParseNode.new .BlockItem).withType c.type_exp).pushChild c) p
        | .err _ => .err "Error parse block_item"
        | r => r
      | r => r
termination_by structural fuel

-- parser.rs p_expression_statement
def p_expression_statement (sema : Sema) (toks : List TokType) (fuel pos : Nat) : PRes :=
  match fuel with
  | 0 => .nofuel
  | f + 1 =>
    match check_pos pos toks.length with
    | .error e => .err e
    | .ok _ =>
      match check_tok pos toks .Semicolon with
      | .ok _ =>
        .ok ((ParseNode.new .ExpressionStatement).withType
          (TypeExpression.new_val .NoneExpression)) (pos + 1)
      | .error _ =>
        match p_expression sema toks f pos with
        | .ok c p =>
          match check_tok p toks .Semicolon with
          | .error e => .err e
          | .ok _ => .ok (((ParseNode.new .ExpressionStatement).withType c.type_exp).pushChild c) (p + 1)
        | r => r

-- parser.rs p_selection_statement
def p_selection_statement (sema : Sema) (toks : List TokType) (fuel pos : Nat) : PRes :=
  match fuel with
  | 0 => .nofuel
  | f + 1 =>
    match check_pos pos toks.length with
    | .error e => .err e
    | .ok _ =>
      match toks[pos]? with
      | none => .fault
      | some .IF =>
        match check_tok (pos + 1) toks .LParen with
        | .error e => .err e
        | .ok _ =>
          match p_expression sema toks f (pos + 2) with
          | .ok c p =>
            match check_tok p toks .RParen with
            | .error e => .err e
            | .ok _ =>
              match p_statement sema toks f (p + 1) with
              | .ok s p2 =>
                match check_tok p2 toks .ELSE with
                | .ok _ =>
                  match p_statement sema toks f (p2 + 1) with
                  | .ok s2 p3 =>
                    .ok (((((ParseNode.new (.SelectionStatement .IF)).pushChild c).pushChild
                      s).pushChild s2).withType (TypeExpression.new_val .NoneExpression)) p3
                  | r => r
                | .error _ =>
                  .ok ((((ParseNode.new (.SelectionStatement .IF)).pushChild c).pushChild
                    s).withType (TypeExpression.new_val .NoneExpression)) p2
              | r => r
          | r => r
      | some .SWITCH =>
        match check_tok (pos + 1) toks .LParen with
        | .error e => .err e
        | .ok _ =>
          match p_expression sema toks f (pos + 2) with
          | .ok c p =>
            match check_tok p toks .RParen with
            | .error e => .err e
            | .ok _ =>
              match p_statement sema toks f (p + 1) with
              | .ok s p2 =>
                .ok ((((ParseNode.new (.SelectionStatement .SWITCH)).pushChild c).pushChild
                  s).withType (TypeExpression.new_val .NoneExpression)) p2
              | r => r
          | r => r
      | some t => .err (error_handler "if or switch" t pos)
termination_by structural fuel

-- parser.rs p_iteration_statement
def p_iteration_statement (sema : Sema) (toks : List TokType) (fuel pos : Nat) : PRes :=
  match fuel with
  | 0 => .nofuel
  | f + 1 =>
    match check_pos pos toks.length with
    | .error e => .err e
    | .ok _ =>
      match toks[pos]? with
      | none => .fault
      | some .WHILE =>
        match check_tok (pos + 1) toks .LParen with
        | .error e => .err e
        | .ok _ =>
          match p_expression sema toks f (pos + 2) with
          | .ok c p =>
            match check_tok p toks .RParen with
            | .error e => .err e
            | .ok _ =>
              match p_statement sema toks f (p + 1) with
              | .ok s p2 =>
                .ok ((((ParseNode.new (.IterationStatement .WHILE)).pushChild c).pushChild
                  s).withType (TypeExpression.new_val .NoneExpression)) p2
              | r => r
          | r => r
      | some .DO =>
        match p_statement sema toks f (pos + 1) with
        | .ok s p =>
          match check_tok p toks .WHILE with
          | .error e => .err e
          | .ok _ =>
            match check_tok (p + 1) toks .LParen with
            | .error e => .err e
            | .ok _ =>
              match p_expression sema toks f (p + 2) with
              | .ok c p2 =>
                match check_tok p2 toks .RParen with
                | .error e => .err e
                | .ok _ =>
                  match check_tok (p2 + 1) toks .Semicolon with
                  | .error e => .err e
                  | .ok _ =>
                    .ok ((((ParseNode.new (.IterationStatement .DO)).pushChild s).pushChild
                      c).withType (TypeExpression.new_val .NoneExpression)) (p2 + 2)
              | r => r
        | r => r
      | some .FOR =>
        match check_tok (pos + 1) toks .LParen with
        | .error e => .err e
        | .ok _ =>
          match p_expression_statement sema toks f (pos + 2) with
          | .ok c1 p1 =>
            match p_expression_statement sema toks f p1 with
            | .ok c2 p2 =>
              match check_tok p2 toks .RParen with
              | .ok _ =>
                match p_statement sema toks f (p2 + 1) with
                | .ok s p3 =>
                  .ok (((((ParseNode.new (.IterationStatement .FOR)).pushChild c1).pushChild
                    c2).pushChild s).withType (TypeExpression.new_val .NoneExpression)) p3
                | r => r
              | .error _ =>
                match p_expression sema toks f p2 with
                | .ok c3 p3 =>
                  match check_tok p3 toks .RParen with
                  | .error e => .err e
                  | .ok _ =>
                    match p_statement sema toks f (p3 + 1) with
                    | .ok s p4 =>
                      .ok ((((((ParseNode.new (.IterationStatement .FOR)).pushChild
                        c1).pushChild c2).pushChild c3).pushChild s).withType
                        (TypeExpression.new_val .NoneExpression)) p4
                    | r => r
                | r => r
            | r => r
          | .err _ =>
            match p_declaration sema toks f (pos + 2) with
            | .ok c1 p1 =>
              match p_expression_statement sema toks f p1 with
              | .ok c2 p2 =>
                match check_tok p2 toks .RParen with
                | .ok _ =>
                  match p_statement sema toks f (p2 + 1) with
                  | .ok s p3 =>
                    .ok (((((ParseNode.new (.IterationStatement .FOR)).pushChild c1).pushChild
                      c2).pushChild s).withType (TypeExpression.new_val .NoneExpression)) p3
                  | r => r
                | .error _ =>
                  match p_expression sema toks f p2 with
                  | .ok c3 p3 =>
                    match check_tok p3 toks .RParen with
                    | .error e => .err e
                    | .ok _ =>
                      match p_statement sema toks f (p3 + 1) with
                      | .ok s p4 =>
                        .ok ((((((ParseNode.new (.IterationStatement .FOR)).pushChild
                          c1).pushChild c2).pushChild c3).pushChild s).withType
                          (TypeExpression.new_val .NoneExpression)) p4
                      | r => r
                  | r => r
              | r => r
            | .err _ => .err "Error parse For"
            | r => r
          | r => r
      | some t => .err (error_handler "while, do or for" t pos)
termination_by structural fuel

-- parser.rs p_jump_statement (the RETURN-with-expression form skips one
-- position without checking for the semicolon, as in the source)
def p_jump_statement (sema : Sema) (toks : List TokType) (fuel pos : Nat) : PRes :=
  match fuel with
  | 0 => .nofuel
  | f + 1 =>
    match check_pos pos toks.length with
    | .error e => .err e
    | .ok _ =>
      match toks[pos]? with
      | none => .fault
      | some .GOTO =>
        match check_pos (pos + 1) toks.length with
        | .error e => .err e
        | .ok _ =>
          match toks[pos + 1]? with
          | none => .fault
          | some (.IDENTIFIER var) =>
            match check_tok (pos + 2) toks .Semicolon with
            | .error e => .err e
            | .ok _ =>
              .ok ((ParseNode.new (.JumpStatement "goto" (some var))).withType
                (TypeExpression.new_val .NoneExpression)) (pos + 3)
          | some t => .err (error_handler "identifier for goto" t (pos + 1))
      | some .CONTINUE =>
        match check_tok (pos + 1) toks .Semicolon with
        | .error e => .err e
        | .ok _ =>
          .ok ((ParseNode.new (.JumpStatement "continue" none)).withType
            (TypeExpression.new_val .NoneExpression)) (pos + 2)
      | some .BREAK =>
        match check_tok (pos + 1) toks .Semicolon with
        | .error e => .err e
        | .ok _ =>
          .ok ((ParseNode.new (.JumpStatement "break" none)).withType
            (TypeExpression.new_val .NoneExpression)) (pos + 2)
      | some .RETURN =>
        match check_tok (pos + 1) toks .Semicolon with
        | .ok _ =>
          .ok ((ParseNode.new (.JumpStatement "return" none)).withType
            (TypeExpression.new_val .NoneExpression)) (pos + 2)
        | .error _ =>
          match p_expression sema toks f (pos + 1) with
          | .ok c p =>
            .ok (((ParseNode.new (.JumpStatement "return" none)).withType
              c.type_exp).pushChild c) (p + 1)
          | r => r
      | some t => .err (error_handler "goto, continue, break or return" t pos)

-- parser.rs p_external_declaration
def p_external_declaration (sema : Sema) (toks : List TokType) (fuel pos : Nat) : PRes :=
  match fuel with
  | 0 => .nofuel
  | f + 1 =>
    match check_pos pos toks.length with
    | .error e => .err e
    | .ok _ =>
      match p_function_definition sema toks f pos with
      | .ok c p => .ok (((ParseNode.new .ExternalDeclaration).withType c.type_exp).pushChild c) p
      | .err _ =>
        match p_declaration sema toks f pos with
        | .ok c p => .ok (((ParseNode.new .ExternalDeclaration).withType c.type_exp).pushChild c) p
        | r => r
      | r => r

-- parser.rs p_function_definition
def p_function_definition (sema : Sema) (toks : List TokType) (fuel pos : Nat) : PRes :=
  match fuel with
  | 0 => .nofuel
  | f + 1 =>
    match check_pos pos toks.length with
    | .error e => .err e
    | .ok _ =>
      match p_declaration_specifiers sema toks f pos with
      | .ok c1 p1 =>
        match p_declarator sema toks f p1 with
        | .ok c2 p2 =>
          match p_declaration_list sema toks f p2 with
          | .ok c3 p3 =>
            match p_compound_statement sema toks f p3 with
            | .ok c4 p4 =>
              .ok (((((((((ParseNode.new .FunctionDefinition).withType
                (TypeExpression.new_val .Function)).pushTypeChild c1.type_exp).pushChild
                c1).pushTypeChild c2.type_exp).pushChild c2).pushTypeChild
                c3.type_exp).pushChild c3).pushTypeChild c4.type_exp |>.pushChild c4) p4
            | r => r
          | .err _ =>
            match p_compound_statement sema toks f p2 with
            | .ok c4 p4 =>
              .ok (((((((ParseNode.new .FunctionDefinition).withType
                (TypeExpression.new_val .Function)).pushTypeChild c1.type_exp).pushChild
                c1).pushTypeChild c2.type_exp).pushChild c2).pushTypeChild
                c4.type_exp |>.pushChild c4) p4
            | r => r
          | r => r
        | r => r
      | r => r

-- parser.rs p_declaration_list
def p_declaration_list (sema : Sema) (toks : List TokType) (fuel pos : Nat) : PRes :=
  match fuel with
  | 0 => .nofuel
  | f + 1 =>
    match check_pos pos toks.length with
    | .error e => .err e
    | .ok _ =>
      match p_declaration sema toks f pos with
      | .ok c p =>
        declaration_list_loop sema toks f
          (((ParseNode.new .DeclarationList).pushTypeChild c.type_exp).pushChild c) 0 c.type_exp p
      | r => r

-- parser.rs p_declaration_list, repetition loop
def declaration_list_loop (sema : Sema) (toks : List TokType) (fuel : Nat)
    (cur : ParseNode) (inc : Nat) (pre : TypeExpression) (pos : Nat) : PRes :=
  match fuel with
  | 0 => .nofuel
  | f + 1 =>
    match p_declaration sema toks f pos with
    | .ok c tmp =>
      declaration_list_loop sema toks f
        ((cur.pushTypeChild c.type_exp).pushChild c) (inc + 1) pre tmp
    | .err _ => .ok (finalize_inc cur inc pre) pos
    | r => r
termination_by structural fuel

-- parser.rs p_translation_unit
def p_translation_unit (sema : Sema) (toks : List TokType) (fuel pos : Nat) : PRes :=
  match fuel with
  | 0 => .nofuel
  | f + 1 =>
    match check_pos pos toks.length with
    | .error e => .err e
    | .ok _ => translation_unit_loop sema toks f (ParseNode.new .TranslationUnit) pos

-- parser.rs p_translation_unit, exhaustion loop
def translation_unit_loop (sema : Sema) (toks : List TokType) (fuel : Nat)
    (cur : ParseNode) (pos : Nat) : PRes :=
  match fuel with
  | 0 => .nofuel
  | f + 1 =>
    if pos ≥ toks.length then .ok cur pos
    else
      match p_external_declaration sema toks f pos with
      | .ok c p =>
        translation_unit_loop sema toks f ((cur.pushTypeChild c.type_exp).pushChild c) p
      | r => r

termination_by structural fuel
end

/-- Result of the driver entry point (`Result<ParseNode, String>`). -/
inductive DRes where
  | ok (tree : ParseNode)
  | err (msg : String)
  | fault
  | nofuel

-- parser.rs parser_driver
def parser_driver (sema : Sema) (toks : List TokType) (fuel : Nat) (c_src_name : String) : DRes :=
  match p_translation_unit sema toks fuel 0 with
  | .ok cur_node pos =>
    if pos = toks.length then .ok cur_node
    else .err ("Parser drive fails to parse the file " ++ c_src_name)
  | .err e => .err e
  | .fault => .fault
  | .nofuel => .nofuel


-- ----------------------------------------------------------------
-- Structural predicates on parse trees
-- ----------------------------------------------------------------

/-- Every BinaryExpression node along a tree is typed exactly by the oracle
combination of its two children's types and its operator. -/
def leftSpineOk (sema : Sema) : ParseNode → Prop
  | .mk (.BinaryExpression op) c te =>
      match c with
      | [l, r] => sema.judge_combine_type l.type_exp r.type_exp op = (true, te) ∧ leftSpineOk sema l
      | _ => True
  | _ => True

/-- No BinaryExpression node has a BinaryExpression as its right child: the
binary spine only ever grows to the left. -/
def leftAssoc : ParseNode → Prop
  | .mk (.BinaryExpression _) c _ =>
      match c with
      | [l, r] => (∀ op, r.entry ≠ .BinaryExpression op) ∧ leftAssoc l
      | _ => True
  | _ => True

/-- The node is not a BinaryExpression. -/
def nonBinEntry (n : ParseNode) : Prop := ∀ op, n.entry ≠ .BinaryExpression op

theorem leftSpineOk_nonbin (sema : Sema) (n : ParseNode)
    (h : ∀ op, n.entry ≠ .BinaryExpression op) : leftSpineOk sema n := by
  match n with
  | .mk e c te =>
    cases e
    case BinaryExpression op => exact absurd rfl (h op)
    all_goals simp [leftSpineOk]

theorem leftAssoc_nonbin (n : ParseNode)
    (h : ∀ op, n.entry ≠ .BinaryExpression op) : leftAssoc n := by
  match n with
  | .mk e c te =>
    cases e
    case BinaryExpression op => exact absurd rfl (h op)
    all_goals simp [leftAssoc]

theorem nonBinEntry_of_entry {n : ParseNode} {k : NodeType} (h : n.entry = k)
    (hk : ∀ op, k ≠ NodeType.BinaryExpression op) : nonBinEntry n :=
  fun op hne => hk op (h ▸ hne)

/-- A successful cast-expression parse always returns a CastExpression node. -/
theorem p_cast_expression_entry {sema : Sema} {toks : List TokType} {fuel pos : Nat}
    {n : ParseNode} {p : Nat} (h : p_cast_expression sema toks fuel pos = .ok n p) :
    n.entry = .CastExpression := by
  cases fuel with
  | zero => simp [p_cast_expression] at h
  | succ f =>
    unfold p_cast_expression at h
    repeat' split at h
    all_goals first
      | (injection h with h1 h2; subst h1; simp)
      | cases h
      | simp_all

-- ----------------------------------------------------------------
-- Per-level cascade lemmas
-- ----------------------------------------------------------------

/-- Invariant of the `multiplicative` fold loop: a successful fold returns the
level's wrapper node whose single child has an oracle-justified,
left-associative binary spine. -/
theorem multiplicative_fold_spine :
    ∀ (fuel : Nat) (sema : Sema) (toks : List TokType) (child : ParseNode)
      (l_type : TypeExpression) (pos : Nat) (tok : TokType) (n : ParseNode) (p : Nat),
    multiplicative_fold sema toks fuel child l_type pos tok = .ok n p →
    l_type = child.type_exp →
    leftSpineOk sema child →
    leftAssoc child →
    n.entry = .MultiplicativeExpression ∧
      ∃ c, n.child = [c] ∧ leftSpineOk sema c ∧ leftAssoc c := by
  intro fuel
  induction fuel with
  | zero =>
    intro sema toks child l_type pos tok n p h _ _ _
    simp [multiplicative_fold] at h
  | succ f ih =>
    intro sema toks child l_type pos tok n p h hl hs ha
    unfold multiplicative_fold at h
    split at h
    · cases hcast : p_cast_expression sema toks f (pos + 1) with
      | ok next p2 =>
        rw [hcast] at h
        simp only at h
        cases hj : sema.judge_combine_type l_type next.type_exp tok with
        | mk b ct =>
          rw [hj] at h
          cases b with
          | true =>
            simp only at h
            cases htk : toks[p2]? with
            | none => rw [htk] at h; cases h
            | some tok2 =>
              rw [htk] at h
              simp only at h
              refine ih sema toks _ ct p2 tok2 n p h (by simp) ?_ ?_
              · show leftSpineOk sema (.mk (.BinaryExpression tok) [child, next] ct)
                simp only [leftSpineOk]
                refine ⟨?_, hs⟩
                rw [← hl]
                exact hj
              · show leftAssoc (.mk (.BinaryExpression tok) [child, next] ct)
                simp only [leftAssoc]
                refine ⟨?_, ha⟩
                intro op hne
                have hent := p_cast_expression_entry hcast
                rw [hent] at hne
                cases hne
          | false => simp only at h; cases h
      | err m => rw [hcast] at h; cases h
      | fault => rw [hcast] at h; cases h
      | nofuel => rw [hcast] at h; cases h
    · injection h with h1 h2
      subst h1
      exact ⟨by simp, child, by simp, hs, ha⟩

/-- A successful `multiplicative` parse returns the level's wrapper node whose
single child has an oracle-justified, left-associative binary spine. -/
theorem p_multiplicative_spine {sema : Sema} {toks : List TokType} {fuel pos : Nat}
    {n : ParseNode} {p : Nat}
    (h : p_multiplicative_expression sema toks fuel pos = .ok n p) :
    n.entry = .MultiplicativeExpression ∧
      ∃ c, n.child = [c] ∧ leftSpineOk sema c ∧ leftAssoc c := by
  cases fuel with
  | zero => simp [p_multiplicative_expression] at h
  | succ f =>
    unfold p_multiplicative_expression at h
    cases hcp : check_pos pos toks.length with
    | error e => rw [hcp] at h; cases h
    | ok u =>
      rw [hcp] at h
      simp only at h
      cases hcast : p_cast_expression sema toks f pos with
      | ok c p1 =>
        rw [hcast] at h
        simp only at h
        have hnb : nonBinEntry c :=
          nonBinEntry_of_entry (p_cast_expression_entry hcast) (fun op hne => by cases hne)
        cases htk : toks[p1]? with
        | none => rw [htk] at h; cases h
        | some tok =>
          rw [htk] at h
          simp only at h
          by_cases hop : tok = .Mod ∨ tok = .Multi ∨ tok = .Splash
          · rw [if_pos hop] at h
            exact multiplicative_fold_spine f sema toks c c.type_exp p1 tok n p h rfl
              (leftSpineOk_nonbin sema c hnb) (leftAssoc_nonbin c hnb)
          · rw [if_neg hop] at h
            injection h with h1 h2
            subst h1
            exact ⟨by simp, c, by simp, leftSpineOk_nonbin sema c hnb, leftAssoc_nonbin c hnb⟩
      | err m => rw [hcast] at h; cases h
      | fault => rw [hcast] at h; cases h
      | nofuel => rw [hcast] at h; cases h

/-- An oracle rejection inside the `multiplicative` fold aborts the parse with
an error immediately. -/
theorem multiplicative_fold_reject {sema : Sema} {toks : List TokType} {fuel : Nat}
    {child : ParseNode} {l_type : TypeExpression} {pos : Nat} {tok : TokType}
    {next : ParseNode} {p2 : Nat} {bt : TypeExpression}
    (htok : tok = .Mod ∨ tok = .Multi ∨ tok = .Splash)
    (hcast : p_cast_expression sema toks fuel (pos + 1) = .ok next p2)
    (hj : sema.judge_combine_type l_type next.type_exp tok = (false, bt)) :
    multiplicative_fold sema toks (fuel + 1) child l_type pos tok =
      .err "can not use these types in a binary combination" := by
  unfold multiplicative_fold
  rw [if_pos htok, hcast]
  simp only
  rw [hj]

/-- When the token after the single operand is not one of this level's
operators, the `multiplicative` cascade returns the operand's type unchanged
(identity propagation, no oracle call). -/
theorem p_multiplicative_expression_identity {sema : Sema} {toks : List TokType} {fuel pos : Nat}
    {c : ParseNode} {p1 : Nat} {t : TokType}
    (hpos : pos < toks.length)
    (hsub : p_cast_expression sema toks fuel pos = .ok c p1)
    (htok : toks[p1]? = some t)
    (hop : ¬(t = .Mod ∨ t = .Multi ∨ t = .Splash)) :
    p_multiplicative_expression sema toks (fuel + 1) pos =
      .ok (((ParseNode.new .MultiplicativeExpression).withType c.type_exp).pushChild c) p1 := by
  unfold p_multiplicative_expression
  have hcp : check_pos pos toks.length = .ok () := by
    unfold check_pos
    rw [if_neg (Nat.not_le.mpr hpos)]
  rw [hcp]
  simp only
  rw [hsub]
  simp only
  rw [htok]
  simp only
  rw [if_neg hop]


/-- Invariant of the `additive` fold loop: a successful fold returns the
level's wrapper node whose single child has an oracle-justified,
left-associative binary spine. -/
theorem additive_fold_spine :
    ∀ (fuel : Nat) (sema : Sema) (toks : List TokType) (child : ParseNode)
      (l_type : TypeExpression) (pos : Nat) (tok : TokType) (n : ParseNode) (p : Nat),
    additive_fold sema toks fuel child l_type pos tok = .ok n p →
    l_type = child.type_exp →
    leftSpineOk sema child →
    leftAssoc child →
    n.entry = .AdditiveExpression ∧
      ∃ c, n.child = [c] ∧ leftSpineOk sema c ∧ leftAssoc c := by
  intro fuel
  induction fuel with
  | zero =>
    intro sema toks child l_type pos tok n p h _ _ _
    simp [additive_fold] at h
  | succ f ih =>
    intro sema toks child l_type pos tok n p h hl hs ha
    unfold additive_fold at h
    split at h
    · cases hcast : p_multiplicative_expression sema toks f (pos + 1) with
      | ok next p2 =>
        rw [hcast] at h
        simp only at h
        cases hj : sema.judge_combine_type l_type next.type_exp tok with
        | mk b ct =>
          rw [hj] at h
          cases b with
          | true =>
            simp only at h
            cases htk : toks[p2]? with
            | none => rw [htk] at h; cases h
            | some tok2 =>
              rw [htk] at h
              simp only at h
              refine ih sema toks _ ct p2 tok2 n p h (by simp) ?_ ?_
              · show leftSpineOk sema (.mk (.BinaryExpression tok) [child, next] ct)
                simp only [leftSpineOk]
                refine ⟨?_, hs⟩
                rw [← hl]
                exact hj
              · show leftAssoc (.mk (.BinaryExpression tok) [child, next] ct)
                simp only [leftAssoc]
                refine ⟨?_, ha⟩
                intro op hne
                have hent := (p_multiplicative_spine hcast).1
                rw [hent] at hne
                cases hne
          | false => simp only at h; cases h
      | err m => rw [hcast] at h; cases h
      | fault => rw [hcast] at h; cases h
      | nofuel => rw [hcast] at h; cases h
    · injection h with h1 h2
      subst h1
      exact ⟨by simp, child, by simp, hs, ha⟩

/-- A successful `additive` parse returns the level's wrapper node whose
single child has an oracle-justified, left-associative binary spine. -/
theorem p_additive_spine {sema : Sema} {toks : List TokType} {fuel pos : Nat}
    {n : ParseNode} {p : Nat}
    (h : p_additive_expression sema toks fuel pos = .ok n p) :
    n.entry = .AdditiveExpression ∧
      ∃ c, n.child = [c] ∧ leftSpineOk sema c ∧ leftAssoc c := by
  cases fuel with
  | zero => simp [p_additive_expression] at h
  | succ f =>
    unfold p_additive_expression at h
    cases hcp : check_pos pos toks.length with
    | error e => rw [hcp] at h; cases h
    | ok u =>
      rw [hcp] at h
      simp only at h
      cases hcast : p_multiplicative_expression sema toks f pos with
      | ok c p1 =>
        rw [hcast] at h
        simp only at h
        have hnb : nonBinEntry c :=
          nonBinEntry_of_entry ((p_multiplicative_spine hcast).1) (fun op hne => by cases hne)
        cases htk : toks[p1]? with
        | none => rw [htk] at h; cases h
        | some tok =>
          rw [htk] at h
          simp only at h
          by_cases hop : tok = .Plus ∨ tok = .Minus
          · rw [if_pos hop] at h
            exact additive_fold_spine f sema toks c c.type_exp p1 tok n p h rfl
              (leftSpineOk_nonbin sema c hnb) (leftAssoc_nonbin c hnb)
          · rw [if_neg hop] at h
            injection h with h1 h2
            subst h1
            exact ⟨by simp, c, by simp, leftSpineOk_nonbin sema c hnb, leftAssoc_nonbin c hnb⟩
      | err m => rw [hcast] at h; cases h
      | fault => rw [hcast] at h; cases h
      | nofuel => rw [hcast] at h; cases h

/-- An oracle rejection inside the `additive` fold aborts the parse with
an error immediately. -/
theorem additive_fold_reject {sema : Sema} {toks : List TokType} {fuel : Nat}
    {child : ParseNode} {l_type : TypeExpression} {pos : Nat} {tok : TokType}
    {next : ParseNode} {p2 : Nat} {bt : TypeExpression}
    (htok : tok = .Plus ∨ tok = .Minus)
    (hcast : p_multiplicative_expression sema toks fuel (pos + 1) = .ok next p2)
    (hj : sema.judge_combine_type l_type next.type_exp tok = (false, bt)) :
    additive_fold sema toks (fuel + 1) child l_type pos tok =
      .err "can not use these types in a binary combination" := by
  unfold additive_fold
  rw [if_pos htok, hcast]
  simp only
  rw [hj]

/-- When the token after the single operand is not one of this level's
operators, the `additive` cascade returns the operand's type unchanged
(identity propagation, no oracle call). -/
theorem p_additive_expression_identity {sema : Sema} {toks : List TokType} {fuel pos : Nat}
    {c : ParseNode} {p1 : Nat} {t : TokType}
    (hpos : pos < toks.length)
    (hsub : p_multiplicative_expression sema toks fuel pos = .ok c p1)
    (htok : toks[p1]? = some t)
    (hop : ¬(t = .Plus ∨ t = .Minus)) :
    p_additive_expression sema toks (fuel + 1) pos =
      .ok (((ParseNode.new .AdditiveExpression).withType c.type_exp).pushChild c) p1 := by
  unfold p_additive_expression
  have hcp : check_pos pos toks.length = .ok () := by
    unfold check_pos
    rw [if_neg (Nat.not_le.mpr hpos)]
  rw [hcp]
  simp only
  rw [hsub]
  simp only
  rw [htok]
  simp only
  rw [if_neg hop]


/-- Invariant of the `shift` fold loop: a successful fold returns the
level's wrapper node whose single child has an oracle-justified,
left-associative binary spine. -/
theorem shift_fold_spine :
    ∀ (fuel : Nat) (sema : Sema) (toks : List TokType) (child : ParseNode)
      (l_type : TypeExpression) (pos : Nat) (tok : TokType) (n : ParseNode) (p : Nat),
    shift_fold sema toks fuel child l_type pos tok = .ok n p →
    l_type = child.type_exp →
    leftSpineOk sema child →
    leftAssoc child →
    n.entry = .ShiftExpression ∧
      ∃ c, n.child = [c] ∧ leftSpineOk sema c ∧ leftAssoc c := by
  intro fuel
  induction fuel with
  | zero =>
    intro sema toks child l_type pos tok n p h _ _ _
    simp [shift_fold] at h
  | succ f ih =>
    intro sema toks child l_type pos tok n p h hl hs ha
    unfold shift_fold at h
    split at h
    · cases hcast : p_additive_expression sema toks f (pos + 1) with
      | ok next p2 =>
        rw [hcast] at h
        simp only at h
        cases hj : sema.judge_combine_type l_type next.type_exp tok with
        | mk b ct =>
          rw [hj] at h
          cases b with
          | true =>
            simp only at h
            cases htk : toks[p2]? with
            | none => rw [htk] at h; cases h
            | some tok2 =>
              rw [htk] at h
              simp only at h
              refine ih sema toks _ ct p2 tok2 n p h (by simp) ?_ ?_
              · show leftSpineOk sema (.mk (.BinaryExpression tok) [child, next] ct)
                simp only [leftSpineOk]
                refine ⟨?_, hs⟩
                rw [← hl]
                exact hj
              · show leftAssoc (.mk (.BinaryExpression tok) [child, next] ct)
                simp only [leftAssoc]
                refine ⟨?_, ha⟩
                intro op hne
                have hent := (p_additive_spine hcast).1
                rw [hent] at hne
                cases hne
          | false => simp only at h; cases h
      | err m => rw [hcast] at h; cases h
      | fault => rw [hcast] at h; cases h
      | nofuel => rw [hcast] at h; cases h
    · injection h with h1 h2
      subst h1
      exact ⟨by simp, child, by simp, hs, ha⟩

/-- A successful `shift` parse returns the level's wrapper node whose
single child has an oracle-justified, left-associative binary spine. -/
theorem p_shift_spine {sema : Sema} {toks : List TokType} {fuel pos : Nat}
    {n : ParseNode} {p : Nat}
    (h : p_shift_expression sema toks fuel pos = .ok n p) :
    n.entry = .ShiftExpression ∧
      ∃ c, n.child = [c] ∧ leftSpineOk sema c ∧ leftAssoc c := by
  cases fuel with
  | zero => simp [p_shift_expression] at h
  | succ f =>
    unfold p_shift_expression at h
    cases hcp : check_pos pos toks.length with
    | error e => rw [hcp] at h; cases h
    | ok u =>
      rw [hcp] at h
      simp only at h
      cases hcast : p_additive_expression sema toks f pos with
      | ok c p1 =>
        rw [hcast] at h
        simp only at h
        have hnb : nonBinEntry c :=
          nonBinEntry_of_entry ((p_additive_spine hcast).1) (fun op hne => by cases hne)
        cases htk : toks[p1]? with
        | none => rw [htk] at h; cases h
        | some tok =>
          rw [htk] at h
          simp only at h
          by_cases hop : tok = .LeftOp ∨ tok = .RightOp
          · rw [if_pos hop] at h
            exact shift_fold_spine f sema toks c c.type_exp p1 tok n p h rfl
              (leftSpineOk_nonbin sema c hnb) (leftAssoc_nonbin c hnb)
          · rw [if_neg hop] at h
            injection h with h1 h2
            subst h1
            exact ⟨by simp, c, by simp, leftSpineOk_nonbin sema c hnb, leftAssoc_nonbin c hnb⟩
      | err m => rw [hcast] at h; cases h
      | fault => rw [hcast] at h; cases h
      | nofuel => rw [hcast] at h; cases h

/-- An oracle rejection inside the `shift` fold aborts the parse with
an error immediately. -/
theorem shift_fold_reject {sema : Sema} {toks : List TokType} {fuel : Nat}
    {child : ParseNode} {l_type : TypeExpression} {pos : Nat} {tok : TokType}
    {next : ParseNode} {p2 : Nat} {bt : TypeExpression}
    (htok : tok = .LeftOp ∨ tok = .RightOp)
    (hcast : p_additive_expression sema toks fuel (pos + 1) = .ok next p2)
    (hj : sema.judge_combine_type l_type next.type_exp tok = (false, bt)) :
    shift_fold sema toks (fuel + 1) child l_type pos tok =
      .err "can not use these types in a binary combination" := by
  unfold shift_fold
  rw [if_pos htok, hcast]
  simp only
  rw [hj]

/-- When the token after the single operand is not one of this level's
operators, the `shift` cascade returns the operand's type unchanged
(identity propagation, no oracle call). -/
theorem p_shift_expression_identity {sema : Sema} {toks : List TokType} {fuel pos : Nat}
    {c : ParseNode} {p1 : Nat} {t : TokType}
    (hpos : pos < toks.length)
    (hsub : p_additive_expression sema toks fuel pos = .ok c p1)
    (htok : toks[p1]? = some t)
    (hop : ¬(t = .LeftOp ∨ t = .RightOp)) :
    p_shift_expression sema toks (fuel + 1) pos =
      .ok (((ParseNode.new .ShiftExpression).withType c.type_exp).pushChild c) p1 := by
  unfold p_shift_expression
  have hcp : check_pos pos toks.length = .ok () := by
    unfold check_pos
    rw [if_neg (Nat.not_le.mpr hpos)]
  rw [hcp]
  simp only
  rw [hsub]
  simp only
  rw [htok]
  simp only
  rw [if_neg hop]


/-- Invariant of the `relational` fold loop: a successful fold returns the
level's wrapper node whose single child has an oracle-justified,
left-associative binary spine. -/
theorem relational_fold_spine :
    ∀ (fuel : Nat) (sema : Sema) (toks : List TokType) (child : ParseNode)
      (l_type : TypeExpression) (pos : Nat) (tok : TokType) (n : ParseNode) (p : Nat),
    relational_fold sema toks fuel child l_type pos tok = .ok n p →
    l_type = child.type_exp →
    leftSpineOk sema child →
    leftAssoc child →
    n.entry = .RelationalExpression ∧
      ∃ c, n.child = [c] ∧ leftSpineOk sema c ∧ leftAssoc c := by
  intro fuel
  induction fuel with
  | zero =>
    intro sema toks child l_type pos tok n p h _ _ _
    simp [relational_fold] at h
  | succ f ih =>
    intro sema toks child l_type pos tok n p h hl hs ha
    unfold relational_fold at h
    split at h
    · cases hcast : p_shift_expression sema toks f (pos + 1) with
      | ok next p2 =>
        rw [hcast] at h
        simp only at h
        cases hj : sema.judge_combine_type l_type next.type_exp tok with
        | mk b ct =>
          rw [hj] at h
          cases b with
          | true =>
            simp only at h
            cases htk : toks[p2]? with
            | none => rw [htk] at h; cases h
            | some tok2 =>
              rw [htk] at h
              simp only at h
              refine ih sema toks _ ct p2 tok2 n p h (by simp) ?_ ?_
              · show leftSpineOk sema (.mk (.BinaryExpression tok) [child, next] ct)
                simp only [leftSpineOk]
                refine ⟨?_, hs⟩
                rw [← hl]
                exact hj
              · show leftAssoc (.mk (.BinaryExpression tok) [child, next] ct)
                simp only [leftAssoc]
                refine ⟨?_, ha⟩
                intro op hne
                have hent := (p_shift_spine hcast).1
                rw [hent] at hne
                cases hne
          | false => simp only at h; cases h
      | err m => rw [hcast] at h; cases h
      | fault => rw [hcast] at h; cases h
      | nofuel => rw [hcast] at h; cases h
    · injection h with h1 h2
      subst h1
      exact ⟨by simp, child, by simp, hs, ha⟩

/-- A successful `relational` parse returns the level's wrapper node whose
single child has an oracle-justified, left-associative binary spine. -/
theorem p_relational_spine {sema : Sema} {toks : List TokType} {fuel pos : Nat}
    {n : ParseNode} {p : Nat}
    (h : p_relational_expression sema toks fuel pos = .ok n p) :
    n.entry = .RelationalExpression ∧
      ∃ c, n.child = [c] ∧ leftSpineOk sema c ∧ leftAssoc c := by
  cases fuel with
  | zero => simp [p_relational_expression] at h
  | succ f =>
    unfold p_relational_expression at h
    cases hcp : check_pos pos toks.length with
    | error e => rw [hcp] at h; cases h
    | ok u =>
      rw [hcp] at h
      simp only at h
      cases hcast : p_shift_expression sema toks f pos with
      | ok c p1 =>
        rw [hcast] at h
        simp only at h
        have hnb : nonBinEntry c :=
          nonBinEntry_of_entry ((p_shift_spine hcast).1) (fun op hne => by cases hne)
        cases htk : toks[p1]? with
        | none => rw [htk] at h; cases h
        | some tok =>
          rw [htk] at h
          simp only at h
          by_cases hop : tok = .LeOp ∨ tok = .GeOp ∨ tok = .Lt ∨ tok = .Gt
          · rw [if_pos hop] at h
            exact relational_fold_spine f sema toks c c.type_exp p1 tok n p h rfl
              (leftSpineOk_nonbin sema c hnb) (leftAssoc_nonbin c hnb)
          · rw [if_neg hop] at h
            injection h with h1 h2
            subst h1
            exact ⟨by simp, c, by simp, leftSpineOk_nonbin sema c hnb, leftAssoc_nonbin c hnb⟩
      | err m => rw [hcast] at h; cases h
      | fault => rw [hcast] at h; cases h
      | nofuel => rw [hcast] at h; cases h

/-- An oracle rejection inside the `relational` fold aborts the parse with
an error immediately. -/
theorem relational_fold_reject {sema : Sema} {toks : List TokType} {fuel : Nat}
    {child : ParseNode} {l_type : TypeExpression} {pos : Nat} {tok : TokType}
    {next : ParseNode} {p2 : Nat} {bt : TypeExpression}
    (htok : tok = .LeOp ∨ tok = .GeOp ∨ tok = .Lt ∨ tok = .Gt)
    (hcast : p_shift_expression sema toks fuel (pos + 1) = .ok next p2)
    (hj : sema.judge_combine_type l_type next.type_exp tok = (false, bt)) :
    relational_fold sema toks (fuel + 1) child l_type pos tok =
      .err "can not use these types in a binary combination" := by
  unfold relational_fold
  rw [if_pos htok, hcast]
  simp only
  rw [hj]

/-- When the token after the single operand is not one of this level's
operators, the `relational` cascade returns the operand's type unchanged
(identity propagation, no oracle call). -/
theorem p_relational_expression_identity {sema : Sema} {toks : List TokType} {fuel pos : Nat}
    {c : ParseNode} {p1 : Nat} {t : TokType}
    (hpos : pos < toks.length)
    (hsub : p_shift_expression sema toks fuel pos = .ok c p1)
    (htok : toks[p1]? = some t)
    (hop : ¬(t = .LeOp ∨ t = .GeOp ∨ t = .Lt ∨ t = .Gt)) :
    p_relational_expression sema toks (fuel + 1) pos =
      .ok (((ParseNode.new .RelationalExpression).withType c.type_exp).pushChild c) p1 := by
  unfold p_relational_expression
  have hcp : check_pos pos toks.length = .ok () := by
    unfold check_pos
    rw [if_neg (Nat.not_le.mpr hpos)]
  rw [hcp]
  simp only
  rw [hsub]
  simp only
  rw [htok]
  simp only
  rw [if_neg hop]


/-- Invariant of the `equality` fold loop: a successful fold returns the
level's wrapper node whose single child has an oracle-justified,
left-associative binary spine. -/
theorem equality_fold_spine :
    ∀ (fuel : Nat) (sema : Sema) (toks : List TokType) (child : ParseNode)
      (l_type : TypeExpression) (pos : Nat) (tok : TokType) (n : ParseNode) (p : Nat),
    equality_fold sema toks fuel child l_type pos tok = .ok n p →
    l_type = child.type_exp →
    leftSpineOk sema child →
    leftAssoc child →
    n.entry = .EqualityExpression ∧
      ∃ c, n.child = [c] ∧ leftSpineOk sema c ∧ leftAssoc c := by
  intro fuel
  induction fuel with
  | zero =>
    intro sema toks child l_type pos tok n p h _ _ _
    simp [equality_fold] at h
  | succ f ih =>
    intro sema toks child l_type pos tok n p h hl hs ha
    unfold equality_fold at h
    split at h
    · cases hcast : p_relational_expression sema toks f (pos + 1) with
      | ok next p2 =>
        rw [hcast] at h
        simp only at h
        cases hj : sema.judge_combine_type l_type next.type_exp tok with
        | mk b ct =>
          rw [hj] at h
          cases b with
          | true =>
            simp only at h
            cases htk : toks[p2]? with
            | none => rw [htk] at h; cases h
            | some tok2 =>
              rw [htk] at h
              simp only at h
              refine ih sema toks _ ct p2 tok2 n p h (by simp) ?_ ?_
              · show leftSpineOk sema (.mk (.BinaryExpression tok) [child, next] ct)
                simp only [leftSpineOk]
                refine ⟨?_, hs⟩
                rw [← hl]
                exact hj
              · show leftAssoc (.mk (.BinaryExpression tok) [child, next] ct)
                simp only [leftAssoc]
                refine ⟨?_, ha⟩
                intro op hne
                have hent := (p_relational_spine hcast).1
                rw [hent] at hne
                cases hne
          | false => simp only at h; cases h
      | err m => rw [hcast] at h; cases h
      | fault => rw [hcast] at h; cases h
      | nofuel => rw [hcast] at h; cases h
    · injection h with h1 h2
      subst h1
      exact ⟨by simp, child, by simp, hs, ha⟩

/-- A successful `equality` parse returns the level's wrapper node whose
single child has an oracle-justified, left-associative binary spine. -/
theorem p_equality_spine {sema : Sema} {toks : List TokType} {fuel pos : Nat}
    {n : ParseNode} {p : Nat}
    (h : p_equality_expression sema toks fuel pos = .ok n p) :
    n.entry = .EqualityExpression ∧
      ∃ c, n.child = [c] ∧ leftSpineOk sema c ∧ leftAssoc c := by
  cases fuel with
  | zero => simp [p_equality_expression] at h
  | succ f =>
    unfold p_equality_expression at h
    cases hcp : check_pos pos toks.length with
    | error e => rw [hcp] at h; cases h
    | ok u =>
      rw [hcp] at h
      simp only at h
      cases hcast : p_relational_expression sema toks f pos with
      | ok c p1 =>
        rw [hcast] at h
        simp only at h
        have hnb : nonBinEntry c :=
          nonBinEntry_of_entry ((p_relational_spine hcast).1) (fun op hne => by cases hne)
        cases htk : toks[p1]? with
        | none => rw [htk] at h; cases h
        | some tok =>
          rw [htk] at h
          simp only at h
          by_cases hop : tok = .EqOp ∨ tok = .NeOp
          · rw [if_pos hop] at h
            exact equality_fold_spine f sema toks c c.type_exp p1 tok n p h rfl
              (leftSpineOk_nonbin sema c hnb) (leftAssoc_nonbin c hnb)
          · rw [if_neg hop] at h
            injection h with h1 h2
            subst h1
            exact ⟨by simp, c, by simp, leftSpineOk_nonbin sema c hnb, leftAssoc_nonbin c hnb⟩
      | err m => rw [hcast] at h; cases h
      | fault => rw [hcast] at h; cases h
      | nofuel => rw [hcast] at h; cases h

/-- An oracle rejection inside the `equality` fold aborts the parse with
an error immediately. -/
theorem equality_fold_reject {sema : Sema} {toks : List TokType} {fuel : Nat}
    {child : ParseNode} {l_type : TypeExpression} {pos : Nat} {tok : TokType}
    {next : ParseNode} {p2 : Nat} {bt : TypeExpression}
    (htok : tok = .EqOp ∨ tok = .NeOp)
    (hcast : p_relational_expression sema toks fuel (pos + 1) = .ok next p2)
    (hj : sema.judge_combine_type l_type next.type_exp tok = (false, bt)) :
    equality_fold sema toks (fuel + 1) child l_type pos tok =
      .err "can not use these types in a binary combination" := by
  unfold equality_fold
  rw [if_pos htok, hcast]
  simp only
  rw [hj]

/-- When the token after the single operand is not one of this level's
operators, the `equality` cascade returns the operand's type unchanged
(identity propagation, no oracle call). -/
theorem p_equality_expression_identity {sema : Sema} {toks : List TokType} {fuel pos : Nat}
    {c : ParseNode} {p1 : Nat} {t : TokType}
    (hpos : pos < toks.length)
    (hsub : p_relational_expression sema toks fuel pos = .ok c p1)
    (htok : toks[p1]? = some t)
    (hop : ¬(t = .EqOp ∨ t = .NeOp)) :
    p_equality_expression sema toks (fuel + 1) pos =
      .ok (((ParseNode.new .EqualityExpression).withType c.type_exp).pushChild c) p1 := by
  unfold p_equality_expression
  have hcp : check_pos pos toks.length = .ok () := by
    unfold check_pos
    rw [if_neg (Nat.not_le.mpr hpos)]
  rw [hcp]
  simp only
  rw [hsub]
  simp only
  rw [htok]
  simp only
  rw [if_neg hop]


/-- Invariant of the `and` fold loop: a successful fold returns the
level's wrapper node whose single child has an oracle-justified,
left-associative binary spine. -/
theorem and_fold_spine :
    ∀ (fuel : Nat) (sema : Sema) (toks : List TokType) (child : ParseNode)
      (l_type : TypeExpression) (pos : Nat) (tok : TokType) (n : ParseNode) (p : Nat),
    and_fold sema toks fuel child l_type pos tok = .ok n p →
    l_type = child.type_exp →
    leftSpineOk sema child →
    leftAssoc child →
    n.entry = .AndExpression ∧
      ∃ c, n.child = [c] ∧ leftSpineOk sema c ∧ leftAssoc c := by
  intro fuel
  induction fuel with
  | zero =>
    intro sema toks child l_type pos tok n p h _ _ _
    simp [and_fold] at h
  | succ f ih =>
    intro sema toks child l_type pos tok n p h hl hs ha
    unfold and_fold at h
    split at h
    · cases hcast : p_equality_expression sema toks f (pos + 1) with
      | ok next p2 =>
        rw [hcast] at h
        simp only at h
        cases hj : sema.judge_combine_type l_type next.type_exp tok with
        | mk b ct =>
          rw [hj] at h
          cases b with
          | true =>
            simp only at h
            cases htk : toks[p2]? with
            | none => rw [htk] at h; cases h
            | some tok2 =>
              rw [htk] at h
              simp only at h
              refine ih sema toks _ ct p2 tok2 n p h (by simp) ?_ ?_
              · show leftSpineOk sema (.mk (.BinaryExpression tok) [child, next] ct)
                simp only [leftSpineOk]
                refine ⟨?_, hs⟩
                rw [← hl]
                exact hj
              · show leftAssoc (.mk (.BinaryExpression tok) [child, next] ct)
                simp only [leftAssoc]
                refine ⟨?_, ha⟩
                intro op hne
                have hent := (p_equality_spine hcast).1
                rw [hent] at hne
                cases hne
          | false => simp only at h; cases h
      | err m => rw [hcast] at h; cases h
      | fault => rw [hcast] at h; cases h
      | nofuel => rw [hcast] at h; cases h
    · injection h with h1 h2
      subst h1
      exact ⟨by simp, child, by simp, hs, ha⟩

/-- A successful `and` parse returns the level's wrapper node whose
single child has an oracle-justified, left-associative binary spine. -/
theorem p_and_spine {sema : Sema} {toks : List TokType} {fuel pos : Nat}
    {n : ParseNode} {p : Nat}
    (h : p_and_expression sema toks fuel pos = .ok n p) :
    n.entry = .AndExpression ∧
      ∃ c, n.child = [c] ∧ leftSpineOk sema c ∧ leftAssoc c := by
  cases fuel with
  | zero => simp [p_and_expression] at h
  | succ f =>
    unfold p_and_expression at h
    cases hcp : check_pos pos toks.length with
    | error e => rw [hcp] at h; cases h
    | ok u =>
      rw [hcp] at h
      simp only at h
      cases hcast : p_equality_expression sema toks f pos with
      | ok c p1 =>
        rw [hcast] at h
        simp only at h
        have hnb : nonBinEntry c :=
          nonBinEntry_of_entry ((p_equality_spine hcast).1) (fun op hne => by cases hne)
        cases htk : toks[p1]? with
        | none => rw [htk] at h; cases h
        | some tok =>
          rw [htk] at h
          simp only at h
          by_cases hop : tok = .SingleAnd
          · rw [if_pos hop] at h
            exact and_fold_spine f sema toks c c.type_exp p1 tok n p h rfl
              (leftSpineOk_nonbin sema c hnb) (leftAssoc_nonbin c hnb)
          · rw [if_neg hop] at h
            injection h with h1 h2
            subst h1
            exact ⟨by simp, c, by simp, leftSpineOk_nonbin sema c hnb, leftAssoc_nonbin c hnb⟩
      | err m => rw [hcast] at h; cases h
      | fault => rw [hcast] at h; cases h
      | nofuel => rw [hcast] at h; cases h

/-- An oracle rejection inside the `and` fold aborts the parse with
an error immediately. -/
theorem and_fold_reject {sema : Sema} {toks : List TokType} {fuel : Nat}
    {child : ParseNode} {l_type : TypeExpression} {pos : Nat} {tok : TokType}
    {next : ParseNode} {p2 : Nat} {bt : TypeExpression}
    (htok : tok = .SingleAnd)
    (hcast : p_equality_expression sema toks fuel (pos + 1) = .ok next p2)
    (hj : sema.judge_combine_type l_type next.type_exp tok = (false, bt)) :
    and_fold sema toks (fuel + 1) child l_type pos tok =
      .err "can not use these types in a binary combination" := by
  unfold and_fold
  rw [if_pos htok, hcast]
  simp only
  rw [hj]

/-- When the token after the single operand is not one of this level's
operators, the `and` cascade returns the operand's type unchanged
(identity propagation, no oracle call). -/
theorem p_and_expression_identity {sema : Sema} {toks : List TokType} {fuel pos : Nat}
    {c : ParseNode} {p1 : Nat} {t : TokType}
    (hpos : pos < toks.length)
    (hsub : p_equality_expression sema toks fuel pos = .ok c p1)
    (htok : toks[p1]? = some t)
    (hop : ¬(t = .SingleAnd)) :
    p_and_expression sema toks (fuel + 1) pos =
      .ok (((ParseNode.new .AndExpression).withType c.type_exp).pushChild c) p1 := by
  unfold p_and_expression
  have hcp : check_pos pos toks.length = .ok () := by
    unfold check_pos
    rw [if_neg (Nat.not_le.mpr hpos)]
  rw [hcp]
  simp only
  rw [hsub]
  simp only
  rw [htok]
  simp only
  rw [if_neg hop]


/-- Invariant of the `exclusive_or` fold loop: a successful fold returns the
level's wrapper node whose single child has an oracle-justified,
left-associative binary spine. -/
theorem exclusive_or_fold_spine :
    ∀ (fuel : Nat) (sema : Sema) (toks : List TokType) (child : ParseNode)
      (l_type : TypeExpression) (pos : Nat) (tok : TokType) (n : ParseNode) (p : Nat),
    exclusive_or_fold sema toks fuel child l_type pos tok = .ok n p →
    l_type = child.type_exp →
    leftSpineOk sema child →
    leftAssoc child →
    n.entry = .ExclusiveOrExpression ∧
      ∃ c, n.child = [c] ∧ leftSpineOk sema c ∧ leftAssoc c := by
  intro fuel
  induction fuel with
  | zero =>
    intro sema toks child l_type pos tok n p h _ _ _
    simp [exclusive_or_fold] at h
  | succ f ih =>
    intro sema toks child l_type pos tok n p h hl hs ha
    unfold exclusive_or_fold at h
    split at h
    · cases hcast : p_and_expression sema toks f (pos + 1) with
      | ok next p2 =>
        rw [hcast] at h
        simp only at h
        cases hj : sema.judge_combine_type l_type next.type_exp tok with
        | mk b ct =>
          rw [hj] at h
          cases b with
          | true =>
            simp only at h
            cases htk : toks[p2]? with
            | none => rw [htk] at h; cases h
            | some tok2 =>
              rw [htk] at h
              simp only at h
              refine ih sema toks _ ct p2 tok2 n p h (by simp) ?_ ?_
              · show leftSpineOk sema (.mk (.BinaryExpression tok) [child, next] ct)
                simp only [leftSpineOk]
                refine ⟨?_, hs⟩
                rw [← hl]
                exact hj
              · show leftAssoc (.mk (.BinaryExpression tok) [child, next] ct)
                simp only [leftAssoc]
                refine ⟨?_, ha⟩
                intro op hne
                have hent := (p_and_spine hcast).1
                rw [hent] at hne
                cases hne
          | false => simp only at h; cases h
      | err m => rw [hcast] at h; cases h
      | fault => rw [hcast] at h; cases h
      | nofuel => rw [hcast] at h; cases h
    · injection h with h1 h2
      subst h1
      exact ⟨by simp, child, by simp, hs, ha⟩

/-- A successful `exclusive_or` parse returns the level's wrapper node whose
single child has an oracle-justified, left-associative binary spine. -/
theorem p_exclusive_or_spine {sema : Sema} {toks : List TokType} {fuel pos : Nat}
    {n : ParseNode} {p : Nat}
    (h : p_exclusive_or_expression sema toks fuel pos = .ok n p) :
    n.entry = .ExclusiveOrExpression ∧
      ∃ c, n.child = [c] ∧ leftSpineOk sema c ∧ leftAssoc c := by
  cases fuel with
  | zero => simp [p_exclusive_or_expression] at h
  | succ f =>
    unfold p_exclusive_or_expression at h
    cases hcp : check_pos pos toks.length with
    | error e => rw [hcp] at h; cases h
    | ok u =>
      rw [hcp] at h
      simp only at h
      cases hcast : p_and_expression sema toks f pos with
      | ok c p1 =>
        rw [hcast] at h
        simp only at h
        have hnb : nonBinEntry c :=
          nonBinEntry_of_entry ((p_and_spine hcast).1) (fun op hne => by cases hne)
        cases htk : toks[p1]? with
        | none => rw [htk] at h; cases h
        | some tok =>
          rw [htk] at h
          simp only at h
          by_cases hop : tok = .ExclusiveOr
          · rw [if_pos hop] at h
            exact exclusive_or_fold_spine f sema toks c c.type_exp p1 tok n p h rfl
              (leftSpineOk_nonbin sema c hnb) (leftAssoc_nonbin c hnb)
          · rw [if_neg hop] at h
            injection h with h1 h2
            subst h1
            exact ⟨by simp, c, by simp, leftSpineOk_nonbin sema c hnb, leftAssoc_nonbin c hnb⟩
      | err m => rw [hcast] at h; cases h
      | fault => rw [hcast] at h; cases h
      | nofuel => rw [hcast] at h; cases h

/-- An oracle rejection inside the `exclusive_or` fold aborts the parse with
an error immediately. -/
theorem exclusive_or_fold_reject {sema : Sema} {toks : List TokType} {fuel : Nat}
    {child : ParseNode} {l_type : TypeExpression} {pos : Nat} {tok : TokType}
    {next : ParseNode} {p2 : Nat} {bt : TypeExpression}
    (htok : tok = .ExclusiveOr)
    (hcast : p_and_expression sema toks fuel (pos + 1) = .ok next p2)
    (hj : sema.judge_combine_type l_type next.type_exp tok = (false, bt)) :
    exclusive_or_fold sema toks (fuel + 1) child l_type pos tok =
      .err "can not use these types in a binary combination" := by
  unfold exclusive_or_fold
  rw [if_pos htok, hcast]
  simp only
  rw [hj]

/-- When the token after the single operand is not one of this level's
operators, the `exclusive_or` cascade returns the operand's type unchanged
(identity propagation, no oracle call). -/
theorem p_exclusive_or_expression_identity {sema : Sema} {toks : List TokType} {fuel pos : Nat}
    {c : ParseNode} {p1 : Nat} {t : TokType}
    (hpos : pos < toks.length)
    (hsub : p_and_expression sema toks fuel pos = .ok c p1)
    (htok : toks[p1]? = some t)
    (hop : ¬(t = .ExclusiveOr)) :
    p_exclusive_or_expression sema toks (fuel + 1) pos =
      .ok (((ParseNode.new .ExclusiveOrExpression).withType c.type_exp).pushChild c) p1 := by
  unfold p_exclusive_or_expression
  have hcp : check_pos pos toks.length = .ok () := by
    unfold check_pos
    rw [if_neg (Nat.not_le.mpr hpos)]
  rw [hcp]
  simp only
  rw [hsub]
  simp only
  rw [htok]
  simp only
  rw [if_neg hop]


/-- Invariant of the `inclusive_or` fold loop: a successful fold returns the
level's wrapper node whose single child has an oracle-justified,
left-associative binary spine. -/
theorem inclusive_or_fold_spine :
    ∀ (fuel : Nat) (sema : Sema) (toks : List TokType) (child : ParseNode)
      (l_type : TypeExpression) (pos : Nat) (tok : TokType) (n : ParseNode) (p : Nat),
    inclusive_or_fold sema toks fuel child l_type pos tok = .ok n p →
    l_type = child.type_exp →
    leftSpineOk sema child →
    leftAssoc child →
    n.entry = .InclusiveOrExpression ∧
      ∃ c, n.child = [c] ∧ leftSpineOk sema c ∧ leftAssoc c := by
  intro fuel
  induction fuel with
  | zero =>
    intro sema toks child l_type pos tok n p h _ _ _
    simp [inclusive_or_fold] at h
  | succ f ih =>
    intro sema toks child l_type pos tok n p h hl hs ha
    unfold inclusive_or_fold at h
    split at h
    · cases hcast : p_exclusive_or_expression sema toks f (pos + 1) with
      | ok next p2 =>
        rw [hcast] at h
        simp only at h
        cases hj : sema.judge_combine_type l_type next.type_exp tok with
        | mk b ct =>
          rw [hj] at h
          cases b with
          | true =>
            simp only at h
            cases htk : toks[p2]? with
            | none => rw [htk] at h; cases h
            | some tok2 =>
              rw [htk] at h
              simp only at h
              refine ih sema toks _ ct p2 tok2 n p h (by simp) ?_ ?_
              · show leftSpineOk sema (.mk (.BinaryExpression tok) [child, next] ct)
                simp only [leftSpineOk]
                refine ⟨?_, hs⟩
                rw [← hl]
                exact hj
              · show leftAssoc (.mk (.BinaryExpression tok) [child, next] ct)
                simp only [leftAssoc]
                refine ⟨?_, ha⟩
                intro op hne
                have hent := (p_exclusive_or_spine hcast).1
                rw [hent] at hne
                cases hne
          | false => simp only at h; cases h
      | err m => rw [hcast] at h; cases h
      | fault => rw [hcast] at h; cases h
      | nofuel => rw [hcast] at h; cases h
    · injection h with h1 h2
      subst h1
      exact ⟨by simp, child, by simp, hs, ha⟩

/-- A successful `inclusive_or` parse returns the level's wrapper node whose
single child has an oracle-justified, left-associative binary spine. -/
theorem p_inclusive_or_spine {sema : Sema} {toks : List TokType} {fuel pos : Nat}
    {n : ParseNode} {p : Nat}
    (h : p_inclusive_or_expression sema toks fuel pos = .ok n p) :
    n.entry = .InclusiveOrExpression ∧
      ∃ c, n.child = [c] ∧ leftSpineOk sema c ∧ leftAssoc c := by
  cases fuel with
  | zero => simp [p_inclusive_or_expression] at h
  | succ f =>
    unfold p_inclusive_or_expression at h
    cases hcp : check_pos pos toks.length with
    | error e => rw [hcp] at h; cases h
    | ok u =>
      rw [hcp] at h
      simp only at h
      cases hcast : p_exclusive_or_expression sema toks f pos with
      | ok c p1 =>
        rw [hcast] at h
        simp only at h
        have hnb : nonBinEntry c :=
          nonBinEntry_of_entry ((p_exclusive_or_spine hcast).1) (fun op hne => by cases hne)
        cases htk : toks[p1]? with
        | none => rw [htk] at h; cases h
        | some tok =>
          rw [htk] at h
          simp only at h
          by_cases hop : tok = .InclusiveOr
          · rw [if_pos hop] at h
            exact inclusive_or_fold_spine f sema toks c c.type_exp p1 tok n p h rfl
              (leftSpineOk_nonbin sema c hnb) (leftAssoc_nonbin c hnb)
          · rw [if_neg hop] at h
            injection h with h1 h2
            subst h1
            exact ⟨by simp, c, by simp, leftSpineOk_nonbin sema c hnb, leftAssoc_nonbin c hnb⟩
      | err m => rw [hcast] at h; cases h
      | fault => rw [hcast] at h; cases h
      | nofuel => rw [hcast] at h; cases h

/-- An oracle rejection inside the `inclusive_or` fold aborts the parse with
an error immediately. -/
theorem inclusive_or_fold_reject {sema : Sema} {toks : List TokType} {fuel : Nat}
    {child : ParseNode} {l_type : TypeExpression} {pos : Nat} {tok : TokType}
    {next : ParseNode} {p2 : Nat} {bt : TypeExpression}
    (htok : tok = .InclusiveOr)
    (hcast : p_exclusive_or_expression sema toks fuel (pos + 1) = .ok next p2)
    (hj : sema.judge_combine_type l_type next.type_exp tok = (false, bt)) :
    inclusive_or_fold sema toks (fuel + 1) child l_type pos tok =
      .err "can not use these types in a binary combination" := by
  unfold inclusive_or_fold
  rw [if_pos htok, hcast]
  simp only
  rw [hj]

/-- When the token after the single operand is not one of this level's
operators, the `inclusive_or` cascade returns the operand's type unchanged
(identity propagation, no oracle call). -/
theorem p_inclusive_or_expression_identity {sema : Sema} {toks : List TokType} {fuel pos : Nat}
    {c : ParseNode} {p1 : Nat} {t : TokType}
    (hpos : pos < toks.length)
    (hsub : p_exclusive_or_expression sema toks fuel pos = .ok c p1)
    (htok : toks[p1]? = some t)
    (hop : ¬(t = .InclusiveOr)) :
    p_inclusive_or_expression sema toks (fuel + 1) pos =
      .ok (((ParseNode.new .InclusiveOrExpression).withType c.type_exp).pushChild c) p1 := by
  unfold p_inclusive_or_expression
  have hcp : check_pos pos toks.length = .ok () := by
    unfold check_pos
    rw [if_neg (Nat.not_le.mpr hpos)]
  rw [hcp]
  simp only
  rw [hsub]
  simp only
  rw [htok]
  simp only
  rw [if_neg hop]


/-- Invariant of the `logical_and` fold loop: a successful fold returns the
level's wrapper node whose single child has an oracle-justified,
left-associative binary spine. -/
theorem logical_and_fold_spine :
    ∀ (fuel : Nat) (sema : Sema) (toks : List TokType) (child : ParseNode)
      (l_type : TypeExpression) (pos : Nat) (tok : TokType) (n : ParseNode) (p : Nat),
    logical_and_fold sema toks fuel child l_type pos tok = .ok n p →
    l_type = child.type_exp →
    leftSpineOk sema child →
    leftAssoc child →
    n.entry = .LogicalAndExpression ∧
      ∃ c, n.child = [c] ∧ leftSpineOk sema c ∧ leftAssoc c := by
  intro fuel
  induction fuel with
  | zero =>
    intro sema toks child l_type pos tok n p h _ _ _
    simp [logical_and_fold] at h
  | succ f ih =>
    intro sema toks child l_type pos tok n p h hl hs ha
    unfold logical_and_fold at h
    split at h
    · cases hcast : p_inclusive_or_expression sema toks f (pos + 1) with
      | ok next p2 =>
        rw [hcast] at h
        simp only at h
        cases hj : sema.judge_combine_type l_type next.type_exp tok with
        | mk b ct =>
          rw [hj] at h
          cases b with
          | true =>
            simp only at h
            cases htk : toks[p2]? with
            | none => rw [htk] at h; cases h
            | some tok2 =>
              rw [htk] at h
              simp only at h
              refine ih sema toks _ ct p2 tok2 n p h (by simp) ?_ ?_
              · show leftSpineOk sema (.mk (.BinaryExpression tok) [child, next] ct)
                simp only [leftSpineOk]
                refine ⟨?_, hs⟩
                rw [← hl]
                exact hj
              · show leftAssoc (.mk (.BinaryExpression tok) [child, next] ct)
                simp only [leftAssoc]
                refine ⟨?_, ha⟩
                intro op hne
                have hent := (p_inclusive_or_spine hcast).1
                rw [hent] at hne
                cases hne
          | false => simp only at h; cases h
      | err m => rw [hcast] at h; cases h
      | fault => rw [hcast] at h; cases h
      | nofuel => rw [hcast] at h; cases h
    · injection h with h1 h2
      subst h1
      exact ⟨by simp, child, by simp, hs, ha⟩

/-- A successful `logical_and` parse returns the level's wrapper node whose
single child has an oracle-justified, left-associative binary spine. -/
theorem p_logical_and_spine {sema : Sema} {toks : List TokType} {fuel pos : Nat}
    {n : ParseNode} {p : Nat}
    (h : p_logical_and_expression sema toks fuel pos = .ok n p) :
    n.entry = .LogicalAndExpression ∧
      ∃ c, n.child = [c] ∧ leftSpineOk sema c ∧ leftAssoc c := by
  cases fuel with
  | zero => simp [p_logical_and_expression] at h
  | succ f =>
    unfold p_logical_and_expression at h
    cases hcp : check_pos pos toks.length with
    | error e => rw [hcp] at h; cases h
    | ok u =>
      rw [hcp] at h
      simp only at h
      cases hcast : p_inclusive_or_expression sema toks f pos with
      | ok c p1 =>
        rw [hcast] at h
        simp only at h
        have hnb : nonBinEntry c :=
          nonBinEntry_of_entry ((p_inclusive_or_spine hcast).1) (fun op hne => by cases hne)
        cases htk : toks[p1]? with
        | none => rw [htk] at h; cases h
        | some tok =>
          rw [htk] at h
          simp only at h
          by_cases hop : tok = .AndOp
          · rw [if_pos hop] at h
            exact logical_and_fold_spine f sema toks c c.type_exp p1 tok n p h rfl
              (leftSpineOk_nonbin sema c hnb) (leftAssoc_nonbin c hnb)
          · rw [if_neg hop] at h
            injection h with h1 h2
            subst h1
            exact ⟨by simp, c, by simp, leftSpineOk_nonbin sema c hnb, leftAssoc_nonbin c hnb⟩
      | err m => rw [hcast] at h; cases h
      | fault => rw [hcast] at h; cases h
      | nofuel => rw [hcast] at h; cases h

/-- An oracle rejection inside the `logical_and` fold aborts the parse with
an error immediately. -/
theorem logical_and_fold_reject {sema : Sema} {toks : List TokType} {fuel : Nat}
    {child : ParseNode} {l_type : TypeExpression} {pos : Nat} {tok : TokType}
    {next : ParseNode} {p2 : Nat} {bt : TypeExpression}
    (htok : tok = .AndOp)
    (hcast : p_inclusive_or_expression sema toks fuel (pos + 1) = .ok next p2)
    (hj : sema.judge_combine_type l_type next.type_exp tok = (false, bt)) :
    logical_and_fold sema toks (fuel + 1) child l_type pos tok =
      .err "can not use these types in a binary combination" := by
  unfold logical_and_fold
  rw [if_pos htok, hcast]
  simp only
  rw [hj]

/-- When the token after the single operand is not one of this level's
operators, the `logical_and` cascade returns the operand's type unchanged
(identity propagation, no oracle call). -/
theorem p_logical_and_expression_identity {sema : Sema} {toks : List TokType} {fuel pos : Nat}
    {c : ParseNode} {p1 : Nat} {t : TokType}
    (hpos : pos < toks.length)
    (hsub : p_inclusive_or_expression sema toks fuel pos = .ok c p1)
    (htok : toks[p1]? = some t)
    (hop : ¬(t = .AndOp)) :
    p_logical_and_expression sema toks (fuel + 1) pos =
      .ok (((ParseNode.new .LogicalAndExpression).withType c.type_exp).pushChild c) p1 := by
  unfold p_logical_and_expression
  have hcp : check_pos pos toks.length = .ok () := by
    unfold check_pos
    rw [if_neg (Nat.not_le.mpr hpos)]
  rw [hcp]
  simp only
  rw [hsub]
  simp only
  rw [htok]
  simp only
  rw [if_neg hop]


/-- Invariant of the `logical_or` fold loop: a successful fold returns the
level's wrapper node whose single child has an oracle-justified,
left-associative binary spine. -/
theorem logical_or_fold_spine :
    ∀ (fuel : Nat) (sema : Sema) (toks : List TokType) (child : ParseNode)
      (l_type : TypeExpression) (pos : Nat) (tok : TokType) (n : ParseNode) (p : Nat),
    logical_or_fold sema toks fuel child l_type pos tok = .ok n p →
    l_type = child.type_exp →
    leftSpineOk sema child →
    leftAssoc child →
    n.entry = .LogicalOrExpression ∧
      ∃ c, n.child = [c] ∧ leftSpineOk sema c ∧ leftAssoc c := by
  intro fuel
  induction fuel with
  | zero =>
    intro sema toks child l_type pos tok n p h _ _ _
    simp [logical_or_fold] at h
  | succ f ih =>
    intro sema toks child l_type pos tok n p h hl hs ha
    unfold logical_or_fold at h
    split at h
    · cases hcast : p_logical_and_expression sema toks f (pos + 1) with
      | ok next p2 =>
        rw [hcast] at h
        simp only at h
        cases hj : sema.judge_combine_type l_type next.type_exp tok with
        | mk b ct =>
          rw [hj] at h
          cases b with
          | true =>
            simp only at h
            cases htk : toks[p2]? with
            | none => rw [htk] at h; cases h
            | some tok2 =>
              rw [htk] at h
              simp only at h
              refine ih sema toks _ ct p2 tok2 n p h (by simp) ?_ ?_
              · show leftSpineOk sema (.mk (.BinaryExpression tok) [child, next] ct)
                simp only [leftSpineOk]
                refine ⟨?_, hs⟩
                rw [← hl]
                exact hj
              · show leftAssoc (.mk (.BinaryExpression tok) [child, next] ct)
                simp only [leftAssoc]
                refine ⟨?_, ha⟩
                intro op hne
                have hent := (p_logical_and_spine hcast).1
                rw [hent] at hne
                cases hne
          | false => simp only at h; cases h
      | err m => rw [hcast] at h; cases h
      | fault => rw [hcast] at h; cases h
      | nofuel => rw [hcast] at h; cases h
    · injection h with h1 h2
      subst h1
      exact ⟨by simp, child, by simp, hs, ha⟩

/-- A successful `logical_or` parse returns the level's wrapper node whose
single child has an oracle-justified, left-associative binary spine. -/
theorem p_logical_or_spine {sema : Sema} {toks : List TokType} {fuel pos : Nat}
    {n : ParseNode} {p : Nat}
    (h : p_logical_or_expression sema toks fuel pos = .ok n p) :
    n.entry = .LogicalOrExpression ∧
      ∃ c, n.child = [c] ∧ leftSpineOk sema c ∧ leftAssoc c := by
  cases fuel with
  | zero => simp [p_logical_or_expression] at h
  | succ f =>
    unfold p_logical_or_expression at h
    cases hcp : check_pos pos toks.length with
    | error e => rw [hcp] at h; cases h
    | ok u =>
      rw [hcp] at h
      simp only at h
      cases hcast : p_logical_and_expression sema toks f pos with
      | ok c p1 =>
        rw [hcast] at h
        simp only at h
        have hnb : nonBinEntry c :=
          nonBinEntry_of_entry ((p_logical_and_spine hcast).1) (fun op hne => by cases hne)
        cases htk : toks[p1]? with
        | none => rw [htk] at h; cases h
        | some tok =>
          rw [htk] at h
          simp only at h
          by_cases hop : tok = .OrOp
          · rw [if_pos hop] at h
            exact logical_or_fold_spine f sema toks c c.type_exp p1 tok n p h rfl
              (leftSpineOk_nonbin sema c hnb) (leftAssoc_nonbin c hnb)
          · rw [if_neg hop] at h
            injection h with h1 h2
            subst h1
            exact ⟨by simp, c, by simp, leftSpineOk_nonbin sema c hnb, leftAssoc_nonbin c hnb⟩
      | err m => rw [hcast] at h; cases h
      | fault => rw [hcast] at h; cases h
      | nofuel => rw [hcast] at h; cases h

/-- An oracle rejection inside the `logical_or` fold aborts the parse with
an error immediately. -/
theorem logical_or_fold_reject {sema : Sema} {toks : List TokType} {fuel : Nat}
    {child : ParseNode} {l_type : TypeExpression} {pos : Nat} {tok : TokType}
    {next : ParseNode} {p2 : Nat} {bt : TypeExpression}
    (htok : tok = .OrOp)
    (hcast : p_logical_and_expression sema toks fuel (pos + 1) = .ok next p2)
    (hj : sema.judge_combine_type l_type next.type_exp tok = (false, bt)) :
    logical_or_fold sema toks (fuel + 1) child l_type pos tok =
      .err "can not use these types in a binary combination" := by
  unfold logical_or_fold
  rw [if_pos htok, hcast]
  simp only
  rw [hj]

/-- When the token after the single operand is not one of this level's
operators, the `logical_or` cascade returns the operand's type unchanged
(identity propagation, no oracle call). -/
theorem p_logical_or_expression_identity {sema : Sema} {toks : List TokType} {fuel pos : Nat}
    {c : ParseNode} {p1 : Nat} {t : TokType}
    (hpos : pos < toks.length)
    (hsub : p_logical_and_expression sema toks fuel pos = .ok c p1)
    (htok : toks[p1]? = some t)
    (hop : ¬(t = .OrOp)) :
    p_logical_or_expression sema toks (fuel + 1) pos =
      .ok (((ParseNode.new .LogicalOrExpression).withType c.type_exp).pushChild c) p1 := by
  unfold p_logical_or_expression
  have hcp : check_pos pos toks.length = .ok () := by
    unfold check_pos
    rw [if_neg (Nat.not_le.mpr hpos)]
  rw [hcp]
  simp only
  rw [hsub]
  simp only
  rw [htok]
  simp only
  rw [if_neg hop]

-- ----------------------------------------------------------------
-- Constants, sizeof, the conditional expression, and the driver
-- ----------------------------------------------------------------

/-- An IConstant token always parses to a constant node typed Long. -/
theorem p_constant_long {toks : List TokType} {pos : Nat} {i : Int}
    (h : toks[pos]? = some (.IConstant i)) :
    p_constant toks pos =
      .ok ((ParseNode.new (.Constant (.I64 i))).withType (TypeExpression.new_val .Long)) (pos + 1) := by
  have hlt : pos < toks.length := by
    rcases List.getElem?_eq_some_iff.mp h with ⟨hl, _⟩
    exact hl
  unfold p_constant
  have hcp : check_pos pos toks.length = .ok () := by
    unfold check_pos
    rw [if_neg (Nat.not_le.mpr hlt)]
  rw [hcp]
  simp only
  rw [h]

/-- A successful unary expression starting at a SIZEOF or ALIGNOF token is
typed SizeT, whatever the operand. -/
theorem p_unary_sizeof_type {sema : Sema} {toks : List TokType} {fuel pos : Nat}
    {n : ParseNode} {p : Nat}
    (htok : toks[pos]? = some .SIZEOF ∨ toks[pos]? = some .ALIGNOF)
    (h : p_unary_expression sema toks fuel pos = .ok n p) :
    n.type_exp = TypeExpression.new_val .SizeT := by
  cases fuel with
  | zero => simp [p_unary_expression] at h
  | succ f =>
    unfold p_unary_expression at h
    rcases htok with htok | htok <;>
    · cases hcp : check_pos pos toks.length with
      | error e => rw [hcp] at h; cases h
      | ok u =>
        rw [hcp] at h
        simp only at h
        rw [htok] at h
        simp only at h
        repeat' split at h
        all_goals first
          | cases h
          | (injection h with h1 h2; subst h1; simp)
          | simp_all
        all_goals simp

/-- A successful ternary parse checked the condition type against the six
scalar candidates, checked both branches type-equal, and typed the node with
the false branch's type. -/
theorem p_conditional_ternary {sema : Sema} {toks : List TokType} {fuel pos : Nat}
    {n : ParseNode} {p : Nat} {c t fc : ParseNode}
    (h : p_conditional_expression sema toks fuel pos = .ok n p)
    (hch : n.child = [c, t, fc]) :
    (sema.judge_type_same c.type_exp (TypeExpression.new_val .Int) ||
     sema.judge_type_same c.type_exp (TypeExpression.new_val .Bool) ||
     sema.judge_type_same c.type_exp (TypeExpression.new_val .Long) ||
     sema.judge_type_same c.type_exp (TypeExpression.new_val .Signed) ||
     sema.judge_type_same c.type_exp (TypeExpression.new_val .Unsigned) ||
     sema.judge_type_same c.type_exp (TypeExpression.new_val .Char)) = true ∧
    sema.judge_type_same t.type_exp fc.type_exp = true ∧
    n.type_exp = fc.type_exp := by
  cases fuel with
  | zero => simp [p_conditional_expression] at h
  | succ f =>
    unfold p_conditional_expression at h
    repeat' split at h
    all_goals try cases h
    all_goals try (injection h with h1 h2; subst h1)
    all_goals try (simp at hch; done)
    all_goals try
      (simp at hch
       obtain ⟨rfl, rfl, rfl⟩ := hch
       refine ⟨by assumption, ?_, by simp⟩
       simp_all
       done)
    all_goals simp_all

/-- A driver success means the translation-unit loop stopped exactly at the
end of the token stream. -/
theorem parser_driver_full_consumption {sema : Sema} {toks : List TokType} {fuel : Nat}
    {name : String} {tree : ParseNode}
    (h : parser_driver sema toks fuel name = .ok tree) :
    p_translation_unit sema toks fuel 0 = .ok tree toks.length := by
  unfold parser_driver at h
  cases htu : p_translation_unit sema toks fuel 0 with
  | ok node pos =>
    rw [htu] at h
    simp only at h
    by_cases hp : pos = toks.length
    · rw [if_pos hp] at h
      injection h with h1
      subst h1
      rw [hp]
    · rw [if_neg hp] at h
      cases h
  | err e => rw [htu] at h; cases h
  | fault => rw [htu] at h; cases h
  | nofuel => rw [htu] at h; cases h

-- ----------------------------------------------------------------
-- Concrete inputs and trees used by the claim instances
-- ----------------------------------------------------------------

/-- The Long scalar type. -/
def longTE : TypeExpression := TypeExpression.new_val .Long

/-- Tree of a single integer-constant operand at cast level. -/
def castOperand (v : Int) : ParseNode :=
  .mk .CastExpression
    [.mk (.UnaryExpression none)
      [.mk .PostfixExpression
        [.mk .PrimaryExpression
          [.mk (.Constant (.I64 v)) [] longTE] longTE] longTE] longTE] longTE

/-- The cast operand wrapped at the multiplicative level. -/
def mulOperand (v : Int) : ParseNode := .mk .MultiplicativeExpression [castOperand v] longTE

/-- The operand wrapped at the additive level. -/
def addOperand (v : Int) : ParseNode := .mk .AdditiveExpression [mulOperand v] longTE

/-- The operand wrapped at the shift level. -/
def shiftOperand (v : Int) : ParseNode := .mk .ShiftExpression [addOperand v] longTE

/-- The operand wrapped at the relational level. -/
def relOperand (v : Int) : ParseNode := .mk .RelationalExpression [shiftOperand v] longTE

/-- The operand wrapped at the equality level. -/
def eqOperand (v : Int) : ParseNode := .mk .EqualityExpression [relOperand v] longTE

/-- The operand wrapped at the bitwise-and level. -/
def andOperand (v : Int) : ParseNode := .mk .AndExpression [eqOperand v] longTE

/-- The operand wrapped at the exclusive-or level. -/
def xorOperand (v : Int) : ParseNode := .mk .ExclusiveOrExpression [andOperand v] longTE

/-- The operand wrapped at the inclusive-or level. -/
def iorOperand (v : Int) : ParseNode := .mk .InclusiveOrExpression [xorOperand v] longTE

/-- The operand wrapped at the logical-and level. -/
def landOperand (v : Int) : ParseNode := .mk .LogicalAndExpression [iorOperand v] longTE

/-- The left-associative shape (1 op1 2) op2 3 wrapped at one cascade level. -/
def leftTree (kind : NodeType) (sub : Int → ParseNode) (op1 op2 : TokType) : ParseNode :=
  .mk kind
    [.mk (.BinaryExpression op2)
      [.mk (.BinaryExpression op1) [sub 1, sub 2] longTE, sub 3] longTE] longTE

/-- Token stream 1 op1 2 op2 3 ; . -/
def triToks (op1 op2 : TokType) : List TokType :=
  [.IConstant 1, op1, .IConstant 2, op2, .IConstant 3, .Semicolon]

/-- Token stream of the declaration int x ; . -/
def c1toks : List TokType := [.INT, .IDENTIFIER "x", .Semicolon]

/-- The tree the driver yields on c1toks. -/
def c1tree : ParseNode :=
  match parser_driver specSema c1toks 60 "t.c" with
  | .ok t => t
  | _ => ParseNode.new .TranslationUnit

/-- Token stream of int x ; followed by a trailing garbage token. -/
def c1badtoks : List TokType := [.INT, .IDENTIFIER "x", .Semicolon, .RParen]

/-- Token stream 1 * 3.0 ; whose operand types the oracle refuses to combine. -/
def c2toks : List TokType := [.IConstant 1, .Multi, .FConstant 3, .Semicolon]

/-- Token stream 1 * 2 ; . -/
def c2toksOk : List TokType := [.IConstant 1, .Multi, .IConstant 2, .Semicolon]

/-- The multiplicative node parsed from c2toksOk. -/
def c2mulNode : ParseNode :=
  match p_multiplicative_expression specSema c2toksOk 30 0 with
  | .ok n _ => n
  | _ => ParseNode.new .MultiplicativeExpression

/-- The cast node parsed at the 3.0 of c2toks. -/
def c2next : ParseNode :=
  match p_cast_expression specSema c2toks 28 2 with
  | .ok n _ => n
  | _ => ParseNode.new .CastExpression

/-- Argument tokens of f(a, b,) after the opening parenthesis. -/
def c5toks : List TokType := [.IDENTIFIER "a", .Comma, .IDENTIFIER "b", .Comma, .RParen]

/-- The list node parsed from c5toks. -/
def c5node : ParseNode :=
  match p_argument_expression_list specSema c5toks 30 0 with
  | .ok n _ => n
  | _ => ParseNode.new .ArgumentExpressionList

/-- Token stream 1 ? 2 : 3 ; . -/
def c6toks : List TokType :=
  [.IConstant 1, .QuestionMark, .IConstant 2, .Colon, .IConstant 3, .Semicolon]

/-- Token stream 1 ? 2 : 3.0 ; with mismatched branch types. -/
def c6toksBad : List TokType :=
  [.IConstant 1, .QuestionMark, .IConstant 2, .Colon, .FConstant 3, .Semicolon]

/-- The conditional node parsed from c6toks. -/
def c6node : ParseNode :=
  match p_conditional_expression specSema c6toks 30 0 with
  | .ok n _ => n
  | _ => ParseNode.new .ConditionalExpression

/-- The condition child of c6node. -/
def c6cond : ParseNode :=
  match c6node.child with
  | x :: _ => x
  | _ => ParseNode.new .PrimaryExpression

/-- The true-branch child of c6node. -/
def c6thenNode : ParseNode :=
  match c6node.child with
  | _ :: x :: _ => x
  | _ => ParseNode.new .PrimaryExpression

/-- The false-branch child of c6node. -/
def c6elseNode : ParseNode :=
  match c6node.child with
  | _ :: _ :: x :: _ => x
  | _ => ParseNode.new .PrimaryExpression

/-- Token stream 7 ; . -/
def c8toks : List TokType := [.IConstant 7, .Semicolon]

/-- The cast node parsed from c8toks. -/
def c8cast : ParseNode :=
  match p_cast_expression specSema c8toks 29 0 with
  | .ok n _ => n
  | _ => ParseNode.new .CastExpression

/-- Token stream sizeof x ; . -/
def c9toks : List TokType := [.SIZEOF, .IDENTIFIER "x", .Semicolon]

/-- The unary node parsed from c9toks. -/
def c9node : ParseNode :=
  match p_unary_expression specSema c9toks 30 0 with
  | .ok n _ => n
  | _ => ParseNode.new (.UnaryExpression none)

-- ----------------------------------------------------------------
-- The claims
-- ----------------------------------------------------------------

/-- C1: (amended) the driver succeeds only when the translation-unit loop
consumed the whole token stream; on trailing garbage after a valid top-level
construct the parse fails, but with the inner parse error propagated out of the
translation-unit loop, not the driver's source-label failure. -/
theorem C1_driver_consumption_amended :
    (∀ (sema : Sema) (toks : List TokType) (fuel : Nat) (src : String) (tree : ParseNode),
      parser_driver sema toks fuel src = .ok tree →
      p_translation_unit sema toks fuel 0 = .ok tree toks.length) ∧
    parser_driver specSema c1badtoks 60 "t.c" = .err "Can not parse declaration" := by
  constructor
  · intro sema toks fuel src tree h
    exact parser_driver_full_consumption h
  · rfl

/-- Refutation of C1 as stated: on the trailing-garbage stream int x ; ) the
driver returns the propagated declaration error, which is not a failure
identifying the source label. -/
theorem C1_label_error_counterexample :
    parser_driver specSema c1badtoks 60 "t.c" = .err "Can not parse declaration" ∧
    "Can not parse declaration" ≠ "Parser drive fails to parse the file " ++ "t.c" :=
  ⟨rfl, by decide⟩

/-- Concrete instance of C1: parsing int x ; succeeds and consumed all three
tokens. -/
theorem C1_driver_consumption_amended_witness :
    p_translation_unit specSema c1toks 60 0 = .ok c1tree c1toks.length :=
  (C1_driver_consumption_amended).1 specSema c1toks 60 "t.c" c1tree (by rfl)

/-- C2: at every precedence cascade level a successful parse yields a wrapper
node whose binary spine is oracle-typed (each binary node carries exactly the
type returned by judge_combine_type on the accumulated left type, the new
right-operand type and the operator), and any oracle rejection inside a fold
aborts the whole parse with an error at once. -/
theorem C2_fold_oracle_typing :
    (∀ (sema : Sema) (toks : List TokType) (fuel pos : Nat) (n : ParseNode) (p : Nat),
      p_multiplicative_expression sema toks fuel pos = .ok n p →
      n.entry = .MultiplicativeExpression ∧ ∃ c, n.child = [c] ∧ leftSpineOk sema c) ∧
    (∀ (sema : Sema) (toks : List TokType) (fuel pos : Nat) (n : ParseNode) (p : Nat),
      p_additive_expression sema toks fuel pos = .ok n p →
      n.entry = .AdditiveExpression ∧ ∃ c, n.child = [c] ∧ leftSpineOk sema c) ∧
    (∀ (sema : Sema) (toks : List TokType) (fuel pos : Nat) (n : ParseNode) (p : Nat),
      p_shift_expression sema toks fuel pos = .ok n p →
      n.entry = .ShiftExpression ∧ ∃ c, n.child = [c] ∧ leftSpineOk sema c) ∧
    (∀ (sema : Sema) (toks : List TokType) (fuel pos : Nat) (n : ParseNode) (p : Nat),
      p_relational_expression sema toks fuel pos = .ok n p →
      n.entry = .RelationalExpression ∧ ∃ c, n.child = [c] ∧ leftSpineOk sema c) ∧
    (∀ (sema : Sema) (toks : List TokType) (fuel pos : Nat) (n : ParseNode) (p : Nat),
      p_equality_expression sema toks fuel pos = .ok n p →
      n.entry = .EqualityExpression ∧ ∃ c, n.child = [c] ∧ leftSpineOk sema c) ∧
    (∀ (sema : Sema) (toks : List TokType) (fuel pos : Nat) (n : ParseNode) (p : Nat),
      p_and_expression sema toks fuel pos = .ok n p →
      n.entry = .AndExpression ∧ ∃ c, n.child = [c] ∧ leftSpineOk sema c) ∧
    (∀ (sema : Sema) (toks : List TokType) (fuel pos : Nat) (n : ParseNode) (p : Nat),
      p_exclusive_or_expression sema toks fuel pos = .ok n p →
      n.entry = .ExclusiveOrExpression ∧ ∃ c, n.child = [c] ∧ leftSpineOk sema c) ∧
    (∀ (sema : Sema) (toks : List TokType) (fuel pos : Nat) (n : ParseNode) (p : Nat),
      p_inclusive_or_expression sema toks fuel pos = .ok n p →
      n.entry = .InclusiveOrExpression ∧ ∃ c, n.child = [c] ∧ leftSpineOk sema c) ∧
    (∀ (sema : Sema) (toks : List TokType) (fuel pos : Nat) (n : ParseNode) (p : Nat),
      p_logical_and_expression sema toks fuel pos = .ok n p →
      n.entry = .LogicalAndExpression ∧ ∃ c, n.child = [c] ∧ leftSpineOk sema c) ∧
    (∀ (sema : Sema) (toks : List TokType) (fuel pos : Nat) (n : ParseNode) (p : Nat),
      p_logical_or_expression sema toks fuel pos = .ok n p →
      n.entry = .LogicalOrExpression ∧ ∃ c, n.child = [c] ∧ leftSpineOk sema c) ∧
    (∀ (sema : Sema) (toks : List TokType) (fuel : Nat) (child : ParseNode)
       (l_type : TypeExpression) (pos : Nat) (tok : TokType) (next : ParseNode)
       (p2 : Nat) (bt : TypeExpression),
      (tok = .Mod ∨ tok = .Multi ∨ tok = .Splash) →
      p_cast_expression sema toks fuel (pos + 1) = .ok next p2 →
      sema.judge_combine_type l_type next.type_exp tok = (false, bt) →
      multiplicative_fold sema toks (fuel + 1) child l_type pos tok =
        .err "can not use these types in a binary combination") ∧
    (∀ (sema : Sema) (toks : List TokType) (fuel : Nat) (child : ParseNode)
       (l_type : TypeExpression) (pos : Nat) (tok : TokType) (next : ParseNode)
       (p2 : Nat) (bt : TypeExpression),
      (tok = .Plus ∨ tok = .Minus) →
      p_multiplicative_expression sema toks fuel (pos + 1) = .ok next p2 →
      sema.judge_combine_type l_type next.type_exp tok = (false, bt) →
      additive_fold sema toks (fuel + 1) child l_type pos tok =
        .err "can not use these types in a binary combination") ∧
    (∀ (sema : Sema) (toks : List TokType) (fuel : Nat) (child : ParseNode)
       (l_type : TypeExpression) (pos : Nat) (tok : TokType) (next : ParseNode)
       (p2 : Nat) (bt : TypeExpression),
      (tok = .LeftOp ∨ tok = .RightOp) →
      p_additive_expression sema toks fuel (pos + 1) = .ok next p2 →
      sema.judge_combine_type l_type next.type_exp tok = (false, bt) →
      shift_fold sema toks (fuel + 1) child l_type pos tok =
        .err "can not use these types in a binary combination") ∧
    (∀ (sema : Sema) (toks : List TokType) (fuel : Nat) (child : ParseNode)
       (l_type : TypeExpression) (pos : Nat) (tok : TokType) (next : ParseNode)
       (p2 : Nat) (bt : TypeExpression),
      (tok = .LeOp ∨ tok = .GeOp ∨ tok = .Lt ∨ tok = .Gt) →
      p_shift_expression sema toks fuel (pos + 1) = .ok next p2 →
      sema.judge_combine_type l_type next.type_exp tok = (false, bt) →
      relational_fold sema toks (fuel + 1) child l_type pos tok =
        .err "can not use these types in a binary combination") ∧
    (∀ (sema : Sema) (toks : List TokType) (fuel : Nat) (child : ParseNode)
       (l_type : TypeExpression) (pos : Nat) (tok : TokType) (next : ParseNode)
       (p2 : Nat) (bt : TypeExpression),
      (tok = .EqOp ∨ tok = .NeOp) →
      p_relational_expression sema toks fuel (pos + 1) = .ok next p2 →
      sema.judge_combine_type l_type next.type_exp tok = (false, bt) →
      equality_fold sema toks (fuel + 1) child l_type pos tok =
        .err "can not use these types in a binary combination") ∧
    (∀ (sema : Sema) (toks : List TokType) (fuel : Nat) (child : ParseNode)
       (l_type : TypeExpression) (pos : Nat) (tok : TokType) (next : ParseNode)
       (p2 : Nat) (bt : TypeExpression),
      (tok = .SingleAnd) →
      p_equality_expression sema toks fuel (pos + 1) = .ok next p2 →
      sema.judge_combine_type l_type next.type_exp tok = (false, bt) →
      and_fold sema toks (fuel + 1) child l_type pos tok =
        .err "can not use these types in a binary combination") ∧
    (∀ (sema : Sema) (toks : List TokType) (fuel : Nat) (child : ParseNode)
       (l_type : TypeExpression) (pos : Nat) (tok : TokType) (next : ParseNode)
       (p2 : Nat) (bt : TypeExpression),
      (tok = .ExclusiveOr) →
      p_and_expression sema toks fuel (pos + 1) = .ok next p2 →
      sema.judge_combine_type l_type next.type_exp tok = (false, bt) →
      exclusive_or_fold sema toks (fuel + 1) child l_type pos tok =
        .err "can not use these types in a binary combination") ∧
    (∀ (sema : Sema) (toks : List TokType) (fuel : Nat) (child : ParseNode)
       (l_type : TypeExpression) (pos : Nat) (tok : TokType) (next : ParseNode)
       (p2 : Nat) (bt : TypeExpression),
      (tok = .InclusiveOr) →
      p_exclusive_or_expression sema toks fuel (pos + 1) = .ok next p2 →
      sema.judge_combine_type l_type next.type_exp tok = (false, bt) →
      inclusive_or_fold sema toks (fuel + 1) child l_type pos tok =
        .err "can not use these types in a binary combination") ∧
    (∀ (sema : Sema) (toks : List TokType) (fuel : Nat) (child : ParseNode)
       (l_type : TypeExpression) (pos : Nat) (tok : TokType) (next : ParseNode)
       (p2 : Nat) (bt : TypeExpression),
      (tok = .AndOp) →
      p_inclusive_or_expression sema toks fuel (pos + 1) = .ok next p2 →
      sema.judge_combine_type l_type next.type_exp tok = (false, bt) →
      logical_and_fold sema toks (fuel + 1) child l_type pos tok =
        .err "can not use these types in a binary combination") ∧
    (∀ (sema : Sema) (toks : List TokType) (fuel : Nat) (child : ParseNode)
       (l_type : TypeExpression) (pos : Nat) (tok : TokType) (next : ParseNode)
       (p2 : Nat) (bt : TypeExpression),
      (tok = .OrOp) →
      p_logical_and_expression sema toks fuel (pos + 1) = .ok next p2 →
      sema.judge_combine_type l_type next.type_exp tok = (false, bt) →
      logical_or_fold sema toks (fuel + 1) child l_type pos tok =
        .err "can not use these types in a binary combination") := by
  refine ⟨?_, ?_, ?_, ?_, ?_, ?_, ?_, ?_, ?_, ?_, ?_, ?_, ?_, ?_, ?_, ?_, ?_, ?_, ?_, ?_⟩
  · intro sema toks fuel pos n p h
    obtain ⟨he, c, hc, hs, ha⟩ := p_multiplicative_spine h
    exact ⟨he, c, hc, hs⟩
  · intro sema toks fuel pos n p h
    obtain ⟨he, c, hc, hs, ha⟩ := p_additive_spine h
    exact ⟨he, c, hc, hs⟩
  · intro sema toks fuel pos n p h
    obtain ⟨he, c, hc, hs, ha⟩ := p_shift_spine h
    exact ⟨he, c, hc, hs⟩
  · intro sema toks fuel pos n p h
    obtain ⟨he, c, hc, hs, ha⟩ := p_relational_spine h
    exact ⟨he, c, hc, hs⟩
  · intro sema toks fuel pos n p h
    obtain ⟨he, c, hc, hs, ha⟩ := p_equality_spine h
    exact ⟨he, c, hc, hs⟩
  · intro sema toks fuel pos n p h
    obtain ⟨he, c, hc, hs, ha⟩ := p_and_spine h
    exact ⟨he, c, hc, hs⟩
  · intro sema toks fuel pos n p h
    obtain ⟨he, c, hc, hs, ha⟩ := p_exclusive_or_spine h
    exact ⟨he, c, hc, hs⟩
  · intro sema toks fuel pos n p h
    obtain ⟨he, c, hc, hs, ha⟩ := p_inclusive_or_spine h
    exact ⟨he, c, hc, hs⟩
  · intro sema toks fuel pos n p h
    obtain ⟨he, c, hc, hs, ha⟩ := p_logical_and_spine h
    exact ⟨he, c, hc, hs⟩
  · intro sema toks fuel pos n p h
    obtain ⟨he, c, hc, hs, ha⟩ := p_logical_or_spine h
    exact ⟨he, c, hc, hs⟩
  · intro sema toks fuel child l_type pos tok next p2 bt h1 h2 h3
    exact multiplicative_fold_reject h1 h2 h3
  · intro sema toks fuel child l_type pos tok next p2 bt h1 h2 h3
    exact additive_fold_reject h1 h2 h3
  · intro sema toks fuel child l_type pos tok next p2 bt h1 h2 h3
    exact shift_fold_reject h1 h2 h3
  · intro sema toks fuel child l_type pos tok next p2 bt h1 h2 h3
    exact relational_fold_reject h1 h2 h3
  · intro sema toks fuel child l_type pos tok next p2 bt h1 h2 h3
    exact equality_fold_reject h1 h2 h3
  · intro sema toks fuel child l_type pos tok next p2 bt h1 h2 h3
    exact and_fold_reject h1 h2 h3
  · intro sema toks fuel child l_type pos tok next p2 bt h1 h2 h3
    exact exclusive_or_fold_reject h1 h2 h3
  · intro sema toks fuel child l_type pos tok next p2 bt h1 h2 h3
    exact inclusive_or_fold_reject h1 h2 h3
  · intro sema toks fuel child l_type pos tok next p2 bt h1 h2 h3
    exact logical_and_fold_reject h1 h2 h3
  · intro sema toks fuel child l_type pos tok next p2 bt h1 h2 h3
    exact logical_or_fold_reject h1 h2 h3

/-- Concrete instance of C2: the spine of the parse of 1 * 2 is oracle-typed,
and the fold on 1 * 3.0 stops with the combination error. -/
theorem C2_fold_oracle_typing_witness :
    (c2mulNode.entry = .MultiplicativeExpression ∧
      ∃ c, c2mulNode.child = [c] ∧ leftSpineOk specSema c) ∧
    multiplicative_fold specSema c2toks 29 (ParseNode.new .CastExpression)
        (TypeExpression.new_val .Long) 1 .Multi =
      .err "can not use these types in a binary combination" :=
  ⟨(C2_fold_oracle_typing).1 specSema c2toksOk 30 0 c2mulNode 3 (by rfl),
   (C2_fold_oracle_typing).2.2.2.2.2.2.2.2.2.2.1 specSema c2toks 28
     (ParseNode.new .CastExpression) (TypeExpression.new_val .Long) 1 .Multi
     c2next 3 TypeExpression.new
     (Or.inr (Or.inl rfl)) (by rfl) (by rfl)⟩

/-- C3: every successfully parsed cascade is left-associative (no binary node
has a binary right child), and for a OP1 b OP2 c at one level the parsed tree
is exactly the concrete shape (a OP1 b) OP2 c. -/
theorem C3_left_associativity :
    (∀ (sema : Sema) (toks : List TokType) (fuel pos : Nat) (n : ParseNode) (p : Nat),
      p_multiplicative_expression sema toks fuel pos = .ok n p →
      n.entry = .MultiplicativeExpression ∧ ∃ c, n.child = [c] ∧ leftAssoc c) ∧
    (∀ (sema : Sema) (toks : List TokType) (fuel pos : Nat) (n : ParseNode) (p : Nat),
      p_additive_expression sema toks fuel pos = .ok n p →
      n.entry = .AdditiveExpression ∧ ∃ c, n.child = [c] ∧ leftAssoc c) ∧
    (∀ (sema : Sema) (toks : List TokType) (fuel pos : Nat) (n : ParseNode) (p : Nat),
      p_shift_expression sema toks fuel pos = .ok n p →
      n.entry = .ShiftExpression ∧ ∃ c, n.child = [c] ∧ leftAssoc c) ∧
    (∀ (sema : Sema) (toks : List TokType) (fuel pos : Nat) (n : ParseNode) (p : Nat),
      p_relational_expression sema toks fuel pos = .ok n p →
      n.entry = .RelationalExpression ∧ ∃ c, n.child = [c] ∧ leftAssoc c) ∧
    (∀ (sema : Sema) (toks : List TokType) (fuel pos : Nat) (n : ParseNode) (p : Nat),
      p_equality_expression sema toks fuel pos = .ok n p →
      n.entry = .EqualityExpression ∧ ∃ c, n.child = [c] ∧ leftAssoc c) ∧
    (∀ (sema : Sema) (toks : List TokType) (fuel pos : Nat) (n : ParseNode) (p : Nat),
      p_and_expression sema toks fuel pos = .ok n p →
      n.entry = .AndExpression ∧ ∃ c, n.child = [c] ∧ leftAssoc c) ∧
    (∀ (sema : Sema) (toks : List TokType) (fuel pos : Nat) (n : ParseNode) (p : Nat),
      p_exclusive_or_expression sema toks fuel pos = .ok n p →
      n.entry = .ExclusiveOrExpression ∧ ∃ c, n.child = [c] ∧ leftAssoc c) ∧
    (∀ (sema : Sema) (toks : List TokType) (fuel pos : Nat) (n : ParseNode) (p : Nat),
      p_inclusive_or_expression sema toks fuel pos = .ok n p →
      n.entry = .InclusiveOrExpression ∧ ∃ c, n.child = [c] ∧ leftAssoc c) ∧
    (∀ (sema : Sema) (toks : List TokType) (fuel pos : Nat) (n : ParseNode) (p : Nat),
      p_logical_and_expression sema toks fuel pos = .ok n p →
      n.entry = .LogicalAndExpression ∧ ∃ c, n.child = [c] ∧ leftAssoc c) ∧
    (∀ (sema : Sema) (toks : List TokType) (fuel pos : Nat) (n : ParseNode) (p : Nat),
      p_logical_or_expression sema toks fuel pos = .ok n p →
      n.entry = .LogicalOrExpression ∧ ∃ c, n.child = [c] ∧ leftAssoc c) ∧
    p_additive_expression specSema (triToks .Plus .Minus) 30 0 =
      .ok (leftTree .AdditiveExpression mulOperand .Plus .Minus) 5 ∧
    p_additive_expression specSema (triToks .Plus .Plus) 30 0 =
      .ok (leftTree .AdditiveExpression mulOperand .Plus .Plus) 5 ∧
    p_additive_expression specSema (triToks .Minus .Plus) 30 0 =
      .ok (leftTree .AdditiveExpression mulOperand .Minus .Plus) 5 ∧
    p_additive_expression specSema (triToks .Minus .Minus) 30 0 =
      .ok (leftTree .AdditiveExpression mulOperand .Minus .Minus) 5 ∧
    p_multiplicative_expression specSema (triToks .Multi .Splash) 30 0 =
      .ok (leftTree .MultiplicativeExpression castOperand .Multi .Splash) 5 ∧
    p_shift_expression specSema (triToks .LeftOp .RightOp) 30 0 =
      .ok (leftTree .ShiftExpression addOperand .LeftOp .RightOp) 5 ∧
    p_relational_expression specSema (triToks .Lt .Gt) 30 0 =
      .ok (leftTree .RelationalExpression shiftOperand .Lt .Gt) 5 ∧
    p_equality_expression specSema (triToks .EqOp .NeOp) 30 0 =
      .ok (leftTree .EqualityExpression relOperand .EqOp .NeOp) 5 ∧
    p_and_expression specSema (triToks .SingleAnd .SingleAnd) 30 0 =
      .ok (leftTree .AndExpression eqOperand .SingleAnd .SingleAnd) 5 ∧
    p_exclusive_or_expression specSema (triToks .ExclusiveOr .ExclusiveOr) 30 0 =
      .ok (leftTree .ExclusiveOrExpression andOperand .ExclusiveOr .ExclusiveOr) 5 ∧
    p_inclusive_or_expression specSema (triToks .InclusiveOr .InclusiveOr) 30 0 =
      .ok (leftTree .InclusiveOrExpression xorOperand .InclusiveOr .InclusiveOr) 5 ∧
    p_logical_and_expression specSema (triToks .AndOp .AndOp) 30 0 =
      .ok (leftTree .LogicalAndExpression iorOperand .AndOp .AndOp) 5 ∧
    p_logical_or_expression specSema (triToks .OrOp .OrOp) 30 0 =
      .ok (leftTree .LogicalOrExpression landOperand .OrOp .OrOp) 5 := by
  refine ⟨?_, ?_, ?_, ?_, ?_, ?_, ?_, ?_, ?_, ?_, rfl, rfl, rfl, rfl, rfl, rfl, rfl, rfl, rfl, rfl, rfl, rfl, rfl⟩
  · intro sema toks fuel pos n p h
    obtain ⟨he, c, hc, hs, ha⟩ := p_multiplicative_spine h
    exact ⟨he, c, hc, ha⟩
  · intro sema toks fuel pos n p h
    obtain ⟨he, c, hc, hs, ha⟩ := p_additive_spine h
    exact ⟨he, c, hc, ha⟩
  · intro sema toks fuel pos n p h
    obtain ⟨he, c, hc, hs, ha⟩ := p_shift_spine h
    exact ⟨he, c, hc, ha⟩
  · intro sema toks fuel pos n p h
    obtain ⟨he, c, hc, hs, ha⟩ := p_relational_spine h
    exact ⟨he, c, hc, ha⟩
  · intro sema toks fuel pos n p h
    obtain ⟨he, c, hc, hs, ha⟩ := p_equality_spine h
    exact ⟨he, c, hc, ha⟩
  · intro sema toks fuel pos n p h
    obtain ⟨he, c, hc, hs, ha⟩ := p_and_spine h
    exact ⟨he, c, hc, ha⟩
  · intro sema toks fuel pos n p h
    obtain ⟨he, c, hc, hs, ha⟩ := p_exclusive_or_spine h
    exact ⟨he, c, hc, ha⟩
  · intro sema toks fuel pos n p h
    obtain ⟨he, c, hc, hs, ha⟩ := p_inclusive_or_spine h
    exact ⟨he, c, hc, ha⟩
  · intro sema toks fuel pos n p h
    obtain ⟨he, c, hc, hs, ha⟩ := p_logical_and_spine h
    exact ⟨he, c, hc, ha⟩
  · intro sema toks fuel pos n p h
    obtain ⟨he, c, hc, hs, ha⟩ := p_logical_or_spine h
    exact ⟨he, c, hc, ha⟩

/-- Concrete instance of C3: the additive parse of 1 + 2 - 3 is
left-associative. -/
theorem C3_left_associativity_witness :
    (leftTree .AdditiveExpression mulOperand .Plus .Minus).entry = .AdditiveExpression ∧
    ∃ c, (leftTree .AdditiveExpression mulOperand .Plus .Minus).child = [c] ∧ leftAssoc c :=
  (C3_left_associativity).2.1 specSema (triToks .Plus .Minus) 30 0
    (leftTree .AdditiveExpression mulOperand .Plus .Minus) 5 (by rfl)

/-- C8: when the token after the single operand is not one of the cascade
level operators, the cascade node keeps exactly the operand type (identity
propagation, no oracle combination), at every level. -/
theorem C8_identity_propagation :
    (∀ (sema : Sema) (toks : List TokType) (fuel pos : Nat) (c : ParseNode)
       (p1 : Nat) (t : TokType),
      pos < toks.length →
      p_cast_expression sema toks fuel pos = .ok c p1 →
      toks[p1]? = some t →
      ¬(t = .Mod ∨ t = .Multi ∨ t = .Splash) →
      p_multiplicative_expression sema toks (fuel + 1) pos =
        .ok (((ParseNode.new .MultiplicativeExpression).withType c.type_exp).pushChild c) p1) ∧
    (∀ (sema : Sema) (toks : List TokType) (fuel pos : Nat) (c : ParseNode)
       (p1 : Nat) (t : TokType),
      pos < toks.length →
      p_multiplicative_expression sema toks fuel pos = .ok c p1 →
      toks[p1]? = some t →
      ¬(t = .Plus ∨ t = .Minus) →
      p_additive_expression sema toks (fuel + 1) pos =
        .ok (((ParseNode.new .AdditiveExpression).withType c.type_exp).pushChild c) p1) ∧
    (∀ (sema : Sema) (toks : List TokType) (fuel pos : Nat) (c : ParseNode)
       (p1 : Nat) (t : TokType),
      pos < toks.length →
      p_additive_expression sema toks fuel pos = .ok c p1 →
      toks[p1]? = some t →
      ¬(t = .LeftOp ∨ t = .RightOp) →
      p_shift_expression sema toks (fuel + 1) pos =
        .ok (((ParseNode.new .ShiftExpression).withType c.type_exp).pushChild c) p1) ∧
    (∀ (sema : Sema) (toks : List TokType) (fuel pos : Nat) (c : ParseNode)
       (p1 : Nat) (t : TokType),
      pos < toks.length →
      p_shift_expression sema toks fuel pos = .ok c p1 →
      toks[p1]? = some t →
      ¬(t = .LeOp ∨ t = .GeOp ∨ t = .Lt ∨ t = .Gt) →
      p_relational_expression sema toks (fuel + 1) pos =
        .ok (((ParseNode.new .RelationalExpression).withType c.type_exp).pushChild c) p1) ∧
    (∀ (sema : Sema) (toks : List TokType) (fuel pos : Nat) (c : ParseNode)
       (p1 : Nat) (t : TokType),
      pos < toks.length →
      p_relational_expression sema toks fuel pos = .ok c p1 →
      toks[p1]? = some t →
      ¬(t = .EqOp ∨ t = .NeOp) →
      p_equality_expression sema toks (fuel + 1) pos =
        .ok (((ParseNode.new .EqualityExpression).withType c.type_exp).pushChild c) p1) ∧
    (∀ (sema : Sema) (toks : List TokType) (fuel pos : Nat) (c : ParseNode)
       (p1 : Nat) (t : TokType),
      pos < toks.length →
      p_equality_expression sema toks fuel pos = .ok c p1 →
      toks[p1]? = some t →
      ¬(t = .SingleAnd) →
      p_and_expression sema toks (fuel + 1) pos =
        .ok (((ParseNode.new .AndExpression).withType c.type_exp).pushChild c) p1) ∧
    (∀ (sema : Sema) (toks : List TokType) (fuel pos : Nat) (c : ParseNode)
       (p1 : Nat) (t : TokType),
      pos < toks.length →
      p_and_expression sema toks fuel pos = .ok c p1 →
      toks[p1]? = some t →
      ¬(t = .ExclusiveOr) →
      p_exclusive_or_expression sema toks (fuel + 1) pos =
        .ok (((ParseNode.new .ExclusiveOrExpression).withType c.type_exp).pushChild c) p1) ∧
    (∀ (sema : Sema) (toks : List TokType) (fuel pos : Nat) (c : ParseNode)
       (p1 : Nat) (t : TokType),
      pos < toks.length →
      p_exclusive_or_expression sema toks fuel pos = .ok c p1 →
      toks[p1]? = some t →
      ¬(t = .InclusiveOr) →
      p_inclusive_or_expression sema toks (fuel + 1) pos =
        .ok (((ParseNode.new .InclusiveOrExpression).withType c.type_exp).pushChild c) p1) ∧
    (∀ (sema : Sema) (toks : List TokType) (fuel pos : Nat) (c : ParseNode)
       (p1 : Nat) (t : TokType),
      pos < toks.length →
      p_inclusive_or_expression sema toks fuel pos = .ok c p1 →
      toks[p1]? = some t →
      ¬(t = .AndOp) →
      p_logical_and_expression sema toks (fuel + 1) pos =
        .ok (((ParseNode.new .LogicalAndExpression).withType c.type_exp).pushChild c) p1) ∧
    (∀ (sema : Sema) (toks : List TokType) (fuel pos : Nat) (c : ParseNode)
       (p1 : Nat) (t : TokType),
      pos < toks.length →
      p_logical_and_expression sema toks fuel pos = .ok c p1 →
      toks[p1]? = some t →
      ¬(t = .OrOp) →
      p_logical_or_expression sema toks (fuel + 1) pos =
        .ok (((ParseNode.new .LogicalOrExpression).withType c.type_exp).pushChild c) p1) := by
  refine ⟨?_, ?_, ?_, ?_, ?_, ?_, ?_, ?_, ?_, ?_⟩
  · intro sema toks fuel pos c p1 t h1 h2 h3 h4
    exact p_multiplicative_expression_identity h1 h2 h3 h4
  · intro sema toks fuel pos c p1 t h1 h2 h3 h4
    exact p_additive_expression_identity h1 h2 h3 h4
  · intro sema toks fuel pos c p1 t h1 h2 h3 h4
    exact p_shift_expression_identity h1 h2 h3 h4
  · intro sema toks fuel pos c p1 t h1 h2 h3 h4
    exact p_relational_expression_identity h1 h2 h3 h4
  · intro sema toks fuel pos c p1 t h1 h2 h3 h4
    exact p_equality_expression_identity h1 h2 h3 h4
  · intro sema toks fuel pos c p1 t h1 h2 h3 h4
    exact p_and_expression_identity h1 h2 h3 h4
  · intro sema toks fuel pos c p1 t h1 h2 h3 h4
    exact p_exclusive_or_expression_identity h1 h2 h3 h4
  · intro sema toks fuel pos c p1 t h1 h2 h3 h4
    exact p_inclusive_or_expression_identity h1 h2 h3 h4
  · intro sema toks fuel pos c p1 t h1 h2 h3 h4
    exact p_logical_and_expression_identity h1 h2 h3 h4
  · intro sema toks fuel pos c p1 t h1 h2 h3 h4
    exact p_logical_or_expression_identity h1 h2 h3 h4

/-- Concrete instance of C8: a lone constant before a semicolon passes through
the multiplicative level with its type unchanged. -/
theorem C8_identity_propagation_witness :
    p_multiplicative_expression specSema c8toks 30 0 =
      .ok (((ParseNode.new .MultiplicativeExpression).withType c8cast.type_exp).pushChild c8cast) 1 :=
  (C8_identity_propagation).1 specSema c8toks 29 0 c8cast 1 .Semicolon
    (by decide) (by rfl) (by rfl) (by decide)

/-- C4: the cast (int)(1) is claimed to parse, but the parse returns an error:
after the type name the position is not advanced past the closing parenthesis,
so the operand parse restarts on that parenthesis and fails. The oracle is not
at fault: it accepts the int-from-long cast. -/
theorem C4_cast_counterexample :
    p_cast_expression specSema [.LParen, .INT, .RParen, .LParen, .IConstant 1, .RParen] 30 0 =
      .err "Error parse cast_expression" ∧
    specSema.judge_cast (TypeExpression.new_val .Int) (TypeExpression.new_val .Long) = true :=
  ⟨rfl, rfl⟩

/-- C5: on a , b , ) the list rule does return exactly two items, but the
returned position is 2 - the second argument - not 3, the trailing comma: the
failing-item recovery subtracts one from the comma position itself. -/
theorem C5_argument_list_counterexample :
    p_argument_expression_list specSema c5toks 30 0 = .ok c5node 2 ∧
    c5node.child.length = 2 ∧
    c5toks[3]? = some .Comma :=
  ⟨rfl, rfl, rfl⟩

/-- C6: a ternary parse requires the condition type to match one of the six
scalar candidates and the two branches to be oracle-equal, and types the node
with the false branch's type; concretely 1 ? 2 : 3.0 fails with the mismatch
error and 1 ? 2 : 3 parses with type Long. -/
theorem C6_ternary_typing :
    (∀ (sema : Sema) (toks : List TokType) (fuel pos : Nat) (n : ParseNode)
       (p : Nat) (c t fc : ParseNode),
      p_conditional_expression sema toks fuel pos = .ok n p →
      n.child = [c, t, fc] →
      (sema.judge_type_same c.type_exp (TypeExpression.new_val .Int) ||
       sema.judge_type_same c.type_exp (TypeExpression.new_val .Bool) ||
       sema.judge_type_same c.type_exp (TypeExpression.new_val .Long) ||
       sema.judge_type_same c.type_exp (TypeExpression.new_val .Signed) ||
       sema.judge_type_same c.type_exp (TypeExpression.new_val .Unsigned) ||
       sema.judge_type_same c.type_exp (TypeExpression.new_val .Char)) = true ∧
      sema.judge_type_same t.type_exp fc.type_exp = true ∧
      n.type_exp = fc.type_exp) ∧
    p_conditional_expression specSema c6toksBad 30 0 =
      .err "Two option expression in Teneray Expression has different type" ∧
    p_conditional_expression specSema c6toks 30 0 = .ok c6node 5 ∧
    c6node.type_exp = TypeExpression.new_val .Long := by
  refine ⟨?_, rfl, rfl, rfl⟩
  intro sema toks fuel pos n p c t fc h hch
  exact p_conditional_ternary h hch

/-- Concrete instance of C6: the parsed ternary 1 ? 2 : 3 passed the condition
check, its branches are type-equal, and it carries the false branch's type. -/
theorem C6_ternary_typing_witness :
    (specSema.judge_type_same c6cond.type_exp (TypeExpression.new_val .Int) ||
     specSema.judge_type_same c6cond.type_exp (TypeExpression.new_val .Bool) ||
     specSema.judge_type_same c6cond.type_exp (TypeExpression.new_val .Long) ||
     specSema.judge_type_same c6cond.type_exp (TypeExpression.new_val .Signed) ||
     specSema.judge_type_same c6cond.type_exp (TypeExpression.new_val .Unsigned) ||
     specSema.judge_type_same c6cond.type_exp (TypeExpression.new_val .Char)) = true ∧
    specSema.judge_type_same c6thenNode.type_exp c6elseNode.type_exp = true ∧
    c6node.type_exp = c6elseNode.type_exp :=
  (C6_ternary_typing).1 specSema c6toks 30 0 c6node 5 c6cond c6thenNode c6elseNode
    (by rfl) (by rfl)

/-- C7: an IConstant token parses to a constant node typed Long, never Int; in
particular the single token 1 does. -/
theorem C7_integer_constant_long :
    (∀ (toks : List TokType) (pos : Nat) (i : Int),
      toks[pos]? = some (.IConstant i) →
      p_constant toks pos =
        .ok ((ParseNode.new (.Constant (.I64 i))).withType (TypeExpression.new_val .Long))
          (pos + 1)) ∧
    p_constant [.IConstant 1] 0 =
      .ok ((ParseNode.new (.Constant (.I64 1))).withType (TypeExpression.new_val .Long)) 1 :=
  ⟨fun _ _ _ h => p_constant_long h, rfl⟩

/-- Concrete instance of C7: the token 5 parses to a Long constant node. -/
theorem C7_integer_constant_long_witness :
    p_constant [.IConstant 5] 0 =
      .ok ((ParseNode.new (.Constant (.I64 5))).withType (TypeExpression.new_val .Long)) 1 :=
  (C7_integer_constant_long).1 [.IConstant 5] 0 5 rfl

/-- C9: a successful sizeof or _Alignof unary expression is typed SizeT
whatever the operand or named type. -/
theorem C9_sizeof_sizet (sema : Sema) (toks : List TokType) (fuel pos : Nat)
    (n : ParseNode) (p : Nat)
    (htok : toks[pos]? = some .SIZEOF ∨ toks[pos]? = some .ALIGNOF)
    (h : p_unary_expression sema toks fuel pos = .ok n p) :
    n.type_exp = TypeExpression.new_val .SizeT :=
  p_unary_sizeof_type htok h

/-- Concrete instance of C9: sizeof x parses to a node typed SizeT. -/
theorem C9_sizeof_sizet_witness :
    c9node.type_exp = TypeExpression.new_val .SizeT :=
  C9_sizeof_sizet specSema c9toks 30 0 c9node 2 (Or.inl rfl) (by rfl)

/-- C10: the parsing functions are not total: a lone constant makes the
multiplicative cascade read one token past the end, a lone sizeof does the
same, and the driver on the truncated declaration int x = 1 faults instead of
returning an error. -/
theorem C10_out_of_bounds_counterexample :
    p_multiplicative_expression specSema [.IConstant 1] 30 0 = .fault ∧
    p_unary_expression specSema [.SIZEOF] 30 0 = .fault ∧
    parser_driver specSema [.INT, .IDENTIFIER "x", .Assign, .IConstant 1] 60 "t.c" = .fault :=
  ⟨rfl, rfl, rfl⟩

end Crust
